import Mathlib

/-!
Verification of the Angular template-compilation pipeline core
(`packages/compiler/src/template/pipeline`): a shallow embedding in Lean of
the ingestion, transformation-phase and reification code, with theorems
settling the specified behaviors.

Sources embedded:
* `src/phases/resolve_sanitizers.ts` — sanitizer resolution phase.
* `src/phases/resolve_dollar_event.ts` — `$event` resolution phase.
* `src/phases/create_i18n_contexts.ts` — i18n context creation phase.
* `src/ingest.ts` — ingestion (control-flow insertion point, defer triggers,
  expression conversion).
* reify.ts (unnamed part) — reification of ops and IR expressions.

Supporting IR infrastructure (the `ir` op/expression module, the `ng`
instruction constructors and op-list utilities) is not part of the provided
sources; where a definition embeds such infrastructure it is modelled from
the specification and says so in its doc comment.
-/

namespace Pipeline

/-- `XrefId`: opaque unique integer naming an IR entity (spec §3). -/
abbrev XrefId := Nat

/-- A late-bound reference to a physical storage slot; starts unresolved
(`none`) and is filled by the slot-allocation phase (spec §3). -/
structure SlotHandle where
  slot : Option Nat
deriving DecidableEq, Repr

/-- Security contexts, from `packages/core` (`SecurityContext` enum). -/
inductive SecurityContext where
  | NONE
  | HTML
  | STYLE
  | SCRIPT
  | URL
  | RESOURCE_URL
deriving DecidableEq, Repr

/-- Sanitizer functions, from the `ir.SanitizerFn` enum. -/
inductive SanitizerFn where
  | Html
  | Script
  | Style
  | Url
  | ResourceUrl
  | IframeAttribute
deriving DecidableEq, Repr

namespace Sanitize

/-!
Embedding of `src/phases/resolve_sanitizers.ts`. The phase walks every
unit's update ops and fills the `sanitizer` field of Property/Attribute ops.
-/

/-- Mapping of security contexts to sanitizer function for that context
(`resolve_sanitizers.ts`, the `sanitizers` map; `map.get(..) || null`
yields `none` for absent contexts). -/
def sanitizers : SecurityContext → Option SanitizerFn
  | .HTML => some .Html
  | .SCRIPT => some .Script
  | .STYLE => some .Style
  | .URL => some .Url
  | .RESOURCE_URL => some .ResourceUrl
  | .NONE => none

/-- Create-op kinds relevant to owner resolution (projection of the
`ir.OpKind` tags of ops that can own a binding). -/
inductive CreateOpKind where
  | ElementStart
  | Element
  | ContainerStart
  | Container
  | Template
  | RepeaterCreate
  | Other
deriving DecidableEq, Repr

/-- Projection of a create op onto the fields the sanitizer phase reads:
its kind tag, its `xref` and its `tag` name. -/
structure CreateOp where
  kind : CreateOpKind
  xref : XrefId
  tag : Option String
deriving DecidableEq, Repr

/-- Modelled from the spec: `ir.isElementOrContainerOp` (the `ir` module is
not among the provided sources) — whether an op is "element-like", i.e. one
of the element/container/template op kinds of the op model (spec §3). -/
def isElementOrContainerOp (op : CreateOp) : Bool :=
  match op.kind with
  | .ElementStart | .Element | .ContainerStart | .Container | .Template
  | .RepeaterCreate => true
  | .Other => false

/-- ASCII lower-casing of a tag name (JS `String.prototype.toLowerCase`
restricted to the ASCII names HTML tags use), written structurally. -/
def lowerString (s : String) : String :=
  String.mk (s.data.map Char.toLower)

/-- Checks whether the given op represents an iframe element
(`resolve_sanitizers.ts`, `isIframeElement`). -/
def isIframeElement (op : CreateOp) : Bool :=
  op.kind == .ElementStart && ((op.tag.map lowerString) == some "iframe")

/-- Update-op kinds the sanitizer phase distinguishes: `Property`,
`Attribute`, and everything else (which its `switch` ignores). -/
inductive UpdateOpKind where
  | Property
  | Attribute
  | Other
deriving DecidableEq, Repr

/-- Projection of an update op onto the fields the sanitizer phase touches:
kind, binding name, target xref, declared security context, and the
`sanitizer` field it fills in (`none` = the TS `null`). -/
structure UpdateOp where
  kind : UpdateOpKind
  name : String
  target : XrefId
  securityContext : SecurityContext
  sanitizer : Option SanitizerFn
deriving DecidableEq, Repr

/-- A compilation unit as seen by this phase: its create and update op
lists. -/
structure Unit' where
  create : List CreateOp
  update : List UpdateOp
deriving DecidableEq, Repr

/-- Modelled from the spec: `createOpXrefMap` from `src/util/elements.ts`
(not among the provided sources) — resolves an op's declared target xref to
the consumer op that declared it, here the first create op carrying that
xref. -/
def createOpXrefMap (unit : Unit') (target : XrefId) : Option CreateOp :=
  unit.create.find? (fun c => c.xref == target)

/-- The body of the Property/Attribute case of `resolveSanitizers`
(`resolve_sanitizers.ts` lines 33–50), for a single op: look the security
context up in the `sanitizers` table; if that yields no sanitizer, the
owner op must resolve and be element-like (else a fatal error), and the
dedicated iframe sanitizer applies exactly to security-sensitive attributes
of `<iframe>` elements. `isIframeSecuritySensitiveAttr` (from
`dom_security_schema.ts`, not among the provided sources) is a parameter. -/
def resolveSanitizerOfOp (isIframeSecuritySensitiveAttr : String → Bool)
    (elements : XrefId → Option CreateOp) (op : UpdateOp) :
    Except String UpdateOp :=
  match op.kind with
  | .Property | .Attribute =>
    let sanitizerFn := sanitizers op.securityContext
    let op' := { op with sanitizer := sanitizerFn }
    if op'.sanitizer = none then
      match elements op.target with
      | none => .error "Property should have an element-like owner"
      | some ownerOp =>
        if !isElementOrContainerOp ownerOp then
          .error "Property should have an element-like owner"
        else if isIframeElement ownerOp && isIframeSecuritySensitiveAttr op.name then
          .ok { op' with sanitizer := some .IframeAttribute }
        else
          .ok op'
    else
      .ok op'
  | .Other => .ok op

/-- `resolveSanitizers` over one unit: builds the xref map from the unit's
create ops and processes each update op in order
(`resolve_sanitizers.ts` lines 28–53). -/
def resolveSanitizersUnit (isIframeSecuritySensitiveAttr : String → Bool)
    (unit : Unit') : Except String Unit' := do
  let update' ← unit.update.mapM
    (resolveSanitizerOfOp isIframeSecuritySensitiveAttr (createOpXrefMap unit))
  return { unit with update := update' }

/-- Resolves sanitization functions for ops that need them, across all units
of the job (`resolveSanitizers`). -/
def resolveSanitizers (isIframeSecuritySensitiveAttr : String → Bool)
    (units : List Unit') : Except String (List Unit') :=
  units.mapM (resolveSanitizersUnit isIframeSecuritySensitiveAttr)

/-- The per-op property asserted of successful sanitizer resolution,
written from the specification's words (not from the phase code): a
Property/Attribute op's `sanitizer` comes from the fixed table; on a table
miss the op's target must resolve to an element-like owner, and the
iframe-attribute sanitizer applies exactly to iframe-security-sensitive
attribute names on an `<iframe>` owner. -/
def sanitizerClaimHolds (sens : String → Bool) (u : Unit') (op op' : UpdateOp) : Bool :=
  match op.kind with
  | .Other => true
  | _ =>
    match sanitizers op.securityContext with
    | some fn => op'.sanitizer == some fn
    | none =>
      match createOpXrefMap u op.target with
      | none => false
      | some owner =>
        isElementOrContainerOp owner &&
        (op'.sanitizer ==
          if isIframeElement owner && sens op.name then
            some SanitizerFn.IframeAttribute
          else none)

end Sanitize

/-- Primitive literal values (JS values carried by `o.LiteralExpr` /
`e.LiteralPrimitive`). -/
inductive LitVal where
  | str (s : String)
  | num (n : Int)
  | bool (b : Bool)
  | null
  | undef
deriving DecidableEq, Repr

/-- Output-AST binary operators (`o.BinaryOperator`). -/
inductive BinaryOp where
  | Equals
  | NotEquals
  | Identical
  | NotIdentical
  | Minus
  | Plus
  | Divide
  | Multiply
  | Modulo
  | And
  | Or
  | BitwiseAnd
  | Lower
  | LowerEquals
  | Bigger
  | BiggerEquals
  | NullishCoalesce
deriving DecidableEq, Repr

mutual

/-- Expressions: the output-AST forms (`o.Expression`) together with the
IR-specific forms (`ir.Expression`, which subclasses `o.Expression`).
Modelled from the spec where the `ir`/`output_ast` modules are not among
the provided sources; constructor payloads follow the fields the provided
sources read. `literalMap` carries its keys (name, quoted) and values as
two parallel lists. -/
inductive Expr where
  | readVar (name : String)
  | writeVar (name : String) (value : Expr)
  | readProp (receiver : Expr) (name : String)
  | writeProp (receiver : Expr) (name : String) (value : Expr)
  | readKey (receiver index : Expr)
  | writeKey (receiver index value : Expr)
  | invokeFn (fn : Expr) (args : List Expr)
  | literal (value : LitVal)
  | literalArray (entries : List Expr)
  | literalMap (keys : List (String × Bool)) (values : List Expr)
  | binary (op : BinaryOp) (lhs rhs : Expr)
  | conditional (cond trueCase falseCase : Expr)
  | importedRef (name : String)
  | fnExpr (params : List String) (body : List Stmt) (name : Option String)
  | lexicalRead (name : String)
  | contextExpr (view : XrefId)
  | pipeBinding (target : XrefId) (targetSlot : SlotHandle) (varOffset : Option Nat)
      (name : String) (args : List Expr)
  | pipeBindingVariadic (target : XrefId) (targetSlot : SlotHandle) (varOffset : Option Nat)
      (name : String) (args : Expr) (numArgs : Nat)
  | safePropertyRead (receiver : Expr) (name : String)
  | safeKeyedRead (receiver index : Expr)
  | safeInvokeFn (receiver : Expr) (args : List Expr)
  | emptyExpr
  | nextContext (steps : Nat)
  | reference (targetSlot : SlotHandle) (offset : Nat)
  | restoreViewRaw (view : XrefId)
  | restoreViewExpr (view : Expr)
  | resetView (expr : Expr)
  | getCurrentView
  | readVariable (xref : XrefId) (name : Option String)
  | readTemporary (xref : XrefId) (name : Option String)
  | assignTemporary (xref : XrefId) (name : Option String) (expr : Expr)
  | pureFunctionExpr (varOffset : Option Nat) (fn : Option Expr) (args : List Expr)
  | pureFunctionParameter
  | sanitizerExpr (fn : SanitizerFn)
  | slotLiteral (slot : SlotHandle)

/-- Output statements (`o.Statement`): expression statements, returns, and
final variable declarations, which are the statement forms the embedded
sources construct. -/
inductive Stmt where
  | exprStmt (expr : Expr)
  | returnStmt (expr : Expr)
  | declareVar (name : String) (init : Expr)

end

/-- Whether an expression node is an IR-specific expression kind
(`ir.isIrExpression`: the expression subclasses the `ir` expression base). -/
def isIrExpressionNode : Expr → Bool
  | .lexicalRead _ | .contextExpr _ | .pipeBinding _ _ _ _ _
  | .pipeBindingVariadic _ _ _ _ _ _ | .safePropertyRead _ _ | .safeKeyedRead _ _
  | .safeInvokeFn _ _ | .emptyExpr | .nextContext _ | .reference _ _
  | .restoreViewRaw _ | .restoreViewExpr _ | .resetView _ | .getCurrentView
  | .readVariable _ _ | .readTemporary _ _ | .assignTemporary _ _ _
  | .pureFunctionExpr _ _ _ | .pureFunctionParameter | .sanitizerExpr _
  | .slotLiteral _ => true
  | _ => false

mutual

/-- Modelled from the spec: the `ir` expression-visitor utility
(`transformExpressionsInExpression`): transforms every sub-expression
bottom-up, then applies the transform to the rebuilt node itself. -/
def transformExpr (f : Expr → Expr) : Expr → Expr
  | .readVar name => f (.readVar name)
  | .writeVar name value => f (.writeVar name (transformExpr f value))
  | .readProp receiver name => f (.readProp (transformExpr f receiver) name)
  | .writeProp receiver name value =>
    f (.writeProp (transformExpr f receiver) name (transformExpr f value))
  | .readKey receiver index => f (.readKey (transformExpr f receiver) (transformExpr f index))
  | .writeKey receiver index value =>
    f (.writeKey (transformExpr f receiver) (transformExpr f index) (transformExpr f value))
  | .invokeFn fn args => f (.invokeFn (transformExpr f fn) (transformExprList f args))
  | .literal value => f (.literal value)
  | .literalArray entries => f (.literalArray (transformExprList f entries))
  | .literalMap keys values => f (.literalMap keys (transformExprList f values))
  | .binary op lhs rhs => f (.binary op (transformExpr f lhs) (transformExpr f rhs))
  | .conditional cond t e =>
    f (.conditional (transformExpr f cond) (transformExpr f t) (transformExpr f e))
  | .importedRef name => f (.importedRef name)
  | .fnExpr params body name => f (.fnExpr params (transformStmtList f body) name)
  | .lexicalRead name => f (.lexicalRead name)
  | .contextExpr view => f (.contextExpr view)
  | .pipeBinding target slot off name args =>
    f (.pipeBinding target slot off name (transformExprList f args))
  | .pipeBindingVariadic target slot off name args n =>
    f (.pipeBindingVariadic target slot off name (transformExpr f args) n)
  | .safePropertyRead receiver name => f (.safePropertyRead (transformExpr f receiver) name)
  | .safeKeyedRead receiver index =>
    f (.safeKeyedRead (transformExpr f receiver) (transformExpr f index))
  | .safeInvokeFn receiver args =>
    f (.safeInvokeFn (transformExpr f receiver) (transformExprList f args))
  | .emptyExpr => f .emptyExpr
  | .nextContext steps => f (.nextContext steps)
  | .reference slot offset => f (.reference slot offset)
  | .restoreViewRaw view => f (.restoreViewRaw view)
  | .restoreViewExpr view => f (.restoreViewExpr (transformExpr f view))
  | .resetView expr => f (.resetView (transformExpr f expr))
  | .getCurrentView => f .getCurrentView
  | .readVariable xref name => f (.readVariable xref name)
  | .readTemporary xref name => f (.readTemporary xref name)
  | .assignTemporary xref name expr => f (.assignTemporary xref name (transformExpr f expr))
  | .pureFunctionExpr off fn args =>
    f (.pureFunctionExpr off (transformExprOpt f fn) (transformExprList f args))
  | .pureFunctionParameter => f .pureFunctionParameter
  | .sanitizerExpr fn => f (.sanitizerExpr fn)
  | .slotLiteral slot => f (.slotLiteral slot)

/-- Transform of an optional sub-expression. -/
def transformExprOpt (f : Expr → Expr) : Option Expr → Option Expr
  | none => none
  | some e => some (transformExpr f e)

/-- Transform of a list of sub-expressions, in order. -/
def transformExprList (f : Expr → Expr) : List Expr → List Expr
  | [] => []
  | e :: es => transformExpr f e :: transformExprList f es

/-- Transform of the expressions of one statement. -/
def transformStmt (f : Expr → Expr) : Stmt → Stmt
  | .exprStmt e => .exprStmt (transformExpr f e)
  | .returnStmt e => .returnStmt (transformExpr f e)
  | .declareVar name init => .declareVar name (transformExpr f init)

/-- Transform of the expressions of a statement list, in order. -/
def transformStmtList (f : Expr → Expr) : List Stmt → List Stmt
  | [] => []
  | s :: ss => transformStmt f s :: transformStmtList f ss

end

mutual

/-- Whether any expression node (the node itself or a descendant)
satisfies the predicate. -/
def anyExprNode (p : Expr → Bool) : Expr → Bool
  | .readVar name => p (.readVar name)
  | .writeVar name value => p (.writeVar name value) || anyExprNode p value
  | .readProp receiver name => p (.readProp receiver name) || anyExprNode p receiver
  | .writeProp receiver name value =>
    p (.writeProp receiver name value) || anyExprNode p receiver || anyExprNode p value
  | .readKey receiver index =>
    p (.readKey receiver index) || anyExprNode p receiver || anyExprNode p index
  | .writeKey receiver index value =>
    p (.writeKey receiver index value) || anyExprNode p receiver || anyExprNode p index ||
      anyExprNode p value
  | .invokeFn fn args => p (.invokeFn fn args) || anyExprNode p fn || anyExprNodeList p args
  | .literal value => p (.literal value)
  | .literalArray entries => p (.literalArray entries) || anyExprNodeList p entries
  | .literalMap keys values => p (.literalMap keys values) || anyExprNodeList p values
  | .binary op lhs rhs => p (.binary op lhs rhs) || anyExprNode p lhs || anyExprNode p rhs
  | .conditional cond t e =>
    p (.conditional cond t e) || anyExprNode p cond || anyExprNode p t || anyExprNode p e
  | .importedRef name => p (.importedRef name)
  | .fnExpr params body name => p (.fnExpr params body name) || anyExprNodeStmtList p body
  | .lexicalRead name => p (.lexicalRead name)
  | .contextExpr view => p (.contextExpr view)
  | .pipeBinding target slot off name args =>
    p (.pipeBinding target slot off name args) || anyExprNodeList p args
  | .pipeBindingVariadic target slot off name args n =>
    p (.pipeBindingVariadic target slot off name args n) || anyExprNode p args
  | .safePropertyRead receiver name =>
    p (.safePropertyRead receiver name) || anyExprNode p receiver
  | .safeKeyedRead receiver index =>
    p (.safeKeyedRead receiver index) || anyExprNode p receiver || anyExprNode p index
  | .safeInvokeFn receiver args =>
    p (.safeInvokeFn receiver args) || anyExprNode p receiver || anyExprNodeList p args
  | .emptyExpr => p .emptyExpr
  | .nextContext steps => p (.nextContext steps)
  | .reference slot offset => p (.reference slot offset)
  | .restoreViewRaw view => p (.restoreViewRaw view)
  | .restoreViewExpr view => p (.restoreViewExpr view) || anyExprNode p view
  | .resetView expr => p (.resetView expr) || anyExprNode p expr
  | .getCurrentView => p .getCurrentView
  | .readVariable xref name => p (.readVariable xref name)
  | .readTemporary xref name => p (.readTemporary xref name)
  | .assignTemporary xref name expr => p (.assignTemporary xref name expr) || anyExprNode p expr
  | .pureFunctionExpr off fn args =>
    p (.pureFunctionExpr off fn args) || anyExprNodeOpt p fn || anyExprNodeList p args
  | .pureFunctionParameter => p .pureFunctionParameter
  | .sanitizerExpr fn => p (.sanitizerExpr fn)
  | .slotLiteral slot => p (.slotLiteral slot)

/-- `anyExprNode` over an optional expression. -/
def anyExprNodeOpt (p : Expr → Bool) : Option Expr → Bool
  | none => false
  | some e => anyExprNode p e

/-- `anyExprNode` over a list of expressions. -/
def anyExprNodeList (p : Expr → Bool) : List Expr → Bool
  | [] => false
  | e :: es => anyExprNode p e || anyExprNodeList p es

/-- `anyExprNode` over one statement's expressions. -/
def anyExprNodeStmt (p : Expr → Bool) : Stmt → Bool
  | .exprStmt e => anyExprNode p e
  | .returnStmt e => anyExprNode p e
  | .declareVar _ init => anyExprNode p init

/-- `anyExprNode` over a statement list. -/
def anyExprNodeStmtList (p : Expr → Bool) : List Stmt → Bool
  | [] => false
  | s :: ss => anyExprNodeStmt p s || anyExprNodeStmtList p ss

end

namespace Ingest

/-!
Embedding of the pieces of `src/ingest.ts` the claims address: expression
conversion (`convertAst`), the control-flow insertion point
(`ingestControlFlowInsertionPoint` and its use by `ingestIfBlock`), and
defer-trigger ingestion (`ingestDeferBlock`).
-/

/-- Template-expression AST nodes (`expression_parser/ast`, the `e.*`
classes `convertAst` dispatches on). `astWithSource` models
`e.ASTWithSource`; `thisReceiver` models `e.ThisReceiver`, which in the
source is a subclass of `e.ImplicitReceiver`. -/
inductive EAst where
  | astWithSource (ast : EAst)
  | propertyRead (receiver : EAst) (name : String)
  | propertyWrite (receiver : EAst) (name : String) (value : EAst)
  | keyedWrite (receiver key value : EAst)
  | call (receiver : EAst) (args : List EAst)
  | literalPrimitive (value : LitVal)
  | binary (operation : String) (left right : EAst)
  | thisReceiver
  | implicitReceiver
  | keyedRead (receiver key : EAst)
  | chain (expressions : List EAst)
  | literalMap (keys : List (String × Bool)) (values : List EAst)
  | literalArray (expressions : List EAst)
  | conditional (condition trueExp falseExp : EAst)
  | nonNullAssert (expression : EAst)
  | bindingPipe (name : String) (exp : EAst) (args : List EAst)
  | safeKeyedRead (receiver key : EAst)
  | safePropertyRead (receiver : EAst) (name : String)
  | safeCall (receiver : EAst) (args : List EAst)
  | emptyExpr

/-- The source's `ast instanceof e.ImplicitReceiver` test: true for
`e.ImplicitReceiver` and its subclass `e.ThisReceiver`. -/
def isImplicitReceiverAst : EAst → Bool
  | .implicitReceiver | .thisReceiver => true
  | _ => false

/-- Modelled from the spec: the fixed operator-symbol lookup
`BINARY_OPERATORS` from `conversion.ts` (not among the provided sources). -/
def BINARY_OPERATORS : String → Option BinaryOp
  | "&&" => some .And
  | ">" => some .Bigger
  | ">=" => some .BiggerEquals
  | "&" => some .BitwiseAnd
  | "/" => some .Divide
  | "==" => some .Equals
  | "===" => some .Identical
  | "<" => some .Lower
  | "<=" => some .LowerEquals
  | "-" => some .Minus
  | "%" => some .Modulo
  | "*" => some .Multiply
  | "!=" => some .NotEquals
  | "!==" => some .NotIdentical
  | "??" => some .NullishCoalesce
  | "||" => some .Or
  | "+" => some .Plus
  | _ => none

mutual

/-- `convertAst` (`ingest.ts` lines 571–677): converts one template
expression into an output expression. `rootXref` is `job.root.xref`, and
`next` threads the job's monotonic `XrefId` allocator (used by pipe
bindings); source spans are dropped from the model. -/
def convertAst (ast : EAst) (rootXref : XrefId) (next : XrefId) :
    Except String (Expr × XrefId) :=
  match ast with
  | .astWithSource inner => convertAst inner rootXref next
  | .propertyRead receiver name =>
    if isImplicitReceiverAst receiver && !(receiver matches .thisReceiver) then
      pure (.lexicalRead name, next)
    else do
      let (r, next) ← convertAst receiver rootXref next
      pure (.readProp r name, next)
  | .propertyWrite receiver name value =>
    if isImplicitReceiverAst receiver then do
      let (v, next) ← convertAst value rootXref next
      pure (.writeProp (.contextExpr rootXref) name v, next)
    else do
      let (r, next) ← convertAst receiver rootXref next
      let (v, next) ← convertAst value rootXref next
      pure (.writeProp r name v, next)
  | .keyedWrite receiver key value => do
    let (r, next) ← convertAst receiver rootXref next
    let (k, next) ← convertAst key rootXref next
    let (v, next) ← convertAst value rootXref next
    pure (.writeKey r k v, next)
  | .call receiver args =>
    if isImplicitReceiverAst receiver then
      .error "Unexpected ImplicitReceiver"
    else do
      let (r, next) ← convertAst receiver rootXref next
      let (as', next) ← convertAstList args rootXref next
      pure (.invokeFn r as', next)
  | .literalPrimitive value => pure (.literal value, next)
  | .binary operation left right =>
    match BINARY_OPERATORS operation with
    | none => .error ("AssertionError: unknown binary operator " ++ operation)
    | some op => do
      let (l, next) ← convertAst left rootXref next
      let (r, next) ← convertAst right rootXref next
      pure (.binary op l r, next)
  | .thisReceiver => pure (.contextExpr rootXref, next)
  | .keyedRead receiver key => do
    let (r, next) ← convertAst receiver rootXref next
    let (k, next) ← convertAst key rootXref next
    pure (.readKey r k, next)
  | .chain _ => .error "AssertionError: Chain in unknown context"
  | .literalMap keys values => do
    let (vs, next) ← convertAstList values rootXref next
    pure (.literalMap keys vs, next)
  | .literalArray expressions => do
    let (es, next) ← convertAstList expressions rootXref next
    pure (.literalArray es, next)
  | .conditional condition trueExp falseExp => do
    let (c, next) ← convertAst condition rootXref next
    let (t, next) ← convertAst trueExp rootXref next
    let (e, next) ← convertAst falseExp rootXref next
    pure (.conditional c t e, next)
  | .nonNullAssert expression => convertAst expression rootXref next
  | .bindingPipe name exp args => do
    let xref := next
    let (e, next) ← convertAst exp rootXref (next + 1)
    let (as', next) ← convertAstList args rootXref next
    pure (.pipeBinding xref ⟨none⟩ none name (e :: as'), next)
  | .safeKeyedRead receiver key => do
    let (r, next) ← convertAst receiver rootXref next
    let (k, next) ← convertAst key rootXref next
    pure (.safeKeyedRead r k, next)
  | .safePropertyRead receiver name => do
    let (r, next) ← convertAst receiver rootXref next
    pure (.safePropertyRead r name, next)
  | .safeCall receiver args => do
    let (r, next) ← convertAst receiver rootXref next
    let (as', next) ← convertAstList args rootXref next
    pure (.safeInvokeFn r as', next)
  | .implicitReceiver => .error "Unhandled expression type"
  | .emptyExpr => pure (.emptyExpr, next)

/-- Conversion of an argument list, left to right, threading the id
allocator. -/
def convertAstList (asts : List EAst) (rootXref : XrefId) (next : XrefId) :
    Except String (List Expr × XrefId) :=
  match asts with
  | [] => pure ([], next)
  | a :: rest => do
    let (e, next) ← convertAst a rootXref next
    let (es, next) ← convertAstList rest rootXref next
    pure (e :: es, next)

end

/-- The compilation job as expression conversion sees it: the root view's
xref (`job.root.xref`). -/
structure Job where
  rootXref : XrefId
deriving DecidableEq, Repr

/-- A view compilation unit: its own xref and its job. -/
structure UnitCtx where
  xref : XrefId
  job : Job
deriving DecidableEq, Repr

/-- An expression conversion performed while ingesting bindings of `view`
(`ingestBinding`, `ingest.ts` line 846: `convertAst(value, view.job, …)`).
The unit owning the expression is `view`; the conversion receives only the
job. -/
def convertAstInUnit (view : UnitCtx) (value : EAst) (next : XrefId) :
    Except String (Expr × XrefId) :=
  convertAst value view.job.rootXref next

/-- Template AST nodes as the control-flow insertion point classifies them
(`t.*` node classes): comments, elements with static attributes, templates
with an optional tag name and static attributes, and all other node kinds
(text, bound text, nested blocks, …). -/
inductive CtlNode where
  | comment
  | text (value : String)
  | element (name : String) (attributes : List (String × String))
  | template (tagName : Option String) (attributes : List (String × String))
  | otherNode
deriving DecidableEq, Repr

/-- Whether a child can become the single root of the inference
(`ingest.ts` line 941: an element, or a template with a tag name). -/
def isRootableNode : CtlNode → Bool
  | .element _ _ => true
  | .template (some _) _ => true
  | _ => false

/-- The scanning loop of `ingestControlFlowInsertionPoint` (`ingest.ts`
lines 929–944). `none` models the early `return null` taken when a
non-comment child is seen after a root was already found; `some root`
models falling out of the loop with the final value of `root`. -/
def findSingleRoot : Option CtlNode → List CtlNode → Option (Option CtlNode)
  | root, [] => some root
  | root, child :: rest =>
    match child with
    | .comment => findSingleRoot root rest
    | _ =>
      if root.isSome then
        none
      else if isRootableNode child then
        findSingleRoot (some child) rest
      else
        findSingleRoot root rest

/-- The static attributes of a root node (`root.attributes`). -/
def nodeAttributes : CtlNode → List (String × String)
  | .element _ attrs => attrs
  | .template _ attrs => attrs
  | _ => []

/-- The tag name the inference would read off a root node (`ingest.ts`
line 957: `root instanceof t.Element ? root.name : root.tagName`). -/
def nodeTagName : CtlNode → Option String
  | .element name _ => some name
  | .template tagName _ => tagName
  | _ => none

/-- An attribute binding op pushed by `ingestBinding` for a copied static
attribute: target xref, attribute name and literal text value. -/
structure AttrBindingOp where
  target : XrefId
  name : String
  value : String
deriving DecidableEq, Repr

/-- `ingestControlFlowInsertionPoint` (`ingest.ts` lines 925–964): find a
single root, copy its static attributes (returned here as the list of
binding ops pushed onto the unit), and return its tag name unless that
name is `ng-template`. -/
def ingestControlFlowInsertionPoint (xref : XrefId) (children : List CtlNode) :
    Option String × List AttrBindingOp :=
  match findSingleRoot none children with
  | none => (none, [])
  | some none => (none, [])
  | some (some root) =>
    let attrOps := (nodeAttributes root).map fun nv => AttrBindingOp.mk xref nv.1 nv.2
    let tagName := nodeTagName root
    (if tagName == some "ng-template" then none else tagName, attrOps)

/-- The per-branch inference performed by `ingestIfBlock` (`ingest.ts`
lines 301–310): only the first branch is used for projection; later
branches get no tag name and no copied attributes. -/
def ifBlockBranchInference (xref : XrefId) (branches : List (List CtlNode)) :
    List (Option String × List AttrBindingOp) :=
  match branches with
  | [] => []
  | first :: rest =>
    ingestControlFlowInsertionPoint xref first ::
      rest.map (fun _ => ((none : Option String), ([] : List AttrBindingOp)))

/-- The claim's reading of the inference, written from the claim's words
(not from the code): if the branch has exactly one root child after
ignoring comments and it is an element or tag-named template, copy its tag
name (never `ng-template`) and static attributes; if the branch has
multiple roots or a non-element root, no tag name is returned and no
attributes are copied. -/
def claimedInsertionPoint (xref : XrefId) (children : List CtlNode) :
    Option String × List AttrBindingOp :=
  match children.filter (fun c => !(c matches .comment)) with
  | [c] =>
    if isRootableNode c then
      let attrOps := (nodeAttributes c).map fun nv => AttrBindingOp.mk xref nv.1 nv.2
      let tagName := nodeTagName c
      (if tagName == some "ng-template" then none else tagName, attrOps)
    else (none, [])
  | _ => (none, [])

/-- The characterization the code actually satisfies: scanning the
non-comment children, the last one must be a rootable node and every
earlier one must be non-rootable; then that last child is the root. -/
def actualSingleRoot (children : List CtlNode) : Option CtlNode :=
  match (children.filter (fun c => !(c matches .comment))).reverse with
  | [] => none
  | r :: pre =>
    if isRootableNode r && pre.all (fun c => !isRootableNode c) then some r else none

/-- The amended inference: the root is `actualSingleRoot`; on success its
static attributes are copied and its tag name returned unless it is
`ng-template`. -/
def amendedInsertionPoint (xref : XrefId) (children : List CtlNode) :
    Option String × List AttrBindingOp :=
  match actualSingleRoot children with
  | none => (none, [])
  | some root =>
    let attrOps := (nodeAttributes root).map fun nv => AttrBindingOp.mk xref nv.1 nv.2
    let tagName := nodeTagName root
    (if tagName == some "ng-template" then none else tagName, attrOps)

/-- Defer trigger variants (`ir.DeferTriggerKind` with the payloads
`ingestDeferBlock` fills in; the hover/interaction/viewport targets start
unresolved, carrying only the referenced name). -/
inductive DeferTrigger where
  | idle
  | immediate
  | timer (delay : Nat)
  | hover (targetName : Option String)
  | interaction (targetName : Option String)
  | viewport (targetName : Option String)
deriving DecidableEq, Repr

/-- A `DeferOn` create op (`ir.createDeferOnOp`): owning defer xref,
trigger, and whether it belongs to the prefetch group. -/
structure DeferOnOp where
  defer : XrefId
  trigger : DeferTrigger
  prefetch : Bool
deriving DecidableEq, Repr

/-- A `DeferWhen` update op (`ir.createDeferWhenOp`): owning defer xref,
the converted `when` expression, and the prefetch flag. -/
structure DeferWhenOp where
  defer : XrefId
  expr : Expr
  prefetch : Bool

/-- One trigger group of a deferred block (`t.DeferredBlockTriggers`):
which triggers it configures. `hover`/`interaction`/`viewport` carry the
(possibly absent) target reference name; `whenValue` carries the `when`
trigger's template expression. -/
structure DeferredBlockTriggers where
  idle : Bool
  immediate : Bool
  timer : Option Nat
  hover : Option (Option String)
  interaction : Option (Option String)
  viewport : Option (Option String)
  whenValue : Option EAst

/-- One iteration of the trigger loop of `ingestDeferBlock` (`ingest.ts`
lines 414–477, the body before the default check): appends one op per
configured trigger, in source order, to the running op lists; the `when`
trigger converts its expression (threading the id allocator). -/
def processTriggerGroup (deferXref : XrefId) (triggers : DeferredBlockTriggers)
    (prefetch : Bool) (rootXref : XrefId) (next : XrefId)
    (deferOnOps : List DeferOnOp) (deferWhenOps : List DeferWhenOp) :
    Except String (List DeferOnOp × List DeferWhenOp × XrefId) := do
  let deferOnOps := if triggers.idle then
      deferOnOps ++ [⟨deferXref, .idle, prefetch⟩] else deferOnOps
  let deferOnOps := if triggers.immediate then
      deferOnOps ++ [⟨deferXref, .immediate, prefetch⟩] else deferOnOps
  let deferOnOps := match triggers.timer with
    | some delay => deferOnOps ++ [⟨deferXref, .timer delay, prefetch⟩]
    | none => deferOnOps
  let deferOnOps := match triggers.hover with
    | some ref => deferOnOps ++ [⟨deferXref, .hover ref, prefetch⟩]
    | none => deferOnOps
  let deferOnOps := match triggers.interaction with
    | some ref => deferOnOps ++ [⟨deferXref, .interaction ref, prefetch⟩]
    | none => deferOnOps
  let deferOnOps := match triggers.viewport with
    | some ref => deferOnOps ++ [⟨deferXref, .viewport ref, prefetch⟩]
    | none => deferOnOps
  match triggers.whenValue with
  | some value => do
    let (e, next) ← convertAst value rootXref next
    pure (deferOnOps, deferWhenOps ++ [⟨deferXref, e, prefetch⟩], next)
  | none => pure (deferOnOps, deferWhenOps, next)

/-- The trigger-ingestion part of `ingestDeferBlock` (`ingest.ts` lines
411–487): both groups are processed into shared op lists, with
`prefetch = false` for the primary group and `true` for the prefetch
group; after each group, if no defer trigger has been produced at all, a
default Idle trigger with `prefetch = false` is appended. -/
def ingestDeferTriggers (deferXref : XrefId) (triggers prefetchTriggers : DeferredBlockTriggers)
    (rootXref : XrefId) (next : XrefId) :
    Except String (List DeferOnOp × List DeferWhenOp × XrefId) := do
  let (deferOnOps, deferWhenOps, next) ←
    processTriggerGroup deferXref triggers false rootXref next [] []
  let deferOnOps := if deferOnOps.isEmpty && deferWhenOps.isEmpty then
      deferOnOps ++ [⟨deferXref, .idle, false⟩] else deferOnOps
  let (deferOnOps, deferWhenOps, next) ←
    processTriggerGroup deferXref prefetchTriggers true rootXref next deferOnOps deferWhenOps
  let deferOnOps := if deferOnOps.isEmpty && deferWhenOps.isEmpty then
      deferOnOps ++ [⟨deferXref, .idle, false⟩] else deferOnOps
  pure (deferOnOps, deferWhenOps, next)

/-- Whether a trigger group configures no trigger at all. -/
def noTriggers (t : DeferredBlockTriggers) : Bool :=
  !t.idle && !t.immediate && t.timer.isNone && t.hover.isNone && t.interaction.isNone &&
    t.viewport.isNone && t.whenValue.isNone

end Ingest

namespace I18n

/-!
Embedding of `src/phases/create_i18n_contexts.ts`. The phase walks each
unit's create ops (with `currentI18nOp` persisting across units), creating
one RootI18n context per root i18n block and Icu contexts for ICUs whose
message differs from their enclosing block's, then back-fills child i18n
blocks from the recorded root contexts.
-/

/-- Message identifiers (`message.id`). -/
abbrev MessageId := String

/-- `ir.I18nContextKind` (the two kinds this phase creates). -/
inductive I18nContextKind where
  | RootI18n
  | Icu
deriving DecidableEq, Repr

/-- Create ops as this phase sees them: i18n block start/end ops (an
`I18nStartOp` carries its xref, root block xref, message id, and `context`
slot), ICU starts, the context ops the phase creates, and all other
kinds. -/
inductive COp where
  | i18nStart (xref : XrefId) (root : XrefId) (messageId : MessageId) (context : Option XrefId)
  | i18nEnd
  | icuStart (messageId : MessageId) (context : Option XrefId)
  | i18nContext (ctxKind : I18nContextKind) (xref : XrefId) (i18nBlock : XrefId)
      (messageId : MessageId)
  | other
deriving DecidableEq, Repr

/-- The mutable state the first pass threads: `currentI18nOp` (as the
triple of fields the phase reads from it — xref, message id, and its
context after any assignment), the `rootContexts` map (as an insertion
ordered association list), and the job's xref allocator. -/
structure P1State where
  cur : Option (XrefId × MessageId × Option XrefId)
  roots : List (XrefId × XrefId)
  next : XrefId
deriving DecidableEq, Repr

/-- One step of the first pass (`create_i18n_contexts.ts` lines 29–63):
returns the (possibly updated) op, the context op pushed onto the unit (if
any), and the new state. -/
def pass1Op (st : P1State) (op : COp) : Except String (COp × Option COp × P1State) :=
  match op with
  | .i18nStart xref root messageId context =>
    if xref == root then
      .ok (.i18nStart xref root messageId (some st.next),
        some (.i18nContext .RootI18n st.next xref messageId),
        ⟨some (xref, messageId, some st.next), st.roots ++ [(xref, st.next)], st.next + 1⟩)
    else
      .ok (.i18nStart xref root messageId context, none,
        ⟨some (xref, messageId, context), st.roots, st.next⟩)
  | .i18nEnd => .ok (.i18nEnd, none, ⟨none, st.roots, st.next⟩)
  | .icuStart messageId _ =>
    match st.cur with
    | none => .error "Unexpected ICU outside of an i18n block."
    | some (curXref, curMsg, curCtx) =>
      if messageId != curMsg then
        .ok (.icuStart messageId (some st.next),
          some (.i18nContext .Icu st.next curXref messageId),
          ⟨some (curXref, curMsg, curCtx), st.roots, st.next + 1⟩)
      else
        .ok (.icuStart messageId curCtx, none, st)
  | .i18nContext k x b m => .ok (.i18nContext k x b m, none, st)
  | .other => .ok (.other, none, st)

/-- The first pass over an op list: ops are processed in order; the
context ops each step pushes are collected separately (they are appended
to the unit's create list, where the loop revisits them as inert
`I18nContext` ops). -/
def pass1Ops (st : P1State) : List COp → Except String (List COp × List COp × P1State)
  | [] => .ok ([], [], st)
  | op :: rest => do
    let (op', new, st₁) ← pass1Op st op
    let (rest', news, st₂) ← pass1Ops st₁ rest
    .ok (op' :: rest', (match new with | some n => n :: news | none => news), st₂)

/-- The first pass over one unit: processed ops followed by the context
ops pushed during the iteration. -/
def pass1Unit (st : P1State) (ops : List COp) : Except String (List COp × P1State) := do
  let (ops', news, st') ← pass1Ops st ops
  .ok (ops' ++ news, st')

/-- The first pass over all units, threading `currentI18nOp`, the root
map and the allocator across units (they are declared outside the unit
loop). -/
def pass1Units (st : P1State) : List (List COp) → Except String (List (List COp) × P1State)
  | [] => .ok ([], st)
  | u :: rest => do
    let (u', st₁) ← pass1Unit st u
    let (rest', st₂) ← pass1Units st₁ rest
    .ok (u' :: rest', st₂)

/-- The second pass (`create_i18n_contexts.ts` lines 69–75): each child
i18n block receives its root's recorded context
(`rootContexts.get(op.root)!` — absent roots yield an unset context). -/
def pass2Op (roots : List (XrefId × XrefId)) : COp → COp
  | .i18nStart xref root messageId context =>
    if xref ≠ root then
      .i18nStart xref root messageId ((roots.find? (fun p => p.1 == root)).map (·.2))
    else
      .i18nStart xref root messageId context
  | op => op

/-- `createI18nContexts`: the two passes over the job's units. `next` is
the job's xref allocator. -/
def createI18nContexts (units : List (List COp)) (next : XrefId) :
    Except String (List (List COp) × XrefId) := do
  let (units', st') ← pass1Units ⟨none, [], next⟩ units
  .ok (units'.map (fun u => u.map (pass2Op st'.roots)), st'.next)

/-- The xrefs of the root i18n blocks (root `I18nStart` ops) of an op
list. -/
def rootStartsOps (ops : List COp) : List XrefId :=
  ops.filterMap fun op =>
    match op with
    | .i18nStart x r _ _ => if x == r then some x else none
    | _ => none

/-- The i18n blocks referenced by the RootI18n context ops of an op
list. -/
def rootCtxOps (ops : List COp) : List XrefId :=
  ops.filterMap fun op =>
    match op with
    | .i18nContext .RootI18n _ b _ => some b
    | _ => none

/-- The xrefs of all root i18n blocks of a job. -/
def rootStartXrefs (units : List (List COp)) : List XrefId :=
  (units.map rootStartsOps).flatten

/-- The i18n blocks of all RootI18n context ops of a job. -/
def rootCtxBlocks (units : List (List COp)) : List XrefId :=
  (units.map rootCtxOps).flatten

/-- Whether an op list contains no `I18nContext` op (true of every job
entering this phase, which is what creates them). -/
def noContextOps (ops : List COp) : Bool :=
  ops.all fun op =>
    match op with
    | .i18nContext _ _ _ _ => false
    | _ => true

/-- `noContextOps` across a job. -/
def unitsNoContextOps (units : List (List COp)) : Bool :=
  units.all noContextOps

end I18n

namespace Reify

/-!
Embedding of reify.ts (the unnamed source part defining `reify`,
`reifyCreateOperations`, `reifyUpdateOperations`, `reifyIrExpression` and
`reifyListenerHandler`) together with
`src/phases/resolve_dollar_event.ts`, which operates on the same op model.
The op and expression-visitor infrastructure (`ir` module) is not among
the provided sources and is modelled from the spec where noted.
-/

/-- An `ir.Interpolation`: literal string fragments around bound
expressions. -/
structure Interp where
  strings : List String
  expressions : List Expr

/-- A field that is either a plain output expression or an
`ir.Interpolation` (the `o.Expression|ir.Interpolation` union). -/
inductive ExprOrInterp where
  | expr (e : Expr)
  | interp (i : Interp)

/-- `ir.Namespace`. -/
inductive Namespace where
  | html
  | svg
  | math
deriving DecidableEq, Repr

/-- The per-view metadata reification reads from `unit.job.views`
(function name, declaration and variable counts, assigned by earlier
phases). -/
structure ViewInfo where
  fnName : Option String
  decls : Option Nat
  vars : Option Nat
deriving DecidableEq, Repr

/-- Update ops, projected onto the payload reification reads. The source's
`Variable` op kind is `variableOp` (Lean reserves the word); `binding` is
an update-op kind with no explicit reification case. -/
inductive UpdateOp where
  | advance (delta : Nat)
  | property (name : String) (expression : ExprOrInterp) (sanitizer : Option Expr)
  | styleProp (name : String) (expression : ExprOrInterp) (unit : Option String)
  | classProp (name : String) (expression : Expr)
  | styleMap (expression : ExprOrInterp)
  | classMap (expression : ExprOrInterp)
  | i18nExpression (expression : Expr)
  | i18nApply (handle : SlotHandle)
  | interpolateText (interpolation : Interp)
  | attribute (name : String) (expression : ExprOrInterp) (sanitizer : Option Expr)
  | hostProperty (name : String) (expression : ExprOrInterp) (isAnimationTrigger : Bool)
  | variableOp (xref : XrefId) (varName : Option String) (initializer : Expr)
  | conditional (targetSlot : SlotHandle) (processed : Option Expr) (contextValue : Option Expr)
  | repeater (collection : Expr)
  | deferWhen (prefetch : Bool) (expr : Expr)
  | statement (statement : Stmt)
  | binding

/-- Whether a `template` op's `localRefs` field is still a refs array
(`Array.isArray(op.localRefs)`) or an extracted constant index. -/
inductive LocalRefsField where
  | refs (locals : List String)
  | index (i : Option Nat)

/-- Defer triggers as reification sees them (targets already resolved to a
slot and view-step count by the defer-resolution phase, or still unset). -/
inductive RDeferTrigger where
  | idle
  | immediate
  | timer (delay : Nat)
  | hover (targetSlot : Option SlotHandle) (targetSlotViewSteps : Option Int)
  | interaction (targetSlot : Option SlotHandle) (targetSlotViewSteps : Option Int)
  | viewport (targetSlot : Option SlotHandle) (targetSlotViewSteps : Option Int)
deriving DecidableEq, Repr

/-- Create ops, projected onto the payload reification reads.
`extractedAttribute` is a create-op kind with no explicit reification
case. -/
inductive CreateOp where
  | text (handle : SlotHandle) (initialValue : String)
  | elementStart (handle : SlotHandle) (tag : Option String) (attributes localRefs : Option Nat)
  | element (handle : SlotHandle) (tag : Option String) (attributes localRefs : Option Nat)
  | elementEnd
  | containerStart (handle : SlotHandle) (attributes localRefs : Option Nat)
  | container (handle : SlotHandle) (attributes localRefs : Option Nat)
  | containerEnd
  | i18nStart (handle : SlotHandle) (messageIndex subTemplateIndex : Option Nat)
  | i18nEnd
  | i18n (handle : SlotHandle) (messageIndex subTemplateIndex : Option Nat)
  | template (xref : XrefId) (handle : SlotHandle) (tag : Option String)
      (attributes : Option Nat) (localRefs : LocalRefsField)
  | disableBindings
  | enableBindings
  | pipe (handle : SlotHandle) (name : String)
  | listener (name : String) (handlerOps : List UpdateOp) (handlerFnName : Option String)
      (consumesDollarEvent : Bool) (hostListener : Bool) (isAnimationListener : Bool)
  | variableOp (xref : XrefId) (varName : Option String) (initializer : Expr)
  | namespaceOp (active : Namespace)
  | defer (handle : SlotHandle) (mainSlot : SlotHandle) (resolverFn : Option Expr)
      (loadingSlot placeholderSlot errorSlot : Option SlotHandle)
      (loadingConfig placeholderConfig : Option Expr)
      (loadingMinimumTime loadingAfterTime placeholderMinimumTime : Option Nat)
  | deferOn (trigger : RDeferTrigger) (prefetch : Bool)
  | projectionDef (defExpr : Option Expr)
  | projection (handle : SlotHandle) (projectionSlotIndex : Nat) (attributes : Option Nat)
  | repeaterCreate (xref : XrefId) (handle : SlotHandle) (emptyView : Option XrefId)
      (tag : Option String) (attributes : Option Nat) (trackByFn : Option Expr)
      (usesComponentInstance : Bool) (decls vars : Option Nat)
  | statement (statement : Stmt)
  | extractedAttribute (name : String)

mutual

/-- Modelled from the spec: the Except-valued form of the `ir` expression
visitor used during reification — sub-expressions are transformed
bottom-up, then the transform is applied to the rebuilt node. -/
def transformExprE (f : Expr → Except String Expr) : Expr → Except String Expr
  | .readVar name => f (.readVar name)
  | .writeVar name value => do f (.writeVar name (← transformExprE f value))
  | .readProp receiver name => do f (.readProp (← transformExprE f receiver) name)
  | .writeProp receiver name value => do
    f (.writeProp (← transformExprE f receiver) name (← transformExprE f value))
  | .readKey receiver index => do
    f (.readKey (← transformExprE f receiver) (← transformExprE f index))
  | .writeKey receiver index value => do
    f (.writeKey (← transformExprE f receiver) (← transformExprE f index)
      (← transformExprE f value))
  | .invokeFn fn args => do
    f (.invokeFn (← transformExprE f fn) (← transformExprEList f args))
  | .literal value => f (.literal value)
  | .literalArray entries => do f (.literalArray (← transformExprEList f entries))
  | .literalMap keys values => do f (.literalMap keys (← transformExprEList f values))
  | .binary op lhs rhs => do
    f (.binary op (← transformExprE f lhs) (← transformExprE f rhs))
  | .conditional cond t e => do
    f (.conditional (← transformExprE f cond) (← transformExprE f t) (← transformExprE f e))
  | .importedRef name => f (.importedRef name)
  | .fnExpr params body name => do f (.fnExpr params (← transformStmtEList f body) name)
  | .lexicalRead name => f (.lexicalRead name)
  | .contextExpr view => f (.contextExpr view)
  | .pipeBinding target slot off name args => do
    f (.pipeBinding target slot off name (← transformExprEList f args))
  | .pipeBindingVariadic target slot off name args n => do
    f (.pipeBindingVariadic target slot off name (← transformExprE f args) n)
  | .safePropertyRead receiver name => do
    f (.safePropertyRead (← transformExprE f receiver) name)
  | .safeKeyedRead receiver index => do
    f (.safeKeyedRead (← transformExprE f receiver) (← transformExprE f index))
  | .safeInvokeFn receiver args => do
    f (.safeInvokeFn (← transformExprE f receiver) (← transformExprEList f args))
  | .emptyExpr => f .emptyExpr
  | .nextContext steps => f (.nextContext steps)
  | .reference slot offset => f (.reference slot offset)
  | .restoreViewRaw view => f (.restoreViewRaw view)
  | .restoreViewExpr view => do f (.restoreViewExpr (← transformExprE f view))
  | .resetView expr => do f (.resetView (← transformExprE f expr))
  | .getCurrentView => f .getCurrentView
  | .readVariable xref name => f (.readVariable xref name)
  | .readTemporary xref name => f (.readTemporary xref name)
  | .assignTemporary xref name expr => do
    f (.assignTemporary xref name (← transformExprE f expr))
  | .pureFunctionExpr off fn args => do
    f (.pureFunctionExpr off (← transformExprEOpt f fn) (← transformExprEList f args))
  | .pureFunctionParameter => f .pureFunctionParameter
  | .sanitizerExpr fn => f (.sanitizerExpr fn)
  | .slotLiteral slot => f (.slotLiteral slot)

/-- Except-valued transform of an optional expression. -/
def transformExprEOpt (f : Expr → Except String Expr) : Option Expr → Except String (Option Expr)
  | none => .ok none
  | some e => do .ok (some (← transformExprE f e))

/-- Except-valued transform of an expression list, in order. -/
def transformExprEList (f : Expr → Except String Expr) : List Expr → Except String (List Expr)
  | [] => .ok []
  | e :: es => do .ok ((← transformExprE f e) :: (← transformExprEList f es))

/-- Except-valued transform of one statement's expressions. -/
def transformStmtE (f : Expr → Except String Expr) : Stmt → Except String Stmt
  | .exprStmt e => do .ok (.exprStmt (← transformExprE f e))
  | .returnStmt e => do .ok (.returnStmt (← transformExprE f e))
  | .declareVar name init => do .ok (.declareVar name (← transformExprE f init))

/-- Except-valued transform of a statement list. -/
def transformStmtEList (f : Expr → Except String Expr) : List Stmt → Except String (List Stmt)
  | [] => .ok []
  | s :: ss => do .ok ((← transformStmtE f s) :: (← transformStmtEList f ss))

end

/-- Except-valued transform of an interpolation's expressions. -/
def transformInterpE (f : Expr → Except String Expr) (i : Interp) : Except String Interp := do
  .ok ⟨i.strings, ← transformExprEList f i.expressions⟩

/-- Except-valued transform of an expression-or-interpolation field. -/
def transformExprOrInterpE (f : Expr → Except String Expr) :
    ExprOrInterp → Except String ExprOrInterp
  | .expr e => do .ok (.expr (← transformExprE f e))
  | .interp i => do .ok (.interp (← transformInterpE f i))

/-- Modelled from the spec: `ir.transformExpressionsInOp` on an update op —
every expression the op carries is transformed. -/
def transformExpressionsInUpdateOp (f : Expr → Except String Expr) :
    UpdateOp → Except String UpdateOp
  | .advance delta => .ok (.advance delta)
  | .property name expression sanitizer => do
    .ok (.property name (← transformExprOrInterpE f expression) (← transformExprEOpt f sanitizer))
  | .styleProp name expression unit => do
    .ok (.styleProp name (← transformExprOrInterpE f expression) unit)
  | .classProp name expression => do .ok (.classProp name (← transformExprE f expression))
  | .styleMap expression => do .ok (.styleMap (← transformExprOrInterpE f expression))
  | .classMap expression => do .ok (.classMap (← transformExprOrInterpE f expression))
  | .i18nExpression expression => do .ok (.i18nExpression (← transformExprE f expression))
  | .i18nApply handle => .ok (.i18nApply handle)
  | .interpolateText interpolation => do
    .ok (.interpolateText (← transformInterpE f interpolation))
  | .attribute name expression sanitizer => do
    .ok (.attribute name (← transformExprOrInterpE f expression)
      (← transformExprEOpt f sanitizer))
  | .hostProperty name expression isAnimationTrigger => do
    .ok (.hostProperty name (← transformExprOrInterpE f expression) isAnimationTrigger)
  | .variableOp xref varName initializer => do
    .ok (.variableOp xref varName (← transformExprE f initializer))
  | .conditional targetSlot processed contextValue => do
    .ok (.conditional targetSlot (← transformExprEOpt f processed)
      (← transformExprEOpt f contextValue))
  | .repeater collection => do .ok (.repeater (← transformExprE f collection))
  | .deferWhen prefetch expr => do .ok (.deferWhen prefetch (← transformExprE f expr))
  | .statement statement => do .ok (.statement (← transformStmtE f statement))
  | .binding => .ok .binding

/-- Modelled from the spec: `ir.transformExpressionsInOp` on a create op;
a Listener op's handler ops are transformed as child operations. -/
def transformExpressionsInCreateOp (f : Expr → Except String Expr) :
    CreateOp → Except String CreateOp
  | .listener name handlerOps handlerFnName consumesDollarEvent hostListener isAnim => do
    .ok (.listener name (← handlerOps.mapM (transformExpressionsInUpdateOp f)) handlerFnName
      consumesDollarEvent hostListener isAnim)
  | .variableOp xref varName initializer => do
    .ok (.variableOp xref varName (← transformExprE f initializer))
  | .defer handle mainSlot resolverFn loadingSlot placeholderSlot errorSlot loadingConfig
      placeholderConfig lMin lAfter pMin => do
    .ok (.defer handle mainSlot (← transformExprEOpt f resolverFn) loadingSlot placeholderSlot
      errorSlot (← transformExprEOpt f loadingConfig) (← transformExprEOpt f placeholderConfig)
      lMin lAfter pMin)
  | .projectionDef defExpr => do .ok (.projectionDef (← transformExprEOpt f defExpr))
  | .repeaterCreate xref handle emptyView tag attributes trackByFn usesComponentInstance
      decls vars => do
    .ok (.repeaterCreate xref handle emptyView tag attributes (← transformExprEOpt f trackByFn)
      usesComponentInstance decls vars)
  | .statement statement => do .ok (.statement (← transformStmtE f statement))
  | op => .ok op

/-- Whether any expression of an interpolation satisfies the predicate. -/
def anyExprInInterp (p : Expr → Bool) (i : Interp) : Bool :=
  anyExprNodeList p i.expressions

/-- Whether any expression of an expression-or-interpolation field
satisfies the predicate. -/
def anyExprInExprOrInterp (p : Expr → Bool) : ExprOrInterp → Bool
  | .expr e => anyExprNode p e
  | .interp i => anyExprInInterp p i

/-- Whether any expression carried by an update op satisfies the
predicate. -/
def anyExprInUpdateOp (p : Expr → Bool) : UpdateOp → Bool
  | .advance _ => false
  | .property _ expression sanitizer =>
    anyExprInExprOrInterp p expression || anyExprNodeOpt p sanitizer
  | .styleProp _ expression _ => anyExprInExprOrInterp p expression
  | .classProp _ expression => anyExprNode p expression
  | .styleMap expression => anyExprInExprOrInterp p expression
  | .classMap expression => anyExprInExprOrInterp p expression
  | .i18nExpression expression => anyExprNode p expression
  | .i18nApply _ => false
  | .interpolateText interpolation => anyExprInInterp p interpolation
  | .attribute _ expression sanitizer =>
    anyExprInExprOrInterp p expression || anyExprNodeOpt p sanitizer
  | .hostProperty _ expression _ => anyExprInExprOrInterp p expression
  | .variableOp _ _ initializer => anyExprNode p initializer
  | .conditional _ processed contextValue =>
    anyExprNodeOpt p processed || anyExprNodeOpt p contextValue
  | .repeater collection => anyExprNode p collection
  | .deferWhen _ expr => anyExprNode p expr
  | .statement statement => anyExprNodeStmt p statement
  | .binding => false

/-- Whether any expression carried by a create op (including a listener's
handler ops) satisfies the predicate. -/
def anyExprInCreateOp (p : Expr → Bool) : CreateOp → Bool
  | .listener _ handlerOps _ _ _ _ => handlerOps.any (anyExprInUpdateOp p)
  | .variableOp _ _ initializer => anyExprNode p initializer
  | .defer _ _ resolverFn _ _ _ loadingConfig placeholderConfig _ _ _ =>
    anyExprNodeOpt p resolverFn || anyExprNodeOpt p loadingConfig ||
      anyExprNodeOpt p placeholderConfig
  | .projectionDef defExpr => anyExprNodeOpt p defExpr
  | .repeaterCreate _ _ _ _ _ trackByFn _ _ _ => anyExprNodeOpt p trackByFn
  | .statement statement => anyExprNodeStmt p statement
  | _ => false

namespace ng

/-!
Modelled from the spec: the external instruction vocabulary (`instruction.ts`
is not among the provided sources). Each helper builds a Statement op
wrapping a call against the named runtime instruction; slots, indices and
flags are encoded as literal arguments (the source's JS `null` appears as a
null literal, and `slot!` on an unassigned slot flows through as in JS).
-/

/-- A call statement against a runtime instruction. -/
def call (instruction : String) (args : List Expr) : Stmt :=
  .exprStmt (.invokeFn (.importedRef instruction) args)

/-- A numeric literal argument. -/
def num (n : Int) : Expr := .literal (.num n)

/-- An optional numeric argument (JS `null` when absent). -/
def onum : Option Nat → Expr
  | some n => num n
  | none => .literal .null

/-- A string literal argument. -/
def str (s : String) : Expr := .literal (.str s)

/-- An optional string argument. -/
def ostr : Option String → Expr
  | some s => str s
  | none => .literal .null

/-- A boolean literal argument. -/
def boolArg (b : Bool) : Expr := .literal (.bool b)

/-- An optional expression argument. -/
def oexpr : Option Expr → Expr
  | some e => e
  | none => .literal .null

/-- `o.variable` over a possibly-null function name. -/
def fnRef (name : Option String) : Expr := .readVar (name.getD "")

def text (slot : Option Nat) (value : String) : CreateOp :=
  .statement (call "text" [onum slot, str value])

def elementStart (slot : Option Nat) (tag : Option String) (attributes localRefs : Option Nat) :
    CreateOp :=
  .statement (call "elementStart" [onum slot, ostr tag, onum attributes, onum localRefs])

def element (slot : Option Nat) (tag : Option String) (attributes localRefs : Option Nat) :
    CreateOp :=
  .statement (call "element" [onum slot, ostr tag, onum attributes, onum localRefs])

def elementEnd : CreateOp := .statement (call "elementEnd" [])

def elementContainerStart (slot : Option Nat) (attributes localRefs : Option Nat) : CreateOp :=
  .statement (call "elementContainerStart" [onum slot, onum attributes, onum localRefs])

def elementContainer (slot : Option Nat) (attributes localRefs : Option Nat) : CreateOp :=
  .statement (call "elementContainer" [onum slot, onum attributes, onum localRefs])

def elementContainerEnd : CreateOp := .statement (call "elementContainerEnd" [])

def i18nStart (slot messageIndex subTemplateIndex : Option Nat) : CreateOp :=
  .statement (call "i18nStart" [onum slot, onum messageIndex, onum subTemplateIndex])

def i18nEnd : CreateOp := .statement (call "i18nEnd" [])

def i18n (slot messageIndex subTemplateIndex : Option Nat) : CreateOp :=
  .statement (call "i18n" [onum slot, onum messageIndex, onum subTemplateIndex])

def template (slot : Option Nat) (fnName : Option String) (decls vars : Option Nat)
    (tag : Option String) (attributes localRefs : Option Nat) : CreateOp :=
  .statement (call "templateCreate"
    [onum slot, fnRef fnName, onum decls, onum vars, ostr tag, onum attributes, onum localRefs])

def disableBindings : CreateOp := .statement (call "disableBindings" [])

def enableBindings : CreateOp := .statement (call "enableBindings" [])

def pipe (slot : Option Nat) (name : String) : CreateOp :=
  .statement (call "pipe" [onum slot, str name])

def listener (name : String) (handlerFn : Expr) : CreateOp :=
  .statement (call "listener" [str name, handlerFn])

def syntheticHostListener (name : String) (handlerFn : Expr) : CreateOp :=
  .statement (call "syntheticHostListener" [str name, handlerFn])

def namespaceHTML : CreateOp := .statement (call "namespaceHTML" [])

def namespaceSVG : CreateOp := .statement (call "namespaceSVG" [])

def namespaceMath : CreateOp := .statement (call "namespaceMath" [])

def defer (slot mainSlot : Option Nat) (resolverFn : Option Expr)
    (loadingSlot placeholderSlot errorSlot : Option Nat)
    (loadingConfig placeholderConfig : Option Expr) (timerScheduling : Bool) : CreateOp :=
  .statement (call "defer"
    [onum slot, onum mainSlot, oexpr resolverFn, onum loadingSlot, onum placeholderSlot,
      onum errorSlot, oexpr loadingConfig, oexpr placeholderConfig, boolArg timerScheduling])

def deferOn (kind : String) (args : List Int) (prefetch : Bool) : CreateOp :=
  .statement (call "deferOn" ([str kind] ++ args.map num ++ [boolArg prefetch]))

def projectionDef (defExpr : Option Expr) : CreateOp :=
  .statement (call "projectionDef" [oexpr defExpr])

def projection (slot : Nat) (projectionSlotIndex : Nat) (attributes : Option Nat) : CreateOp :=
  .statement (call "projection" [num slot, num projectionSlotIndex, onum attributes])

def repeaterCreate (slot : Nat) (fnName : String) (decls vars : Option Nat)
    (tag : Option String) (attributes : Option Nat) (trackByFn : Option Expr)
    (usesComponentInstance : Bool) (emptyViewFnName : Option String)
    (emptyDecls emptyVars : Option Nat) : CreateOp :=
  .statement (call "repeaterCreate"
    [num slot, str fnName, onum decls, onum vars, ostr tag, onum attributes, oexpr trackByFn,
      boolArg usesComponentInstance, ostr emptyViewFnName, onum emptyDecls, onum emptyVars])

def advance (delta : Nat) : UpdateOp := .statement (call "advance" [num delta])

def propertyInterpolate (name : String) (strings : List String) (expressions : List Expr)
    (sanitizer : Option Expr) : UpdateOp :=
  .statement (call "propertyInterpolate"
    ([str name] ++ strings.map str ++ expressions ++ [oexpr sanitizer]))

def property (name : String) (expression : Expr) (sanitizer : Option Expr) : UpdateOp :=
  .statement (call "property" [str name, expression, oexpr sanitizer])

def stylePropInterpolate (name : String) (strings : List String) (expressions : List Expr)
    (unit : Option String) : UpdateOp :=
  .statement (call "stylePropInterpolate"
    ([str name] ++ strings.map str ++ expressions ++ [ostr unit]))

def styleProp (name : String) (expression : Expr) (unit : Option String) : UpdateOp :=
  .statement (call "styleProp" [str name, expression, ostr unit])

def classProp (name : String) (expression : Expr) : UpdateOp :=
  .statement (call "classProp" [str name, expression])

def styleMapInterpolate (strings : List String) (expressions : List Expr) : UpdateOp :=
  .statement (call "styleMapInterpolate" (strings.map str ++ expressions))

def styleMap (expression : Expr) : UpdateOp := .statement (call "styleMap" [expression])

def classMapInterpolate (strings : List String) (expressions : List Expr) : UpdateOp :=
  .statement (call "classMapInterpolate" (strings.map str ++ expressions))

def classMap (expression : Expr) : UpdateOp := .statement (call "classMap" [expression])

def i18nExp (expression : Expr) : UpdateOp := .statement (call "i18nExp" [expression])

def i18nApply (slot : Option Nat) : UpdateOp := .statement (call "i18nApply" [onum slot])

def textInterpolate (strings : List String) (expressions : List Expr) : UpdateOp :=
  .statement (call "textInterpolate" (strings.map str ++ expressions))

def attributeInterpolate (name : String) (strings : List String) (expressions : List Expr)
    (sanitizer : Option Expr) : UpdateOp :=
  .statement (call "attributeInterpolate"
    ([str name] ++ strings.map str ++ expressions ++ [oexpr sanitizer]))

def «attribute» (name : String) (expression : Expr) (sanitizer : Option Expr) : UpdateOp :=
  .statement (call "attribute" [str name, expression, oexpr sanitizer])

def syntheticHostProperty (name : String) (expression : Expr) : UpdateOp :=
  .statement (call "syntheticHostProperty" [str name, expression])

def hostProperty (name : String) (expression : Expr) : UpdateOp :=
  .statement (call "hostProperty" [str name, expression])

def conditional (slot : Nat) (processed : Expr) (contextValue : Option Expr) : UpdateOp :=
  .statement (call "conditional" [num slot, processed, oexpr contextValue])

def repeater (collection : Expr) : UpdateOp := .statement (call "repeater" [collection])

def deferWhen (prefetch : Bool) (expr : Expr) : UpdateOp :=
  .statement (call "deferWhen" [boolArg prefetch, expr])

def nextContext (steps : Nat) : Expr := .invokeFn (.importedRef "nextContext") [num steps]

def reference (n : Nat) : Expr := .invokeFn (.importedRef "reference") [num n]

def restoreView (view : Expr) : Expr := .invokeFn (.importedRef "restoreView") [view]

def resetView (expr : Expr) : Expr := .invokeFn (.importedRef "resetView") [expr]

def getCurrentView : Expr := .invokeFn (.importedRef "getCurrentView") []

def pureFunction (varOffset : Option Nat) (fn : Expr) (args : List Expr) : Expr :=
  .invokeFn (.importedRef "pureFunction") ([onum varOffset, fn] ++ args)

def pipeBind (slot varOffset : Option Nat) (args : List Expr) : Expr :=
  .invokeFn (.importedRef "pipeBind") ([onum slot, onum varOffset] ++ args)

def pipeBindV (slot varOffset : Option Nat) (args : Expr) : Expr :=
  .invokeFn (.importedRef "pipeBindV") [onum slot, onum varOffset, args]

end ng

/-- Map of sanitizers to their identifier (reify.ts,
`sanitizerIdentifierMap`). -/
def sanitizerIdentifier : SanitizerFn → String
  | .Html => "sanitizeHtml"
  | .IframeAttribute => "validateIframeAttribute"
  | .ResourceUrl => "sanitizeResourceUrl"
  | .Script => "sanitizeScript"
  | .Style => "sanitizeStyle"
  | .Url => "sanitizeUrl"

/-- JS truthiness of a `number|null` field (`!!op.loadingMinimumTime`
etc.): true exactly for a present non-zero number. -/
def truthyNum : Option Nat → Bool
  | some n => n != 0
  | none => false

/-- `reifyIrExpression` (reify.ts lines 365–420): applied to a single node
whose sub-expressions have already been reified; non-IR expressions pass
through, handled IR kinds lower to instruction calls or variable reads,
unresolved kinds are fatal assertions, and any IR kind without an explicit
case falls to the fatal default. -/
def reifyIrExpression (e : Expr) : Except String Expr :=
  if isIrExpressionNode e = false then
    .ok e
  else
    match e with
    | .nextContext steps => .ok (ng.nextContext steps)
    | .reference slot offset => .ok (ng.reference ((slot.slot.getD 0) + 1 + offset))
    | .lexicalRead name => .error ("AssertionError: unresolved LexicalRead of " ++ name)
    | .restoreViewRaw _ => .error "AssertionError: unresolved RestoreView"
    | .restoreViewExpr view => .ok (ng.restoreView view)
    | .resetView expr => .ok (ng.resetView expr)
    | .getCurrentView => .ok ng.getCurrentView
    | .readVariable xref name =>
      match name with
      | none => .error ("Read of unnamed variable " ++ toString xref)
      | some n => .ok (.readVar n)
    | .readTemporary xref name =>
      match name with
      | none => .error ("Read of unnamed temporary " ++ toString xref)
      | some n => .ok (.readVar n)
    | .assignTemporary xref name expr =>
      match name with
      | none => .error ("Assign of unnamed temporary " ++ toString xref)
      | some n => .ok (.writeVar n expr)
    | .pureFunctionExpr varOffset fn args =>
      match fn with
      | none => .error "AssertionError: expected PureFunctions to have been extracted"
      | some f => .ok (ng.pureFunction varOffset f args)
    | .pureFunctionParameter =>
      .error "AssertionError: expected PureFunctionParameterExpr to have been extracted"
    | .pipeBinding _ targetSlot varOffset _ args =>
      .ok (ng.pipeBind targetSlot.slot varOffset args)
    | .pipeBindingVariadic _ targetSlot varOffset _ args _ =>
      .ok (ng.pipeBindV targetSlot.slot varOffset args)
    | .sanitizerExpr fn => .ok (.importedRef (sanitizerIdentifier fn))
    | .slotLiteral slot => .ok (.literal (.num (slot.slot.getD 0)))
    | _ => .error "AssertionError: Unsupported reification of ir.Expression kind"

/-- `reifyUpdateOperations` for one op: reify its expressions, then replace
the op by the matching instruction-call statement (reify.ts lines
243–363). -/
def reifyUpdateOp (op : UpdateOp) : Except String UpdateOp := do
  let op ← transformExpressionsInUpdateOp reifyIrExpression op
  match op with
  | .advance delta => .ok (ng.advance delta)
  | .property name expression sanitizer =>
    match expression with
    | .interp i => .ok (ng.propertyInterpolate name i.strings i.expressions sanitizer)
    | .expr e => .ok (ng.property name e sanitizer)
  | .styleProp name expression unit =>
    match expression with
    | .interp i => .ok (ng.stylePropInterpolate name i.strings i.expressions unit)
    | .expr e => .ok (ng.styleProp name e unit)
  | .classProp name expression => .ok (ng.classProp name expression)
  | .styleMap expression =>
    match expression with
    | .interp i => .ok (ng.styleMapInterpolate i.strings i.expressions)
    | .expr e => .ok (ng.styleMap e)
  | .classMap expression =>
    match expression with
    | .interp i => .ok (ng.classMapInterpolate i.strings i.expressions)
    | .expr e => .ok (ng.classMap e)
  | .i18nExpression expression => .ok (ng.i18nExp expression)
  | .i18nApply handle => .ok (ng.i18nApply handle.slot)
  | .interpolateText interpolation =>
    .ok (ng.textInterpolate interpolation.strings interpolation.expressions)
  | .attribute name expression sanitizer =>
    match expression with
    | .interp i => .ok (ng.attributeInterpolate name i.strings i.expressions sanitizer)
    | .expr e => .ok (ng.«attribute» name e sanitizer)
  | .hostProperty name expression isAnimationTrigger =>
    match expression with
    | .interp _ => .error "not yet handled"
    | .expr e =>
      if isAnimationTrigger then .ok (ng.syntheticHostProperty name e)
      else .ok (ng.hostProperty name e)
  | .variableOp xref varName initializer =>
    match varName with
    | none => .error ("AssertionError: unnamed variable " ++ toString xref)
    | some n => .ok (.statement (.declareVar n initializer))
  | .conditional targetSlot processed contextValue =>
    match processed with
    | none => .error "Conditional test was not set."
    | some proc =>
      match targetSlot.slot with
      | none => .error "Conditional slot was not set."
      | some slot => .ok (ng.conditional slot proc contextValue)
  | .repeater collection => .ok (ng.repeater collection)
  | .deferWhen prefetch expr => .ok (ng.deferWhen prefetch expr)
  | .statement s => .ok (.statement s)
  | .binding => .error "AssertionError: Unsupported reification of update op Binding"

/-- The statement-extraction step of `reifyListenerHandler`: an op that is
not a Statement op at this point is a fatal assertion failure. -/
def reifyStmtOfOp : UpdateOp → Except String Stmt
  | .statement s => .ok s
  | _ => .error "AssertionError: expected reified statements, but found op"

/-- `reifyListenerHandler` (reify.ts lines 426–451): reify the nested
handler ops into statements, then build the handler function expression,
declaring an `$event` parameter exactly when the listener consumes it. -/
def reifyListenerHandler (name : Option String) (handlerOps : List UpdateOp)
    (consumesDollarEvent : Bool) : Except String Expr := do
  let reified ← handlerOps.mapM reifyUpdateOp
  let handlerStmts ← reified.mapM reifyStmtOfOp
  let params := if consumesDollarEvent then ["$event"] else []
  .ok (.fnExpr params handlerStmts name)

/-- `reifyCreateOperations` for one op (reify.ts lines 41–241). `views`
models `unit.job.views` and `isViewUnit` the
`unit instanceof ViewCompilationUnit` test; reading a field of an absent
view models the JS TypeError that dereferencing `undefined` raises. -/
def reifyCreateOp (views : XrefId → Option ViewInfo) (isViewUnit : Bool) (op : CreateOp) :
    Except String CreateOp := do
  let op ← transformExpressionsInCreateOp reifyIrExpression op
  match op with
  | .text handle initialValue => .ok (ng.text handle.slot initialValue)
  | .elementStart handle tag attributes localRefs =>
    .ok (ng.elementStart handle.slot tag attributes localRefs)
  | .element handle tag attributes localRefs =>
    .ok (ng.element handle.slot tag attributes localRefs)
  | .elementEnd => .ok ng.elementEnd
  | .containerStart handle attributes localRefs =>
    .ok (ng.elementContainerStart handle.slot attributes localRefs)
  | .container handle attributes localRefs =>
    .ok (ng.elementContainer handle.slot attributes localRefs)
  | .containerEnd => .ok ng.elementContainerEnd
  | .i18nStart handle messageIndex subTemplateIndex =>
    .ok (ng.i18nStart handle.slot messageIndex subTemplateIndex)
  | .i18nEnd => .ok ng.i18nEnd
  | .i18n handle messageIndex subTemplateIndex =>
    .ok (ng.i18n handle.slot messageIndex subTemplateIndex)
  | .template xref handle tag attributes localRefs =>
    if !isViewUnit then
      .error "AssertionError: must be compiling a component"
    else
      match localRefs with
      | .refs _ =>
        .error "AssertionError: local refs array should have been extracted into a constant"
      | .index idx =>
        match views xref with
        | none => .error "TypeError: cannot read fields of an absent child view"
        | some childView =>
          .ok (ng.template handle.slot childView.fnName childView.decls childView.vars tag
            attributes idx)
  | .disableBindings => .ok ng.disableBindings
  | .enableBindings => .ok ng.enableBindings
  | .pipe handle name => .ok (ng.pipe handle.slot name)
  | .listener name handlerOps handlerFnName consumesDollarEvent hostListener isAnim => do
    let listenerFn ← reifyListenerHandler handlerFnName handlerOps consumesDollarEvent
    .ok (if hostListener && isAnim then ng.syntheticHostListener name listenerFn
      else ng.listener name listenerFn)
  | .variableOp xref varName initializer =>
    match varName with
    | none => .error ("AssertionError: unnamed variable " ++ toString xref)
    | some n => .ok (.statement (.declareVar n initializer))
  | .namespaceOp active =>
    match active with
    | .html => .ok ng.namespaceHTML
    | .svg => .ok ng.namespaceSVG
    | .math => .ok ng.namespaceMath
  | .defer handle mainSlot resolverFn loadingSlot placeholderSlot errorSlot loadingConfig
      placeholderConfig lMin lAfter pMin =>
    let timerScheduling := truthyNum lMin || truthyNum lAfter || truthyNum pMin
    .ok (ng.defer handle.slot mainSlot.slot resolverFn (loadingSlot.bind (·.slot))
      (placeholderSlot.bind (·.slot)) (errorSlot.bind (·.slot)) loadingConfig placeholderConfig
      timerScheduling)
  | .deferOn trigger prefetch =>
    match trigger with
    | .idle => .ok (ng.deferOn "idle" [] prefetch)
    | .immediate => .ok (ng.deferOn "immediate" [] prefetch)
    | .timer delay => .ok (ng.deferOn "timer" [Int.ofNat delay] prefetch)
    | .hover targetSlot steps =>
      match targetSlot.bind (·.slot), steps with
      | none, _ =>
        .error "Slot or view steps not set in trigger reification for trigger kind Hover"
      | _, none =>
        .error "Slot or view steps not set in trigger reification for trigger kind Hover"
      | some slot, some s =>
        .ok (ng.deferOn "hover" ([Int.ofNat slot] ++ if s ≠ 0 then [s] else []) prefetch)
    | .interaction targetSlot steps =>
      match targetSlot.bind (·.slot), steps with
      | none, _ =>
        .error "Slot or view steps not set in trigger reification for trigger kind Interaction"
      | _, none =>
        .error "Slot or view steps not set in trigger reification for trigger kind Interaction"
      | some slot, some s =>
        .ok (ng.deferOn "interaction" ([Int.ofNat slot] ++ if s ≠ 0 then [s] else []) prefetch)
    | .viewport targetSlot steps =>
      match targetSlot.bind (·.slot), steps with
      | none, _ =>
        .error "Slot or view steps not set in trigger reification for trigger kind Viewport"
      | _, none =>
        .error "Slot or view steps not set in trigger reification for trigger kind Viewport"
      | some slot, some s =>
        .ok (ng.deferOn "viewport" ([Int.ofNat slot] ++ if s ≠ 0 then [s] else []) prefetch)
  | .projectionDef defExpr => .ok (ng.projectionDef defExpr)
  | .projection handle projectionSlotIndex attributes =>
    match handle.slot with
    | none => .error "No slot was assigned for project instruction"
    | some slot => .ok (ng.projection slot projectionSlotIndex attributes)
  | .repeaterCreate xref handle emptyView tag attributes trackByFn usesComponentInstance
      decls vars =>
    match handle.slot with
    | none => .error "No slot was assigned for repeater instruction"
    | some slot =>
      if !isViewUnit then
        .error "AssertionError: must be compiling a component"
      else
        match views xref with
        | none => .error "TypeError: cannot read fields of an absent repeater view"
        | some repeaterView =>
          match repeaterView.fnName with
          | none => .error "AssertionError: expected repeater primary view to have been named"
          | some fnName =>
            match emptyView with
            | none =>
              .ok (ng.repeaterCreate slot fnName decls vars tag attributes trackByFn
                usesComponentInstance none none none)
            | some ev =>
              match views ev with
              | none =>
                .error "AssertionError: repeater had empty view xref, but empty view was not found"
              | some emptyV =>
                match emptyV.fnName, emptyV.decls, emptyV.vars with
                | some efn, some ed, some evr =>
                  .ok (ng.repeaterCreate slot fnName decls vars tag attributes trackByFn
                    usesComponentInstance (some efn) (some ed) (some evr))
                | _, _, _ =>
                  .error "AssertionError: expected repeater empty view to have been named and counted"
  | .statement s => .ok (.statement s)
  | .extractedAttribute _ =>
    .error "AssertionError: Unsupported reification of create op ExtractedAttribute"

/-- A compilation unit as reification and `$event` resolution see it. -/
structure RUnit where
  create : List CreateOp
  update : List UpdateOp

/-- `reify` over one unit: create and update ops are reified separately,
each op replaced in place. -/
def reifyUnit (views : XrefId → Option ViewInfo) (isViewUnit : Bool) (u : RUnit) :
    Except String RUnit := do
  let create' ← u.create.mapM (reifyCreateOp views isViewUnit)
  let update' ← u.update.mapM reifyUpdateOp
  .ok ⟨create', update'⟩

/-- `reify` (reify.ts lines 34–39): every unit of the job. -/
def reify (views : XrefId → Option ViewInfo) (isViewUnit : Bool) (units : List RUnit) :
    Except String (List RUnit) :=
  units.mapM (reifyUnit views isViewUnit)

/-- The visitor resolve_dollar_event.ts installs: a `LexicalReadExpr` named
`$event` matches. -/
def isDollarEventRead : Expr → Bool
  | .lexicalRead name => name == "$event"
  | _ => false

/-- The rewriting half of that visitor: a matching node becomes an output
`ReadVarExpr` of the same name; everything else is returned unchanged. -/
def rewriteDollarEvent : Expr → Expr
  | .lexicalRead name => if name == "$event" then .readVar name else .lexicalRead name
  | e => e

/-- Modelled from the spec: the pure form of the `ir` expression visitor on
an interpolation. -/
def mapInterp (f : Expr → Expr) (i : Interp) : Interp :=
  ⟨i.strings, transformExprList f i.expressions⟩

/-- Modelled from the spec: the pure visitor on an
expression-or-interpolation field. -/
def mapExprOrInterp (f : Expr → Expr) : ExprOrInterp → ExprOrInterp
  | .expr e => .expr (transformExpr f e)
  | .interp i => .interp (mapInterp f i)

/-- Modelled from the spec: `ir.transformExpressionsInOp` with a pure
visitor, on an update op. -/
def mapExpressionsInUpdateOp (f : Expr → Expr) : UpdateOp → UpdateOp
  | .advance delta => .advance delta
  | .property name expression sanitizer =>
    .property name (mapExprOrInterp f expression) (transformExprOpt f sanitizer)
  | .styleProp name expression unit => .styleProp name (mapExprOrInterp f expression) unit
  | .classProp name expression => .classProp name (transformExpr f expression)
  | .styleMap expression => .styleMap (mapExprOrInterp f expression)
  | .classMap expression => .classMap (mapExprOrInterp f expression)
  | .i18nExpression expression => .i18nExpression (transformExpr f expression)
  | .i18nApply handle => .i18nApply handle
  | .interpolateText interpolation => .interpolateText (mapInterp f interpolation)
  | .attribute name expression sanitizer =>
    .attribute name (mapExprOrInterp f expression) (transformExprOpt f sanitizer)
  | .hostProperty name expression isAnimationTrigger =>
    .hostProperty name (mapExprOrInterp f expression) isAnimationTrigger
  | .variableOp xref varName initializer => .variableOp xref varName (transformExpr f initializer)
  | .conditional targetSlot processed contextValue =>
    .conditional targetSlot (transformExprOpt f processed) (transformExprOpt f contextValue)
  | .repeater collection => .repeater (transformExpr f collection)
  | .deferWhen prefetch expr => .deferWhen prefetch (transformExpr f expr)
  | .statement statement => .statement (transformStmt f statement)
  | .binding => .binding

/-- `transformDollarEvent` on one create op (resolve_dollar_event.ts lines
26–36): only a Listener op is touched — its expressions (which all live in
its child handler ops) are rewritten, and `consumesDollarEvent` is set
exactly when the visitor matched somewhere. Every other op kind is left
untouched. -/
def transformDollarEventOp : CreateOp → CreateOp
  | .listener name handlerOps handlerFnName consumesDollarEvent hostListener isAnim =>
    .listener name (handlerOps.map (mapExpressionsInUpdateOp rewriteDollarEvent)) handlerFnName
      (consumesDollarEvent || handlerOps.any (anyExprInUpdateOp isDollarEventRead))
      hostListener isAnim
  | op => op

/-- `transformDollarEvent` on the update op list: no update op has kind
Listener, so the `op.kind === ir.OpKind.Listener` guard never fires and
the list is returned as it was. -/
def transformDollarEventUpdate (ops : List UpdateOp) : List UpdateOp := ops

/-- `resolveDollarEvent` on one unit: `transformDollarEvent` over the
create list, then over the update list. -/
def resolveDollarEventUnit (u : RUnit) : RUnit :=
  ⟨u.create.map transformDollarEventOp, transformDollarEventUpdate u.update⟩

/-- `resolveDollarEvent` (resolve_dollar_event.ts lines 17–22): every unit
of the job. -/
def resolveDollarEvent (units : List RUnit) : List RUnit :=
  units.map resolveDollarEventUnit

end Reify

/-! ## Theorems -/

/-- `pure` in the `Except` monad is `Except.ok`. -/
theorem exceptPure_eq {α : Type} (a : α) : (pure a : Except String α) = Except.ok a := rfl

/-- Binding a successful `Except` computation applies the continuation. -/
theorem exceptBind_ok {α β : Type} (a : α) (f : α → Except String β) :
    (Except.ok a >>= f) = f a := rfl

/-- Binding a failed `Except` computation propagates the error. -/
theorem exceptBind_err {α β : Type} (e : String) (f : α → Except String β) :
    ((Except.error e : Except String α) >>= f) = Except.error e := rfl

/-- Helper: an Except-valued `mapM` succeeds exactly when every element
maps successfully, pointwise. -/
theorem mapM_ok_iff_forall₂ {α β : Type} (f : α → Except String β) :
    ∀ {l : List α} {l' : List β},
      l.mapM f = Except.ok l' ↔ List.Forall₂ (fun a b => f a = Except.ok b) l l' := by
  intro l
  induction l with
  | nil =>
    intro l'
    constructor
    · intro h
      simp only [List.mapM_nil, exceptPure_eq] at h
      cases h
      exact List.Forall₂.nil
    · intro h
      cases h
      rfl
  | cons a l ih =>
    intro l'
    constructor
    · intro h
      rw [List.mapM_cons] at h
      cases hfa : f a with
      | error e => rw [hfa, exceptBind_err] at h; cases h
      | ok b =>
        rw [hfa, exceptBind_ok] at h
        cases hml : l.mapM f with
        | error e => rw [hml, exceptBind_err] at h; cases h
        | ok bs =>
          rw [hml, exceptBind_ok, exceptPure_eq] at h
          cases h
          exact List.Forall₂.cons hfa ((ih).mp hml)
    · intro h
      cases h with
      | cons hfa hrest =>
        rw [List.mapM_cons, hfa, exceptBind_ok, (ih).mpr hrest, exceptBind_ok, exceptPure_eq]

/-- Helper: a failing Except-valued `mapM` fails on one of its elements. -/
theorem mapM_error_exists {α β : Type} (f : α → Except String β) :
    ∀ {l : List α} {e : String}, l.mapM f = Except.error e → ∃ a ∈ l, f a = Except.error e := by
  intro l
  induction l with
  | nil =>
    intro e h
    simp only [List.mapM_nil, exceptPure_eq] at h
    cases h
  | cons a l ih =>
    intro e h
    rw [List.mapM_cons] at h
    cases hfa : f a with
    | error e' =>
      rw [hfa, exceptBind_err] at h
      cases h
      exact ⟨a, List.mem_cons_self a l, hfa⟩
    | ok b =>
      rw [hfa, exceptBind_ok] at h
      cases hml : l.mapM f with
      | error e' =>
        rw [hml, exceptBind_err] at h
        cases h
        obtain ⟨a', ha', hfa'⟩ := ih hml
        exact ⟨a', List.mem_cons_of_mem a ha', hfa'⟩
      | ok bs => rw [hml, exceptBind_ok, exceptPure_eq] at h; cases h

/-- Helper: each left element of a `Forall₂` pairing has a related right
element. -/
theorem forall₂_exists_right {α β : Type} {r : α → β → Prop} :
    ∀ {l : List α} {l' : List β}, List.Forall₂ r l l' →
      ∀ {a : α}, a ∈ l → ∃ b ∈ l', r a b := by
  intro l l' h
  induction h with
  | nil => intro a ha; cases ha
  | @cons a b l l' hr _ ih =>
    intro x hx
    cases hx with
    | head => exact ⟨b, List.mem_cons_self b l', hr⟩
    | tail _ hmem =>
      obtain ⟨b', hb', hrb'⟩ := ih hmem
      exact ⟨b', List.mem_cons_of_mem b hb', hrb'⟩

namespace Sanitize

/-- An `.Other`-kind op passes through the sanitizer phase untouched. -/
theorem resolveSanitizerOfOp_other (sens : String → Bool)
    (els : XrefId → Option CreateOp) (op : UpdateOp) (h : op.kind = .Other) :
    resolveSanitizerOfOp sens els op = .ok op := by
  unfold resolveSanitizerOfOp
  rw [h]

/-- Successful sanitizer resolution of a Property/Attribute op: the result
keeps all other fields and its `sanitizer` is the table entry, or — on a
table miss — the iframe-attribute sanitizer exactly for security-sensitive
attributes of a resolved `<iframe>` owner. -/
theorem resolveSanitizerOfOp_ok_cases (sens : String → Bool)
    (els : XrefId → Option CreateOp) (op op' : UpdateOp)
    (hk : op.kind = .Property ∨ op.kind = .Attribute)
    (h : resolveSanitizerOfOp sens els op = .ok op') :
    op'.kind = op.kind ∧ op'.name = op.name ∧ op'.target = op.target ∧
    op'.securityContext = op.securityContext ∧
    ((∃ fn, sanitizers op.securityContext = some fn ∧ op'.sanitizer = some fn) ∨
     (sanitizers op.securityContext = none ∧
      ∃ owner, els op.target = some owner ∧ isElementOrContainerOp owner = true ∧
        op'.sanitizer = (if isIframeElement owner && sens op.name then
          some SanitizerFn.IframeAttribute else none))) := by
  unfold resolveSanitizerOfOp at h
  rcases hk with hk | hk <;> rw [hk] at h <;>
  · cases hsc : sanitizers op.securityContext with
    | some fn =>
      simp only [hsc, reduceIte] at h
      cases h
      exact ⟨hk.symm, rfl, rfl, rfl, Or.inl ⟨fn, rfl, rfl⟩⟩
    | none =>
      simp only [hsc, reduceIte] at h
      cases hels : els op.target with
      | none => simp [hels] at h
      | some ownerOp =>
        simp only [hels] at h
        split at h
        · simp at h
        · rename_i helem
          simp at helem
          split at h
          · rename_i hif
            cases h
            exact ⟨hk.symm, rfl, rfl, rfl, Or.inr ⟨rfl, ownerOp, rfl, helem, by simp [hif]⟩⟩
          · rename_i hif
            cases h
            refine ⟨hk.symm, rfl, rfl, rfl, Or.inr ⟨rfl, ownerOp, rfl, helem, ?_⟩⟩
            simp [hif]

/-- If a Property/Attribute op's security context has no table entry and its
target resolves to no element-like owner, the per-op resolution fails with
the phase's fatal error. -/
theorem resolveSanitizerOfOp_bad_owner (sens : String → Bool)
    (els : XrefId → Option CreateOp) (op : UpdateOp)
    (hk : op.kind = .Property ∨ op.kind = .Attribute)
    (hsc : sanitizers op.securityContext = none)
    (ho : ∀ owner, els op.target = some owner → isElementOrContainerOp owner = false) :
    resolveSanitizerOfOp sens els op =
      .error "Property should have an element-like owner" := by
  unfold resolveSanitizerOfOp
  rcases hk with hk | hk <;> rw [hk] <;>
  · simp only [hsc, reduceIte]
    cases hels : els op.target with
    | none => rfl
    | some ownerOp => simp [ho ownerOp hels]

/-- The only error this phase can produce, per op, is the missing-owner
assertion. -/
theorem resolveSanitizerOfOp_error_msg (sens : String → Bool)
    (els : XrefId → Option CreateOp) (op : UpdateOp) (e : String)
    (h : resolveSanitizerOfOp sens els op = .error e) :
    e = "Property should have an element-like owner" := by
  unfold resolveSanitizerOfOp at h
  cases hk : op.kind <;> rw [hk] at h <;>
    [skip; skip; exact Except.noConfusion h] <;>
  · cases hsc : sanitizers op.securityContext with
    | some fn => simp [hsc] at h
    | none =>
      simp only [hsc, reduceIte] at h
      cases hels : els op.target with
      | none => simp only [hels] at h; cases h; rfl
      | some ownerOp =>
        simp only [hels] at h
        split at h
        · cases h; rfl
        · split at h <;> exact Except.noConfusion h

/-- Successful per-op resolution satisfies the claim's per-op property. -/
theorem resolveSanitizerOfOp_claimHolds (sens : String → Bool) (u : Unit')
    (op op' : UpdateOp)
    (h : resolveSanitizerOfOp sens (createOpXrefMap u) op = .ok op') :
    sanitizerClaimHolds sens u op op' = true := by
  unfold sanitizerClaimHolds
  cases hk : op.kind with
  | Other => rfl
  | Property | Attribute =>
    obtain ⟨-, -, -, -, hcase⟩ :=
      resolveSanitizerOfOp_ok_cases sens (createOpXrefMap u) op op'
        (by rw [hk]; simp) h
    rcases hcase with ⟨fn, hsc, hsan⟩ | ⟨hsc, owner, hown, helem, hsan⟩
    · simp [hsc, hsan]
    · simp [hsc, hown, helem, hsan]

/-- A successful per-op resolution is a fixed point of per-op resolution. -/
theorem resolveSanitizerOfOp_idem (sens : String → Bool)
    (els : XrefId → Option CreateOp) (op op' : UpdateOp)
    (h : resolveSanitizerOfOp sens els op = .ok op') :
    resolveSanitizerOfOp sens els op' = .ok op' := by
  unfold resolveSanitizerOfOp at h ⊢
  cases hk : op.kind <;> rw [hk] at h <;>
    [skip; skip; (cases h; rw [hk])] <;>
  · cases hsc : sanitizers op.securityContext with
    | some fn =>
      simp only [hsc, reduceIte] at h
      cases h
      simp [hk, hsc]
    | none =>
      simp only [hsc, reduceIte] at h
      cases hels : els op.target with
      | none => simp only [hels] at h; exact Except.noConfusion h
      | some ownerOp =>
        simp only [hels] at h
        split at h
        · exact Except.noConfusion h
        · rename_i helem
          simp at helem
          split at h <;> rename_i hif <;> cases h <;>
            simp [hk, hsc, hels, helem, hif]

/-- Unit-level success: pointwise per-op success, with create ops kept. -/
theorem resolveSanitizersUnit_ok (sens : String → Bool) (u u' : Unit')
    (h : resolveSanitizersUnit sens u = .ok u') :
    u'.create = u.create ∧
      List.Forall₂
        (fun op op' => resolveSanitizerOfOp sens (createOpXrefMap u) op = .ok op')
        u.update u'.update := by
  unfold resolveSanitizersUnit at h
  cases hm : u.update.mapM (resolveSanitizerOfOp sens (createOpXrefMap u)) with
  | error e => rw [hm, exceptBind_err] at h; cases h
  | ok update' =>
    rw [hm, exceptBind_ok, exceptPure_eq] at h
    cases h
    exact ⟨rfl, (mapM_ok_iff_forall₂ _).mp hm⟩

/-- C4: for every Property or Attribute update op, the phase sets the op's
sanitizer from the fixed security-context table; on a table miss the
iframe-attribute sanitizer is applied exactly when the owning element is an
`<iframe>` and the attribute name is iframe-security-sensitive; and an op
whose declared target does not resolve to an element-like owner op makes
the phase fail with the fatal owner error. -/
theorem resolveSanitizers_assigns_sanitizers (sens : String → Bool)
    (units units' : List Unit')
    (h : resolveSanitizers sens units = Except.ok units') :
    List.Forall₂
      (fun u u' => u'.create = u.create ∧
        List.Forall₂ (fun op op' => sanitizerClaimHolds sens u op op' = true)
          u.update u'.update)
      units units' ∧
    (∀ u ∈ units, ∀ op ∈ u.update,
      (op.kind = .Property ∨ op.kind = .Attribute) →
      sanitizers op.securityContext = none →
      (∀ owner, createOpXrefMap u op.target = some owner →
        isElementOrContainerOp owner = false) →
      resolveSanitizersUnit sens u =
        .error "Property should have an element-like owner") := by
  constructor
  · have hunits := (mapM_ok_iff_forall₂ _).mp h
    refine List.Forall₂.imp ?_ hunits
    intro u u' hu
    obtain ⟨hcreate, hops⟩ := resolveSanitizersUnit_ok sens u u' hu
    refine ⟨hcreate, List.Forall₂.imp ?_ hops⟩
    intro op op' hop
    exact resolveSanitizerOfOp_claimHolds sens u op op' hop
  · intro u hu op hop hk hsc ho
    have hbad : resolveSanitizerOfOp sens (createOpXrefMap u) op =
        .error "Property should have an element-like owner" :=
      resolveSanitizerOfOp_bad_owner sens (createOpXrefMap u) op hk hsc ho
    cases hres : resolveSanitizersUnit sens u with
    | ok u' =>
      obtain ⟨-, hops⟩ := resolveSanitizersUnit_ok sens u u' hres
      obtain ⟨op', -, hok⟩ := forall₂_exists_right hops hop
      rw [hbad] at hok
      exact Except.noConfusion hok
    | error e =>
      unfold resolveSanitizersUnit at hres
      cases hm : u.update.mapM (resolveSanitizerOfOp sens (createOpXrefMap u)) with
      | error e' =>
        rw [hm, exceptBind_err] at hres
        cases hres
        obtain ⟨a, -, hfa⟩ := mapM_error_exists _ hm
        rw [resolveSanitizerOfOp_error_msg sens (createOpXrefMap u) a e hfa]
      | ok update' => rw [hm, exceptBind_ok, exceptPure_eq] at hres; cases hres

/-- C4 witness: the theorem applied to a one-unit job holding an `<iframe>`
element and a `srcdoc` property binding with no table sanitizer. -/
theorem resolveSanitizers_assigns_sanitizers_witness :
    (resolveSanitizers (fun n => n == "srcdoc")
        [⟨[⟨.ElementStart, 5, some "iframe"⟩], [⟨.Property, "srcdoc", 5, .NONE, none⟩]⟩] =
      Except.ok
        [⟨[⟨.ElementStart, 5, some "iframe"⟩],
          [⟨.Property, "srcdoc", 5, .NONE, some .IframeAttribute⟩]⟩]) ∧
    (List.Forall₂
      (fun (u u' : Unit') => u'.create = u.create ∧
        List.Forall₂
          (fun op op' => sanitizerClaimHolds (fun n => n == "srcdoc") u op op' = true)
          u.update u'.update)
      [⟨[⟨.ElementStart, 5, some "iframe"⟩], [⟨.Property, "srcdoc", 5, .NONE, none⟩]⟩]
      [⟨[⟨.ElementStart, 5, some "iframe"⟩],
        [⟨.Property, "srcdoc", 5, .NONE, some .IframeAttribute⟩]⟩] ∧
    (∀ u ∈ [(⟨[⟨.ElementStart, 5, some "iframe"⟩],
          [⟨.Property, "srcdoc", 5, .NONE, none⟩]⟩ : Unit')], ∀ op ∈ u.update,
      (op.kind = .Property ∨ op.kind = .Attribute) →
      sanitizers op.securityContext = none →
      (∀ owner, createOpXrefMap u op.target = some owner →
        isElementOrContainerOp owner = false) →
      resolveSanitizersUnit (fun n => n == "srcdoc") u =
        .error "Property should have an element-like owner")) :=
  ⟨by rfl, resolveSanitizers_assigns_sanitizers (fun n => n == "srcdoc") _ _ (by rfl)⟩

/-- Helper: a pointwise-successful pairing whose function is a fixed point
on successes pairs the output list successfully with itself. -/
theorem forall₂_diag_of_idem {α : Type} {f : α → Except String α}
    (hf : ∀ a b, f a = .ok b → f b = .ok b) :
    ∀ {l l' : List α}, List.Forall₂ (fun a b => f a = .ok b) l l' →
      List.Forall₂ (fun a b => f a = .ok b) l' l' := by
  intro l l' h
  induction h with
  | nil => exact .nil
  | cons hr _ ih => exact .cons (hf _ _ hr) ih

/-- Unit-level idempotence of sanitizer resolution. -/
theorem resolveSanitizersUnit_idem (sens : String → Bool) (u u' : Unit')
    (h : resolveSanitizersUnit sens u = .ok u') :
    resolveSanitizersUnit sens u' = .ok u' := by
  obtain ⟨hcreate, hops⟩ := resolveSanitizersUnit_ok sens u u' h
  have hels : createOpXrefMap u' = createOpXrefMap u := by
    unfold createOpXrefMap
    rw [hcreate]
  unfold resolveSanitizersUnit
  have hmap : u'.update.mapM (resolveSanitizerOfOp sens (createOpXrefMap u')) =
      .ok u'.update := by
    rw [hels]
    exact (mapM_ok_iff_forall₂ _).mpr
      (forall₂_diag_of_idem
        (fun a b hab => resolveSanitizerOfOp_idem sens (createOpXrefMap u) a b hab) hops)
  rw [hmap, exceptBind_ok, exceptPure_eq]

/-- C9: re-running sanitizer resolution over the job it produced returns
that job unchanged — the re-run does not alter ops whose sanitizer field is
already set consistently. -/
theorem resolveSanitizers_rerun_noop (sens : String → Bool)
    (units units' : List Unit')
    (h : resolveSanitizers sens units = Except.ok units') :
    resolveSanitizers sens units' = Except.ok units' := by
  have hunits := (mapM_ok_iff_forall₂ _).mp h
  exact (mapM_ok_iff_forall₂ _).mpr
    (forall₂_diag_of_idem (fun a b hab => resolveSanitizersUnit_idem sens a b hab) hunits)

/-- C9 witness: the idempotence theorem applied to a one-unit job with an
HTML-context attribute binding. -/
theorem resolveSanitizers_rerun_noop_witness :
    (resolveSanitizers (fun _ => false)
        [⟨[], [⟨.Attribute, "title", 0, .HTML, none⟩]⟩] =
      Except.ok [⟨[], [⟨.Attribute, "title", 0, .HTML, some .Html⟩]⟩]) ∧
    resolveSanitizers (fun _ => false)
        [⟨[], [⟨.Attribute, "title", 0, .HTML, some .Html⟩]⟩] =
      Except.ok [⟨[], [⟨.Attribute, "title", 0, .HTML, some .Html⟩]⟩] :=
  ⟨by rfl,
    resolveSanitizers_rerun_noop (fun _ => false)
      [⟨[], [⟨.Attribute, "title", 0, .HTML, none⟩]⟩] _ (by rfl)⟩

end Sanitize

namespace Ingest

/-- Scanning with a root already found succeeds exactly when every
remaining child is a comment. -/
theorem findSingleRoot_some (r : CtlNode) :
    ∀ (children : List CtlNode),
      findSingleRoot (some r) children =
        if (children.filter (fun c => !(c matches .comment))).isEmpty then
          some (some r)
        else none := by
  intro children
  induction children with
  | nil => rfl
  | cons child rest ih =>
    cases child with
    | comment => simpa [findSingleRoot] using ih
    | text v => simp [findSingleRoot]
    | element n a => simp [findSingleRoot]
    | template t a => simp [findSingleRoot]
    | otherNode => simp [findSingleRoot]

/-- Characterization of the root-finding loop started with no root: the
last non-comment child must be rootable and all earlier non-comment
children non-rootable. -/
theorem findSingleRoot_none_char :
    ∀ (children : List CtlNode),
      findSingleRoot none children =
        match (children.filter (fun c => !(c matches .comment))).reverse with
        | [] => some none
        | r :: pre =>
          if pre.all (fun c => !isRootableNode c) then
            (if isRootableNode r then some (some r) else some none)
          else none := by
  intro children
  induction children with
  | nil => rfl
  | cons child rest ih =>
    by_cases hcomment : child matches .comment
    · cases child <;> simp_all [findSingleRoot]
    · have hfilter :
          (child :: rest).filter (fun c => !(c matches .comment)) =
            child :: rest.filter (fun c => !(c matches .comment)) := by
        simp [List.filter_cons, hcomment]
      by_cases hroot : isRootableNode child
      · have hstep : findSingleRoot none (child :: rest) = findSingleRoot (some child) rest := by
          cases child <;> simp_all [findSingleRoot]
        rw [hstep, findSingleRoot_some, hfilter]
        cases hrev : (rest.filter (fun c => !(c matches .comment))).reverse with
        | nil =>
          have : rest.filter (fun c => !(c matches .comment)) = [] :=
            List.reverse_eq_nil_iff.mp hrev
          simp [this, hroot]
        | cons r' pre'' =>
          have hne : rest.filter (fun c => !(c matches .comment)) ≠ [] := by
            intro hnil
            rw [hnil] at hrev
            cases hrev
          simp only [List.reverse_cons, hrev]
          have hmem : child ∈ pre'' ++ [child] := by simp
          have hallfalse : (pre'' ++ [child]).all (fun c => !isRootableNode c) = false := by
            rw [List.all_eq_false]
            exact ⟨child, hmem, by simp [hroot]⟩
          simp [hallfalse, List.isEmpty_iff, hne]
      · have hstep : findSingleRoot none (child :: rest) = findSingleRoot none rest := by
          cases child <;> simp_all [findSingleRoot]
        rw [hstep, ih, hfilter]
        cases hrev : (rest.filter (fun c => !(c matches .comment))).reverse with
        | nil =>
          have : rest.filter (fun c => !(c matches .comment)) = [] :=
            List.reverse_eq_nil_iff.mp hrev
          simp [this, hroot]
        | cons r' pre'' =>
          simp only [Bool.not_eq_true] at hroot
          simp [List.reverse_cons, hrev, List.cons_append, List.all_append, hroot]

/-- C2 amended: the control-flow insertion point copies the tag name and
static attributes of `actualSingleRoot` — the last non-comment child, when
it is rootable and no earlier non-comment child is — with `ng-template`
tag names excluded; otherwise nothing is copied. -/
theorem ingestControlFlowInsertionPoint_amended (xref : XrefId) (children : List CtlNode) :
    ingestControlFlowInsertionPoint xref children = amendedInsertionPoint xref children := by
  unfold ingestControlFlowInsertionPoint amendedInsertionPoint actualSingleRoot
  rw [findSingleRoot_none_char]
  cases hrev : (children.filter (fun c => !(c matches .comment))).reverse with
  | nil => rfl
  | cons r pre =>
    by_cases hall : pre.all (fun c => !isRootableNode c)
    · by_cases hroot : isRootableNode r
      · simp [hall, hroot]
      · simp [hall, hroot]
    · simp only [Bool.not_eq_true] at hall
      simp [hall]

/-- C2 counterexample: a branch whose non-comment children are a text node
followed by a `<div foo="1">` has multiple roots, which the claim says
disables the inference; the code still copies the div's tag name and
attribute (while the claim's reading returns nothing). -/
theorem ingestControlFlowInsertionPoint_counterexample :
    ifBlockBranchInference 3 [[.text "x", .element "div" [("foo", "1")]]] =
      [(some "div", [⟨3, "foo", "1"⟩])] ∧
    claimedInsertionPoint 3 [.text "x", .element "div" [("foo", "1")]] = (none, []) := by
  decide

/-- Processing a trigger group appends its ops after the accumulated
ones. -/
theorem processTriggerGroup_append (deferXref : XrefId) (t : DeferredBlockTriggers)
    (prefetch : Bool) (rootXref next : XrefId) (ons : List DeferOnOp)
    (whens : List DeferWhenOp) :
    processTriggerGroup deferXref t prefetch rootXref next ons whens =
      (processTriggerGroup deferXref t prefetch rootXref next [] []).map
        (fun r => (ons ++ r.1, whens ++ r.2.1, r.2.2)) := by
  rcases t with ⟨ti, tim, ttm, thv, tia, tvp, twv⟩
  cases twv with
  | none =>
    cases ti <;> cases tim <;> cases ttm <;> cases thv <;> cases tia <;> cases tvp <;>
      simp [processTriggerGroup, Except.map, exceptPure_eq]
  | some val =>
    cases hc : convertAst val rootXref next with
    | error e =>
      cases ti <;> cases tim <;> cases ttm <;> cases thv <;> cases tia <;> cases tvp <;>
        simp [processTriggerGroup, Except.map, exceptPure_eq, exceptBind_ok, exceptBind_err, hc]
    | ok p =>
      obtain ⟨e, n⟩ := p
      cases ti <;> cases tim <;> cases ttm <;> cases thv <;> cases tia <;> cases tvp <;>
        simp [processTriggerGroup, Except.map, exceptPure_eq, exceptBind_ok, exceptBind_err, hc]

/-- A trigger group with no configured trigger contributes nothing. -/
theorem processTriggerGroup_noTriggers (deferXref : XrefId) (t : DeferredBlockTriggers)
    (prefetch : Bool) (rootXref next : XrefId) (ons : List DeferOnOp)
    (whens : List DeferWhenOp) (h : noTriggers t = true) :
    processTriggerGroup deferXref t prefetch rootXref next ons whens = .ok (ons, whens, next) := by
  rcases t with ⟨ti, tim, ttm, thv, tia, tvp, twv⟩
  simp only [noTriggers, Bool.and_eq_true, Bool.not_eq_true', Option.isNone_iff_eq_none] at h
  obtain ⟨⟨⟨⟨⟨⟨h1, h2⟩, h3⟩, h4⟩, h5⟩, h6⟩, h7⟩ := h
  subst h1; subst h2; subst h3; subst h4; subst h5; subst h6; subst h7
  simp [processTriggerGroup, exceptPure_eq]

/-- Every op a trigger group contributes carries that group's prefetch
flag. -/
theorem processTriggerGroup_prefetch_all (deferXref : XrefId) (t : DeferredBlockTriggers)
    (prefetch : Bool) (rootXref next : XrefId) (o : List DeferOnOp) (w : List DeferWhenOp)
    (n' : XrefId)
    (h : processTriggerGroup deferXref t prefetch rootXref next [] [] = .ok (o, w, n')) :
    o.all (fun x => x.prefetch == prefetch) = true ∧
      w.all (fun x => x.prefetch == prefetch) = true := by
  rcases t with ⟨ti, tim, ttm, thv, tia, tvp, twv⟩
  cases twv with
  | none =>
    cases ti <;> cases tim <;> cases ttm <;> cases thv <;> cases tia <;> cases tvp <;>
      (simp [processTriggerGroup, exceptPure_eq] at h; obtain ⟨rfl, rfl, rfl⟩ := h;
        cases prefetch <;> exact ⟨rfl, rfl⟩)
  | some val =>
    cases hc : convertAst val rootXref next with
    | error e =>
      cases ti <;> cases tim <;> cases ttm <;> cases thv <;> cases tia <;> cases tvp <;>
        simp [processTriggerGroup, exceptPure_eq, exceptBind_ok, exceptBind_err, hc] at h
    | ok p =>
      obtain ⟨e, n⟩ := p
      cases ti <;> cases tim <;> cases ttm <;> cases thv <;> cases tia <;> cases tvp <;>
        (simp [processTriggerGroup, exceptPure_eq, exceptBind_ok, exceptBind_err, hc] at h; obtain ⟨rfl, rfl, rfl⟩ := h;
          cases prefetch <;> exact ⟨rfl, rfl⟩)

/-- C5: when the primary trigger group configures no `on` and no `when`
trigger, exactly one defaulted DeferOn op with kind Idle and
`prefetch = false` is emitted; the prefetch group receives no default and
contributes exactly its explicitly configured triggers, all marked
`prefetch = true`. -/
theorem ingestDeferTriggers_default_idle (deferXref : XrefId)
    (triggers prefetchTriggers : DeferredBlockTriggers) (rootXref next : XrefId)
    (ons : List DeferOnOp) (whens : List DeferWhenOp) (next' : XrefId)
    (hno : noTriggers triggers = true)
    (hr : ingestDeferTriggers deferXref triggers prefetchTriggers rootXref next =
      .ok (ons, whens, next')) :
    ons.filter (fun op => !op.prefetch) = [⟨deferXref, .idle, false⟩] ∧
    ∃ pOns pWhens,
      processTriggerGroup deferXref prefetchTriggers true rootXref next [] [] =
        .ok (pOns, pWhens, next') ∧
      ons = ⟨deferXref, .idle, false⟩ :: pOns ∧ whens = pWhens ∧
      ons.filter (fun op => op.prefetch) = pOns ∧
      (∀ op ∈ pOns, op.prefetch = true) ∧ (∀ op ∈ pWhens, op.prefetch = true) := by
  unfold ingestDeferTriggers at hr
  rw [processTriggerGroup_noTriggers deferXref triggers false rootXref next [] [] hno,
    exceptBind_ok] at hr
  simp only [List.isEmpty_nil, Bool.and_self, if_pos, List.nil_append] at hr
  rw [processTriggerGroup_append] at hr
  cases hp : processTriggerGroup deferXref prefetchTriggers true rootXref next [] [] with
  | error e => rw [hp] at hr; cases hr
  | ok p =>
    obtain ⟨pOns, pWhens, n⟩ := p
    rw [hp] at hr
    simp only [Except.map, exceptBind_ok] at hr
    have hcons : ([(⟨deferXref, .idle, false⟩ : DeferOnOp)] ++ pOns).isEmpty = false := rfl
    rw [hcons] at hr
    simp only [Bool.false_and, if_neg, Bool.false_eq_true, exceptPure_eq] at hr
    cases hr
    obtain ⟨hallo, hallw⟩ :=
      processTriggerGroup_prefetch_all deferXref prefetchTriggers true rootXref next
        _ _ _ hp
    simp only [List.all_eq_true, beq_iff_eq] at hallo hallw
    have hfilterNo : pOns.filter (fun op => !op.prefetch) = [] := by
      rw [List.filter_eq_nil_iff]
      intro a ha
      simp [hallo a ha]
    have hfilterYes : pOns.filter (fun op => op.prefetch) = pOns :=
      List.filter_eq_self.mpr (fun a ha => by simp [hallo a ha])
    refine ⟨?_, pOns, pWhens, rfl, rfl, rfl, ?_, hallo, hallw⟩
    · simp [List.filter_cons, hfilterNo]
    · simp [List.filter_cons, hfilterYes]

/-- C5 witness: the theorem applied to a defer block with an empty primary
group and a hover-only prefetch group. -/
theorem ingestDeferTriggers_default_idle_witness :
    (noTriggers ⟨false, false, none, none, none, none, none⟩ = true) ∧
    (ingestDeferTriggers 9 ⟨false, false, none, none, none, none, none⟩
        ⟨false, false, none, some (some "btn"), none, none, none⟩ 0 4 =
      .ok ([⟨9, .idle, false⟩, ⟨9, .hover (some "btn"), true⟩], [], 4)) ∧
    ([(⟨9, .idle, false⟩ : DeferOnOp), ⟨9, .hover (some "btn"), true⟩].filter
        (fun op => !op.prefetch) = [⟨9, .idle, false⟩] ∧
      ∃ pOns pWhens,
        processTriggerGroup 9 ⟨false, false, none, some (some "btn"), none, none, none⟩
            true 0 4 [] [] = .ok (pOns, pWhens, 4) ∧
        [(⟨9, .idle, false⟩ : DeferOnOp), ⟨9, .hover (some "btn"), true⟩] =
          ⟨9, .idle, false⟩ :: pOns ∧
        ([] : List DeferWhenOp) = pWhens ∧
        [(⟨9, .idle, false⟩ : DeferOnOp), ⟨9, .hover (some "btn"), true⟩].filter
          (fun op => op.prefetch) = pOns ∧
        (∀ op ∈ pOns, op.prefetch = true) ∧ (∀ op ∈ pWhens, op.prefetch = true)) :=
  ⟨rfl, rfl,
    ingestDeferTriggers_default_idle 9 ⟨false, false, none, none, none, none, none⟩
      ⟨false, false, none, some (some "btn"), none, none, none⟩ 0 4 _ _ 4 rfl rfl⟩

/-- C7 counterexample: converting `this` (and the receiver of a property
write on the implicit receiver) inside a unit whose xref is 1, in a job
whose root xref is 0, yields a context expression referencing view 0 — the
job's root — not the owning view 1 the claim names. -/
theorem convertAst_this_not_owning_view :
    convertAstInUnit ⟨1, ⟨0⟩⟩ .thisReceiver 7 = .ok (.contextExpr 0, 7) ∧
    convertAstInUnit ⟨1, ⟨0⟩⟩
        (.propertyWrite .implicitReceiver "x" (.literalPrimitive (.num 1))) 7 =
      .ok (.writeProp (.contextExpr 0) "x" (.literal (.num 1)), 7) ∧
    (⟨1, ⟨0⟩⟩ : UnitCtx).xref ≠ (⟨1, ⟨0⟩⟩ : UnitCtx).job.rootXref :=
  ⟨rfl, rfl, by decide⟩

/-- C7 amended: the implicit `this` receiver — and the receiver of a
property write on the implicit receiver — is mapped to a context
expression referencing the job's root view, whichever unit owns the
expression being converted. -/
theorem convertAst_implicit_receiver_to_root_context :
    ∀ (view : UnitCtx) (next : XrefId),
      convertAstInUnit view .thisReceiver next =
        .ok (.contextExpr view.job.rootXref, next) ∧
      ∀ (recv : EAst) (name : String) (value : EAst) (v : Expr) (next' : XrefId),
        isImplicitReceiverAst recv = true →
        convertAst value view.job.rootXref next = .ok (v, next') →
        convertAstInUnit view (.propertyWrite recv name value) next =
          .ok (.writeProp (.contextExpr view.job.rootXref) name v, next') := by
  intro view next
  constructor
  · rfl
  · intro recv name value v next' himpl hval
    unfold convertAstInUnit
    rw [convertAst]
    simp [himpl, hval, exceptBind_ok, exceptPure_eq]

/-- C7 amended witness: the amended theorem applied inside a non-root
unit. -/
theorem convertAst_implicit_receiver_to_root_context_witness :
    convertAstInUnit ⟨2, ⟨0⟩⟩ .thisReceiver 3 = .ok (.contextExpr 0, 3) ∧
    convertAstInUnit ⟨2, ⟨0⟩⟩ (.propertyWrite .thisReceiver "y" (.literalPrimitive .null)) 3 =
      .ok (.writeProp (.contextExpr 0) "y" (.literal .null), 3) :=
  ⟨(convertAst_implicit_receiver_to_root_context ⟨2, ⟨0⟩⟩ 3).1,
    (convertAst_implicit_receiver_to_root_context ⟨2, ⟨0⟩⟩ 3).2
      .thisReceiver "y" (.literalPrimitive .null) (.literal .null) 3 rfl rfl⟩

/-- C8: a `Call` whose receiver is the implicit receiver (including the
`this` receiver, which subclasses it) is rejected with a fatal error;
every other `Call` converts to an invocation of the converted receiver
applied to the converted argument list. -/
theorem convertAst_call_cases :
    ∀ (receiver : EAst) (args : List EAst) (rootXref next : XrefId),
      (isImplicitReceiverAst receiver = true →
        convertAst (.call receiver args) rootXref next =
          .error "Unexpected ImplicitReceiver") ∧
      (isImplicitReceiverAst receiver = false →
        ∀ (r : Expr) (n₁ : XrefId) (as' : List Expr) (n₂ : XrefId),
          convertAst receiver rootXref next = .ok (r, n₁) →
          convertAstList args rootXref n₁ = .ok (as', n₂) →
          convertAst (.call receiver args) rootXref next = .ok (.invokeFn r as', n₂)) := by
  intro receiver args rootXref next
  constructor
  · intro himpl
    rw [convertAst]
    simp [himpl]
  · intro himpl r n₁ as' n₂ hrecv hargs
    rw [convertAst]
    simp [himpl, hrecv, hargs, exceptBind_ok, exceptPure_eq]

/-- C8 witness: the theorem applied to a rejected call on the implicit
receiver and to an accepted call of a lexically-read function. -/
theorem convertAst_call_cases_witness :
    convertAst (.call .implicitReceiver []) 0 5 = .error "Unexpected ImplicitReceiver" ∧
    convertAst (.call (.propertyRead .implicitReceiver "f") [.literalPrimitive (.num 1)]) 0 5 =
      .ok (.invokeFn (.lexicalRead "f") [.literal (.num 1)], 5) :=
  ⟨(convertAst_call_cases .implicitReceiver [] 0 5).1 rfl,
    (convertAst_call_cases (.propertyRead .implicitReceiver "f")
        [.literalPrimitive (.num 1)] 0 5).2 rfl
      (.lexicalRead "f") 5 [.literal (.num 1)] 5 rfl rfl⟩

end Ingest

namespace I18n

/-- First-pass accounting: with no pre-existing context ops, the processed
ops contain no RootI18n context op and the pushed ops reference exactly the
root i18n blocks of the input, in order. -/
theorem pass1Ops_rootCtx :
    ∀ (ops : List COp) (st : P1State) (ops' news : List COp) (st' : P1State),
      pass1Ops st ops = .ok (ops', news, st') →
      noContextOps ops = true →
      rootCtxOps ops' = [] ∧ rootCtxOps news = rootStartsOps ops := by
  intro ops
  induction ops with
  | nil =>
    intro st ops' news st' h hnc
    cases h
    exact ⟨rfl, rfl⟩
  | cons op rest ih =>
    intro st ops' news st' h hnc
    have hncrest : noContextOps rest = true := by
      simp only [noContextOps, List.all_cons, Bool.and_eq_true] at hnc
      exact hnc.2
    rw [pass1Ops] at h
    cases op with
    | i18nStart x r m c =>
      by_cases hxr : x = r
      · subst hxr
        simp only [pass1Op, beq_self_eq_true, reduceIte, exceptBind_ok] at h
        cases hrec : pass1Ops ⟨some (x, m, some st.next), st.roots ++ [(x, st.next)],
            st.next + 1⟩ rest with
        | error e => rw [hrec, exceptBind_err] at h; cases h
        | ok p =>
          obtain ⟨rest', news', st₂⟩ := p
          rw [hrec, exceptBind_ok] at h
          cases h
          obtain ⟨h1, h2⟩ := ih _ _ _ _ hrec hncrest
          constructor
          · simpa [rootCtxOps, List.filterMap_cons] using h1
          · simp only [rootCtxOps, rootStartsOps, List.filterMap_cons] at h2 ⊢
            simp [h2]
      · simp only [pass1Op, beq_iff_eq, hxr, reduceIte, exceptBind_ok] at h
        cases hrec : pass1Ops ⟨some (x, m, c), st.roots, st.next⟩ rest with
        | error e => rw [hrec, exceptBind_err] at h; cases h
        | ok p =>
          obtain ⟨rest', news', st₂⟩ := p
          rw [hrec, exceptBind_ok] at h
          cases h
          obtain ⟨h1, h2⟩ := ih _ _ _ _ hrec hncrest
          constructor
          · simpa [rootCtxOps, List.filterMap_cons] using h1
          · simp only [rootCtxOps, rootStartsOps, List.filterMap_cons] at h2 ⊢
            simpa [hxr] using h2
    | i18nEnd =>
      simp only [pass1Op, exceptBind_ok] at h
      cases hrec : pass1Ops ⟨none, st.roots, st.next⟩ rest with
      | error e => rw [hrec, exceptBind_err] at h; cases h
      | ok p =>
        obtain ⟨rest', news', st₂⟩ := p
        rw [hrec, exceptBind_ok] at h
        cases h
        obtain ⟨h1, h2⟩ := ih _ _ _ _ hrec hncrest
        constructor
        · simpa [rootCtxOps, List.filterMap_cons] using h1
        · simp only [rootCtxOps, rootStartsOps, List.filterMap_cons] at h2 ⊢
          simpa using h2
    | icuStart m c =>
      cases hcur : st.cur with
      | none =>
        simp only [pass1Op, hcur, exceptBind_err] at h
        cases h
      | some cur =>
        obtain ⟨cx, cm, cc⟩ := cur
        by_cases hm : m = cm
        · subst hm
          simp only [pass1Op, hcur, bne_self_eq_false, Bool.false_eq_true, reduceIte,
            exceptBind_ok] at h
          cases hrec : pass1Ops st rest with
          | error e => rw [hrec, exceptBind_err] at h; cases h
          | ok p =>
            obtain ⟨rest', news', st₂⟩ := p
            rw [hrec, exceptBind_ok] at h
            cases h
            obtain ⟨h1, h2⟩ := ih _ _ _ _ hrec hncrest
            constructor
            · simpa [rootCtxOps, List.filterMap_cons] using h1
            · simp only [rootCtxOps, rootStartsOps, List.filterMap_cons] at h2 ⊢
              simpa using h2
        · simp only [pass1Op, hcur, bne_iff_ne, ne_eq, hm, not_false_eq_true, reduceIte,
            exceptBind_ok] at h
          cases hrec : pass1Ops ⟨some (cx, cm, cc), st.roots, st.next + 1⟩ rest with
          | error e => rw [hrec, exceptBind_err] at h; cases h
          | ok p =>
            obtain ⟨rest', news', st₂⟩ := p
            rw [hrec, exceptBind_ok] at h
            cases h
            obtain ⟨h1, h2⟩ := ih _ _ _ _ hrec hncrest
            constructor
            · simpa [rootCtxOps, List.filterMap_cons] using h1
            · simp only [rootCtxOps, rootStartsOps, List.filterMap_cons] at h2 ⊢
              simpa using h2
    | i18nContext k xx b mm =>
      exfalso
      simp [noContextOps] at hnc
    | other =>
      simp only [pass1Op, exceptBind_ok] at h
      cases hrec : pass1Ops st rest with
      | error e => rw [hrec, exceptBind_err] at h; cases h
      | ok p =>
        obtain ⟨rest', news', st₂⟩ := p
        rw [hrec, exceptBind_ok] at h
        cases h
        obtain ⟨h1, h2⟩ := ih _ _ _ _ hrec hncrest
        constructor
        · simpa [rootCtxOps, List.filterMap_cons] using h1
        · simp only [rootCtxOps, rootStartsOps, List.filterMap_cons] at h2 ⊢
          simpa using h2

/-- Unit-level first-pass accounting: each output unit's RootI18n context
ops reference exactly the unit's root i18n blocks. -/
theorem pass1Units_rootCtx :
    ∀ (units : List (List COp)) (st : P1State) (units' : List (List COp)) (st' : P1State),
      pass1Units st units = .ok (units', st') →
      unitsNoContextOps units = true →
      rootCtxBlocks units' = rootStartXrefs units := by
  intro units
  induction units with
  | nil =>
    intro st units' st' h _
    cases h
    rfl
  | cons u rest ih =>
    intro st units' st' h hnc
    simp only [unitsNoContextOps, List.all_cons, Bool.and_eq_true] at hnc
    rw [pass1Units] at h
    cases hu : pass1Unit st u with
    | error e => rw [hu, exceptBind_err] at h; cases h
    | ok p =>
      obtain ⟨u', st₁⟩ := p
      rw [hu, exceptBind_ok] at h
      cases hrest : pass1Units st₁ rest with
      | error e => simp only [hrest, exceptBind_err] at h; cases h
      | ok q =>
        obtain ⟨rest', st₂⟩ := q
        simp only [hrest, exceptBind_ok] at h
        cases h
        unfold pass1Unit at hu
        cases hops : pass1Ops st u with
        | error e => rw [hops, exceptBind_err] at hu; cases hu
        | ok t =>
          obtain ⟨ops', news, stm⟩ := t
          rw [hops, exceptBind_ok] at hu
          cases hu
          obtain ⟨h1, h2⟩ := pass1Ops_rootCtx u st ops' news _ hops hnc.1
          have hunit : rootCtxOps (ops' ++ news) = rootStartsOps u := by
            rw [rootCtxOps, List.filterMap_append, ← rootCtxOps, ← rootCtxOps, h1, h2,
              List.nil_append]
          have hih := ih _ _ _ hrest hnc.2
          simp only [rootCtxBlocks, rootStartXrefs, List.map_cons, List.flatten_cons]
          simp only [rootCtxBlocks, rootStartXrefs] at hih
          rw [hunit, hih]

/-- The second pass changes neither which ops are RootI18n context ops nor
which are root i18n starts. -/
theorem pass2_preserves (roots : List (XrefId × XrefId)) :
    ∀ (u : List COp),
      rootCtxOps (u.map (pass2Op roots)) = rootCtxOps u ∧
      rootStartsOps (u.map (pass2Op roots)) = rootStartsOps u := by
  intro u
  induction u with
  | nil => exact ⟨rfl, rfl⟩
  | cons op rest ih =>
    obtain ⟨ih1, ih2⟩ := ih
    cases op with
    | i18nStart x r m c =>
      by_cases hxr : x ≠ r
      · refine ⟨?_, ?_⟩ <;>
          simp_all [pass2Op, rootCtxOps, rootStartsOps, List.filterMap_cons, List.filterMap_map]
      · refine ⟨?_, ?_⟩ <;>
          simp_all [pass2Op, rootCtxOps, rootStartsOps, List.filterMap_cons, List.filterMap_map]
    | i18nEnd =>
      refine ⟨?_, ?_⟩ <;>
        simp_all [pass2Op, rootCtxOps, rootStartsOps, List.filterMap_cons, List.filterMap_map]
    | icuStart m c =>
      refine ⟨?_, ?_⟩ <;>
        simp_all [pass2Op, rootCtxOps, rootStartsOps, List.filterMap_cons, List.filterMap_map]
    | i18nContext k xx b mm =>
      refine ⟨?_, ?_⟩ <;> cases k <;>
        simp_all [pass2Op, rootCtxOps, rootStartsOps, List.filterMap_cons, List.filterMap_map]
    | other =>
      refine ⟨?_, ?_⟩ <;>
        simp_all [pass2Op, rootCtxOps, rootStartsOps, List.filterMap_cons, List.filterMap_map]

/-- The first pass over a concatenation processes the two parts in
sequence, threading the state and concatenating both result lists. -/
theorem pass1Ops_append :
    ∀ (l₁ l₂ : List COp) (st : P1State),
      pass1Ops st (l₁ ++ l₂) =
        Except.bind (pass1Ops st l₁) (fun r₁ =>
          Except.bind (pass1Ops r₁.2.2 l₂) (fun r₂ =>
            .ok (r₁.1 ++ r₂.1, r₁.2.1 ++ r₂.2.1, r₂.2.2))) := by
  intro l₁
  induction l₁ with
  | nil =>
    intro l₂ st
    rw [List.nil_append]
    cases h₂ : pass1Ops st l₂ with
    | error e => simp [pass1Ops, Except.bind, h₂]
    | ok p =>
      obtain ⟨b, n₂, st₂⟩ := p
      simp [pass1Ops, Except.bind, h₂]
  | cons op rest ih =>
    intro l₂ st
    rw [List.cons_append]
    cases hop : pass1Op st op with
    | error e => simp [pass1Ops, Except.bind, hop, exceptBind_err]
    | ok p =>
      obtain ⟨op', new, st₁⟩ := p
      cases hrest : pass1Ops st₁ rest with
      | error e =>
        simp [pass1Ops, Except.bind, hop, hrest, exceptBind_ok, exceptBind_err, ih l₂ st₁]
      | ok q =>
        obtain ⟨a, n₁, stm⟩ := q
        cases hl₂ : pass1Ops stm l₂ with
        | error e =>
          simp [pass1Ops, Except.bind, hop, hrest, hl₂, exceptBind_ok, exceptBind_err,
            ih l₂ st₁]
        | ok q₂ =>
          obtain ⟨b, n₂, st₂⟩ := q₂
          cases new <;>
            simp [pass1Ops, Except.bind, hop, hrest, hl₂, exceptBind_ok, ih l₂ st₁]

/-- Root-map accounting for the first pass: the state's root map grows by
one entry per root i18n block, keyed by the block, and every root
`I18nStart` op leaving the pass carries an assigned context recorded in
the final map; the pushed ops are context ops only. -/
theorem pass1Ops_roots :
    ∀ (ops : List COp) (st : P1State) (ops' news : List COp) (st' : P1State),
      pass1Ops st ops = .ok (ops', news, st') →
      (∃ Δ, st'.roots = st.roots ++ Δ ∧ Δ.map Prod.fst = rootStartsOps ops) ∧
      (∀ x r m ctx, COp.i18nStart x r m ctx ∈ ops' → x = r →
        ∃ cc, ctx = some cc ∧ (x, cc) ∈ st'.roots) ∧
      (∀ x r m ctx, COp.i18nStart x r m ctx ∈ news → False) := by
  intro ops
  induction ops with
  | nil =>
    intro st ops' news st' h
    cases h
    refine ⟨⟨[], by simp, rfl⟩, ?_, ?_⟩
    · intro x r m ctx hmem
      cases hmem
    · intro x r m ctx hmem
      cases hmem
  | cons op rest ih =>
    intro st ops' news st' h
    rw [pass1Ops] at h
    cases op with
    | i18nStart x r m c =>
      by_cases hxr : x = r
      · subst hxr
        simp only [pass1Op, beq_self_eq_true, reduceIte, exceptBind_ok] at h
        cases hrec : pass1Ops ⟨some (x, m, some st.next), st.roots ++ [(x, st.next)],
            st.next + 1⟩ rest with
        | error e => rw [hrec, exceptBind_err] at h; cases h
        | ok p =>
          obtain ⟨rest', news', st₂⟩ := p
          rw [hrec, exceptBind_ok] at h
          cases h
          obtain ⟨⟨Δ, hΔ, hΔkeys⟩, hroot, hnews⟩ := ih _ _ _ _ hrec
          refine ⟨⟨(x, st.next) :: Δ, ?_, ?_⟩, ?_, ?_⟩
          · simpa using hΔ
          · simp only [List.map_cons, hΔkeys, rootStartsOps, List.filterMap_cons,
              beq_self_eq_true, reduceIte]
          · intro x' r' m' ctx' hmem hx'r'
            cases hmem with
            | head =>
              refine ⟨st.next, rfl, ?_⟩
              rw [hΔ]
              simp
            | tail _ hmem => exact hroot x' r' m' ctx' hmem hx'r'
          · intro x' r' m' ctx' hmem
            cases hmem with
            | tail _ hmem => exact hnews x' r' m' ctx' hmem
      · simp only [pass1Op, beq_iff_eq, hxr, reduceIte, exceptBind_ok] at h
        cases hrec : pass1Ops ⟨some (x, m, c), st.roots, st.next⟩ rest with
        | error e => rw [hrec, exceptBind_err] at h; cases h
        | ok p =>
          obtain ⟨rest', news', st₂⟩ := p
          rw [hrec, exceptBind_ok] at h
          cases h
          obtain ⟨⟨Δ, hΔ, hΔkeys⟩, hroot, hnews⟩ := ih _ _ _ _ hrec
          refine ⟨⟨Δ, by simpa using hΔ, ?_⟩, ?_, hnews⟩
          · simp only [hΔkeys, rootStartsOps, List.filterMap_cons, beq_iff_eq, hxr, reduceIte]
          · intro x' r' m' ctx' hmem hx'r'
            cases hmem with
            | head => exact absurd hx'r' hxr
            | tail _ hmem => exact hroot x' r' m' ctx' hmem hx'r'
    | i18nEnd =>
      simp only [pass1Op, exceptBind_ok] at h
      cases hrec : pass1Ops ⟨none, st.roots, st.next⟩ rest with
      | error e => rw [hrec, exceptBind_err] at h; cases h
      | ok p =>
        obtain ⟨rest', news', st₂⟩ := p
        rw [hrec, exceptBind_ok] at h
        cases h
        obtain ⟨⟨Δ, hΔ, hΔkeys⟩, hroot, hnews⟩ := ih _ _ _ _ hrec
        refine ⟨⟨Δ, by simpa using hΔ, by simpa [rootStartsOps, List.filterMap_cons] using hΔkeys⟩,
          ?_, hnews⟩
        intro x' r' m' ctx' hmem hx'r'
        cases hmem with
        | tail _ hmem => exact hroot x' r' m' ctx' hmem hx'r'
    | icuStart m c =>
      cases hcur : st.cur with
      | none =>
        simp only [pass1Op, hcur, exceptBind_err] at h
        cases h
      | some cur =>
        obtain ⟨cx, cm, cc⟩ := cur
        by_cases hm : m = cm
        · subst hm
          simp only [pass1Op, hcur, bne_self_eq_false, Bool.false_eq_true, reduceIte,
            exceptBind_ok] at h
          cases hrec : pass1Ops st rest with
          | error e => rw [hrec, exceptBind_err] at h; cases h
          | ok p =>
            obtain ⟨rest', news', st₂⟩ := p
            rw [hrec, exceptBind_ok] at h
            cases h
            obtain ⟨⟨Δ, hΔ, hΔkeys⟩, hroot, hnews⟩ := ih _ _ _ _ hrec
            refine ⟨⟨Δ, hΔ, by simpa [rootStartsOps, List.filterMap_cons] using hΔkeys⟩,
              ?_, hnews⟩
            intro x' r' m' ctx' hmem hx'r'
            cases hmem with
            | tail _ hmem => exact hroot x' r' m' ctx' hmem hx'r'
        · simp only [pass1Op, hcur, bne_iff_ne, ne_eq, hm, not_false_eq_true, reduceIte,
            exceptBind_ok] at h
          cases hrec : pass1Ops ⟨some (cx, cm, cc), st.roots, st.next + 1⟩ rest with
          | error e => rw [hrec, exceptBind_err] at h; cases h
          | ok p =>
            obtain ⟨rest', news', st₂⟩ := p
            rw [hrec, exceptBind_ok] at h
            cases h
            obtain ⟨⟨Δ, hΔ, hΔkeys⟩, hroot, hnews⟩ := ih _ _ _ _ hrec
            refine ⟨⟨Δ, by simpa using hΔ,
              by simpa [rootStartsOps, List.filterMap_cons] using hΔkeys⟩, ?_, ?_⟩
            · intro x' r' m' ctx' hmem hx'r'
              cases hmem with
              | tail _ hmem => exact hroot x' r' m' ctx' hmem hx'r'
            · intro x' r' m' ctx' hmem
              cases hmem with
              | tail _ hmem => exact hnews x' r' m' ctx' hmem
    | i18nContext k xx b mm =>
      simp only [pass1Op, exceptBind_ok] at h
      cases hrec : pass1Ops st rest with
      | error e => rw [hrec, exceptBind_err] at h; cases h
      | ok p =>
        obtain ⟨rest', news', st₂⟩ := p
        rw [hrec, exceptBind_ok] at h
        cases h
        obtain ⟨⟨Δ, hΔ, hΔkeys⟩, hroot, hnews⟩ := ih _ _ _ _ hrec
        refine ⟨⟨Δ, hΔ, by simpa [rootStartsOps, List.filterMap_cons] using hΔkeys⟩,
          ?_, hnews⟩
        intro x' r' m' ctx' hmem hx'r'
        cases hmem with
        | tail _ hmem => exact hroot x' r' m' ctx' hmem hx'r'
    | other =>
      simp only [pass1Op, exceptBind_ok] at h
      cases hrec : pass1Ops st rest with
      | error e => rw [hrec, exceptBind_err] at h; cases h
      | ok p =>
        obtain ⟨rest', news', st₂⟩ := p
        rw [hrec, exceptBind_ok] at h
        cases h
        obtain ⟨⟨Δ, hΔ, hΔkeys⟩, hroot, hnews⟩ := ih _ _ _ _ hrec
        refine ⟨⟨Δ, hΔ, by simpa [rootStartsOps, List.filterMap_cons] using hΔkeys⟩,
          ?_, hnews⟩
        intro x' r' m' ctx' hmem hx'r'
        cases hmem with
        | tail _ hmem => exact hroot x' r' m' ctx' hmem hx'r'

/-- Root-map accounting lifted to all units of the job. -/
theorem pass1Units_roots :
    ∀ (units : List (List COp)) (st : P1State) (units' : List (List COp)) (st' : P1State),
      pass1Units st units = .ok (units', st') →
      (∃ Δ, st'.roots = st.roots ++ Δ ∧ Δ.map Prod.fst = rootStartXrefs units) ∧
      (∀ u' ∈ units', ∀ x r m ctx, COp.i18nStart x r m ctx ∈ u' → x = r →
        ∃ cc, ctx = some cc ∧ (x, cc) ∈ st'.roots) := by
  intro units
  induction units with
  | nil =>
    intro st units' st' h
    cases h
    refine ⟨⟨[], by simp, rfl⟩, ?_⟩
    intro u' hu'
    cases hu'
  | cons u rest ih =>
    intro st units' st' h
    rw [pass1Units] at h
    cases hu : pass1Unit st u with
    | error e => rw [hu, exceptBind_err] at h; cases h
    | ok p =>
      obtain ⟨u', st₁⟩ := p
      rw [hu, exceptBind_ok] at h
      cases hrest : pass1Units st₁ rest with
      | error e => simp only [hrest, exceptBind_err] at h; cases h
      | ok q =>
        obtain ⟨rest', st₂⟩ := q
        simp only [hrest, exceptBind_ok] at h
        cases h
        unfold pass1Unit at hu
        cases hops : pass1Ops st u with
        | error e => rw [hops, exceptBind_err] at hu; cases hu
        | ok t =>
          obtain ⟨ops', news, stm⟩ := t
          rw [hops, exceptBind_ok] at hu
          cases hu
          obtain ⟨⟨Δ₁, hΔ₁, hkeys₁⟩, hroot₁, hnews₁⟩ := pass1Ops_roots u st ops' news _ hops
          obtain ⟨⟨Δ₂, hΔ₂, hkeys₂⟩, hroot₂⟩ := ih _ _ _ hrest
          refine ⟨⟨Δ₁ ++ Δ₂, ?_, ?_⟩, ?_⟩
          · rw [hΔ₂, hΔ₁, List.append_assoc]
          · simp [hkeys₁, hkeys₂, rootStartXrefs]
          · intro w hw x r m ctx hmem hxr
            cases hw with
            | head =>
              rcases List.mem_append.mp hmem with hmem₁ | hmem₁
              · obtain ⟨cc, hcc, hccmem⟩ := hroot₁ x r m ctx hmem₁ hxr
                refine ⟨cc, hcc, ?_⟩
                rw [hΔ₂]
                exact List.mem_append_left _ hccmem
              · exact absurd hmem₁ (fun hm => hnews₁ x r m ctx hm)
            | tail _ hw => exact hroot₂ w hw x r m ctx hmem hxr

/-- Association-list lookup by key finds the unique entry when keys are
distinct. -/
theorem find?_pair_eq :
    ∀ (l : List (XrefId × XrefId)) (x c : XrefId),
      (l.map Prod.fst).Nodup → (x, c) ∈ l →
      l.find? (fun p => p.1 == x) = some (x, c) := by
  intro l
  induction l with
  | nil =>
    intro x c _ hmem
    cases hmem
  | cons hd tl ih =>
    intro x c hnd hmem
    obtain ⟨y, d⟩ := hd
    simp only [List.map_cons, List.nodup_cons] at hnd
    cases hmem with
    | head =>
      rw [List.find?_cons_of_pos]
      simp
    | tail _ hmem =>
      have hxkeys : x ∈ tl.map Prod.fst := List.mem_map.mpr ⟨(x, c), hmem, rfl⟩
      have hyx : y ≠ x := by
        intro heq
        subst heq
        exact hnd.1 hxkeys
      rw [List.find?_cons_of_neg]
      · exact ih x c hnd.2 hmem
      · simp [hyx]

/-- C3: the i18n-context phase creates exactly one RootI18n context op per
root i18n block; an `IcuStart` op gets a fresh Icu context exactly when its
message id differs from the enclosing block's and otherwise shares the
enclosing block's context; an `IcuStart` with no enclosing block is a
fatal error; and the back-fill pass gives every non-root `I18nStart` op
the context assigned to its root block. -/
theorem createI18nContexts_spec :
    (∀ (units : List (List COp)) (next : XrefId) (units' : List (List COp)) (next' : XrefId),
      createI18nContexts units next = .ok (units', next') →
      unitsNoContextOps units = true →
      rootCtxBlocks units' = rootStartXrefs units) ∧
    (∀ (st : P1State) (pre post : List COp) (m : MessageId) (c : Option XrefId)
        (pre' news₁ : List COp) (st₁ : P1State),
      pass1Ops st pre = .ok (pre', news₁, st₁) →
      (st₁.cur = none →
        pass1Unit st (pre ++ .icuStart m c :: post) =
          .error "Unexpected ICU outside of an i18n block.") ∧
      (∀ cx cm cc, st₁.cur = some (cx, cm, cc) →
        (m ≠ cm →
          ∀ result st₂, pass1Unit st (pre ++ .icuStart m c :: post) = .ok (result, st₂) →
          ∃ post' news₂ st₃,
            pass1Ops ⟨st₁.cur, st₁.roots, st₁.next + 1⟩ post = .ok (post', news₂, st₃) ∧
            result = (pre' ++ .icuStart m (some st₁.next) :: post') ++
              (news₁ ++ .i18nContext .Icu st₁.next cx m :: news₂)) ∧
        (m = cm →
          ∀ result st₂, pass1Unit st (pre ++ .icuStart m c :: post) = .ok (result, st₂) →
          ∃ post' news₂ st₃,
            pass1Ops st₁ post = .ok (post', news₂, st₃) ∧
            result = (pre' ++ .icuStart m cc :: post') ++ (news₁ ++ news₂)))) ∧
    (∀ (units : List (List COp)) (next : XrefId) (units' : List (List COp)) (next' : XrefId),
      createI18nContexts units next = .ok (units', next') →
      (rootStartXrefs units).Nodup →
      ∀ u' ∈ units', ∀ x r m ctx, COp.i18nStart x r m ctx ∈ u' → x ≠ r →
      ∀ u'' ∈ units', ∀ m' ctx', COp.i18nStart r r m' ctx' ∈ u'' →
      ctx = ctx') := by
  refine ⟨?_, ?_, ?_⟩
  · -- (a) one RootI18n context per root block
    intro units next units' next' h hnc
    unfold createI18nContexts at h
    cases hp : pass1Units ⟨none, [], next⟩ units with
    | error e => rw [hp, exceptBind_err] at h; cases h
    | ok p =>
      obtain ⟨U, st'⟩ := p
      simp only [hp, exceptBind_ok] at h
      cases h
      have hmap : U.map (fun u => rootCtxOps (u.map (pass2Op st'.roots))) =
          U.map rootCtxOps :=
        List.map_eq_map_iff.mpr (fun u _ => (pass2_preserves st'.roots u).1)
      calc rootCtxBlocks (U.map (fun u => u.map (pass2Op st'.roots)))
          = (U.map (fun u => rootCtxOps (u.map (pass2Op st'.roots)))).flatten := by
            simp only [rootCtxBlocks, List.map_map]
            rfl
        _ = (U.map rootCtxOps).flatten := by rw [hmap]
        _ = rootStartXrefs units := pass1Units_rootCtx units _ U st' hp hnc
  · -- (b)/(d) ICU context assignment
    intro st pre post m c pre' news₁ st₁ hpre
    have happ := pass1Ops_append pre (.icuStart m c :: post) st
    rw [hpre] at happ
    refine ⟨?_, ?_⟩
    · intro hcur
      unfold pass1Unit
      rw [happ]
      simp only [Except.bind]
      rw [pass1Ops]
      simp only [pass1Op, hcur, exceptBind_err]
    · intro cx cm cc hcur
      constructor
      · intro hm result st₂ hres
        unfold pass1Unit at hres
        rw [happ] at hres
        simp only [Except.bind] at hres
        rw [pass1Ops] at hres
        simp only [pass1Op, hcur, bne_iff_ne, ne_eq, hm, not_false_eq_true, reduceIte,
          exceptBind_ok] at hres
        cases hpost : pass1Ops ⟨some (cx, cm, cc), st₁.roots, st₁.next + 1⟩ post with
        | error e => rw [hpost, exceptBind_err] at hres; cases hres
        | ok q =>
          obtain ⟨post', news₂, st₃⟩ := q
          rw [hpost, exceptBind_ok] at hres
          cases hres
          refine ⟨post', news₂, st₃, ?_, by simp⟩
          rw [hcur]
          exact hpost
      · intro hm result st₂ hres
        subst hm
        unfold pass1Unit at hres
        rw [happ] at hres
        simp only [Except.bind] at hres
        rw [pass1Ops] at hres
        simp only [pass1Op, hcur, bne_self_eq_false, Bool.false_eq_true, reduceIte,
          exceptBind_ok] at hres
        cases hpost : pass1Ops st₁ post with
        | error e => rw [hpost, exceptBind_err] at hres; cases hres
        | ok q =>
          obtain ⟨post', news₂, st₃⟩ := q
          rw [hpost, exceptBind_ok] at hres
          cases hres
          exact ⟨post', news₂, st₃, rfl, by simp⟩
  · -- (c) children inherit the root's context
    intro units next units' next' h hnd
    unfold createI18nContexts at h
    cases hp : pass1Units ⟨none, [], next⟩ units with
    | error e => rw [hp, exceptBind_err] at h; cases h
    | ok p =>
      obtain ⟨U, st'⟩ := p
      simp only [hp, exceptBind_ok] at h
      cases h
      obtain ⟨⟨Δ, hΔ, hkeys⟩, hroot⟩ := pass1Units_roots units _ U st' hp
      have hndkeys : (st'.roots.map Prod.fst).Nodup := by
        rw [hΔ]
        simpa [hkeys] using hnd
      intro u' hu' x r m ctx hmem hxr u'' hu'' m' ctx' hmem''
      obtain ⟨u₁, hu₁, rfl⟩ := List.mem_map.mp hu'
      obtain ⟨op₀, hop₀, hop₀eq⟩ := List.mem_map.mp hmem
      obtain ⟨u₂, hu₂, rfl⟩ := List.mem_map.mp hu''
      obtain ⟨op₁, hop₁, hop₁eq⟩ := List.mem_map.mp hmem''
      have hctx : ctx = (st'.roots.find? (fun p => p.1 == r)).map (·.2) := by
        cases op₀ with
        | i18nStart x₀ r₀ m₀ c₀ =>
          by_cases hx₀r₀ : x₀ = r₀
          · subst hx₀r₀
            simp only [pass2Op, ne_eq, eq_self_iff_true, not_true_eq_false, reduceIte,
              COp.i18nStart.injEq] at hop₀eq
            obtain ⟨h1, h2, h3, h4⟩ := hop₀eq
            exact absurd (h1.symm.trans h2) hxr
          · simp only [pass2Op, ne_eq, hx₀r₀, not_false_eq_true, reduceIte,
              COp.i18nStart.injEq] at hop₀eq
            obtain ⟨h1, h2, h3, h4⟩ := hop₀eq
            subst h2
            exact h4.symm
        | i18nEnd => simp [pass2Op] at hop₀eq
        | icuStart a b => simp [pass2Op] at hop₀eq
        | i18nContext a b cₓ d => simp [pass2Op] at hop₀eq
        | other => simp [pass2Op] at hop₀eq
      have hrootop : COp.i18nStart r r m' ctx' ∈ u₂ := by
        cases op₁ with
        | i18nStart x₀ r₀ m₀ c₀ =>
          by_cases hx₀r₀ : x₀ = r₀
          · subst hx₀r₀
            simp only [pass2Op, ne_eq, eq_self_iff_true, not_true_eq_false, reduceIte,
              COp.i18nStart.injEq] at hop₁eq
            obtain ⟨h1, h2, h3, h4⟩ := hop₁eq
            subst h1
            subst h3
            subst h4
            exact hop₁
          · simp only [pass2Op, ne_eq, hx₀r₀, not_false_eq_true, reduceIte,
              COp.i18nStart.injEq] at hop₁eq
            obtain ⟨h1, h2, h3, h4⟩ := hop₁eq
            exact absurd (h1.trans h2.symm) hx₀r₀
        | i18nEnd => simp [pass2Op] at hop₁eq
        | icuStart a b => simp [pass2Op] at hop₁eq
        | i18nContext a b cₓ d => simp [pass2Op] at hop₁eq
        | other => simp [pass2Op] at hop₁eq
      obtain ⟨cc, hcc, hccmem⟩ := hroot u₂ hu₂ r r m' ctx' hrootop rfl
      rw [hctx, find?_pair_eq st'.roots r cc hndkeys hccmem, hcc]
      rfl

/-- C3 witness: the theorem applied to a one-root job (part a), an ICU
outside any i18n block (fatality), an ICU with a differing message inside
a root block (fresh Icu context), and a child block inheriting its root's
context (part c). -/
theorem createI18nContexts_spec_witness :
    (rootCtxBlocks [[COp.i18nStart 1 1 "A" (some 10), COp.i18nEnd,
        COp.i18nContext .RootI18n 10 1 "A"]] =
      rootStartXrefs [[COp.i18nStart 1 1 "A" none, COp.i18nEnd]]) ∧
    (pass1Unit ⟨none, [], 0⟩ ([] ++ COp.icuStart "Z" none :: []) =
      .error "Unexpected ICU outside of an i18n block.") ∧
    (∃ post' news₂ st₃,
      pass1Ops (⟨some (5, "A", some 7), [(5, 7)], 9⟩ : P1State) ([] : List COp) =
        .ok (post', news₂, st₃) ∧
      ([COp.i18nStart 5 5 "A" (some 7), COp.icuStart "B" (some 8),
        COp.i18nContext .RootI18n 7 5 "A", COp.i18nContext .Icu 8 5 "B"] : List COp) =
        ([COp.i18nStart 5 5 "A" (some 7)] ++ COp.icuStart "B" (some 8) :: post') ++
          ([COp.i18nContext .RootI18n 7 5 "A"] ++ COp.i18nContext .Icu 8 5 "B" :: news₂)) ∧
    ((some 10 : Option XrefId) = some 10) :=
  ⟨createI18nContexts_spec.1 [[COp.i18nStart 1 1 "A" none, COp.i18nEnd]] 10
      [[COp.i18nStart 1 1 "A" (some 10), COp.i18nEnd, COp.i18nContext .RootI18n 10 1 "A"]] 11
      (by rfl) (by rfl),
    (createI18nContexts_spec.2.1 ⟨none, [], 0⟩ [] [] "Z" none [] [] ⟨none, [], 0⟩ rfl).1 rfl,
    ((createI18nContexts_spec.2.1 ⟨none, [], 7⟩ [COp.i18nStart 5 5 "A" none] [] "B" none
        [COp.i18nStart 5 5 "A" (some 7)] [COp.i18nContext .RootI18n 7 5 "A"]
        ⟨some (5, "A", some 7), [(5, 7)], 8⟩ rfl).2 5 "A" (some 7) rfl).1 (by decide)
      [COp.i18nStart 5 5 "A" (some 7), COp.icuStart "B" (some 8),
        COp.i18nContext .RootI18n 7 5 "A", COp.i18nContext .Icu 8 5 "B"]
      ⟨some (5, "A", some 7), [(5, 7)], 9⟩ rfl,
    createI18nContexts_spec.2.2
      [[COp.i18nStart 1 1 "A" none, COp.i18nStart 2 1 "A" none, COp.i18nEnd, COp.i18nEnd]] 10
      [[COp.i18nStart 1 1 "A" (some 10), COp.i18nStart 2 1 "A" (some 10), COp.i18nEnd,
        COp.i18nEnd, COp.i18nContext .RootI18n 10 1 "A"]] 11 (by rfl) (by decide)
      [COp.i18nStart 1 1 "A" (some 10), COp.i18nStart 2 1 "A" (some 10), COp.i18nEnd,
        COp.i18nEnd, COp.i18nContext .RootI18n 10 1 "A"] (by decide) 2 1 "A" (some 10)
      (by decide) (by decide)
      [COp.i18nStart 1 1 "A" (some 10), COp.i18nStart 2 1 "A" (some 10), COp.i18nEnd,
        COp.i18nEnd, COp.i18nContext .RootI18n 10 1 "A"] (by decide) "A" (some 10) (by decide)⟩

end I18n

namespace Reify

/-- `ng.onum` arguments are literals, hence never IR expression nodes. -/
theorem onum_noIr : ∀ (x : Option Nat), anyExprNode isIrExpressionNode (ng.onum x) = false
  | none => rfl
  | some _ => rfl

/-- `ng.ostr` arguments are literals, hence never IR expression nodes. -/
theorem ostr_noIr : ∀ (x : Option String), anyExprNode isIrExpressionNode (ng.ostr x) = false
  | none => rfl
  | some _ => rfl

/-- `ng.oexpr` passes an IR-free optional expression through IR-free. -/
theorem oexpr_noIr : ∀ (x : Option Expr), anyExprNodeOpt isIrExpressionNode x = false →
    anyExprNode isIrExpressionNode (ng.oexpr x) = false
  | none, _ => rfl
  | some _, h => h

/-- Mapped string literals contain no IR expression nodes. -/
theorem strs_noIr : ∀ (l : List String),
    anyExprNodeList isIrExpressionNode (l.map ng.str) = false
  | [] => rfl
  | _ :: l => strs_noIr l

/-- Mapped numeric literals contain no IR expression nodes. -/
theorem nums_noIr : ∀ (l : List Int),
    anyExprNodeList isIrExpressionNode (l.map ng.num) = false
  | [] => rfl
  | _ :: l => nums_noIr l

mutual

/-- A successfully reified expression contains no IR expression node:
`reifyIrExpression` either rejects an IR node or replaces it by an
instruction call over already-reified (hence IR-free) children. -/
theorem transformExprE_noIr : ∀ (e r : Expr),
    transformExprE reifyIrExpression e = Except.ok r →
    anyExprNode isIrExpressionNode r = false
  | .readVar name, r, h => by
    rw [show transformExprE reifyIrExpression (.readVar name) =
      Except.ok (Expr.readVar name) from rfl] at h
    cases Except.ok.inj h
    rfl
  | .writeVar name value, r, h => by
    simp only [transformExprE] at h
    cases h₁ : transformExprE reifyIrExpression value with
    | error msg => simp only [h₁, exceptBind_err] at h; exact Except.noConfusion h
    | ok v =>
      simp only [h₁, exceptBind_ok] at h
      rw [show reifyIrExpression (.writeVar name v) =
        Except.ok (Expr.writeVar name v) from rfl] at h
      cases Except.ok.inj h
      exact transformExprE_noIr value v h₁
  | .readProp receiver name, r, h => by
    simp only [transformExprE] at h
    cases h₁ : transformExprE reifyIrExpression receiver with
    | error msg => simp only [h₁, exceptBind_err] at h; exact Except.noConfusion h
    | ok v =>
      simp only [h₁, exceptBind_ok] at h
      rw [show reifyIrExpression (.readProp v name) =
        Except.ok (Expr.readProp v name) from rfl] at h
      cases Except.ok.inj h
      exact transformExprE_noIr receiver v h₁
  | .writeProp receiver name value, r, h => by
    simp only [transformExprE] at h
    cases h₁ : transformExprE reifyIrExpression receiver with
    | error msg => simp only [h₁, exceptBind_err] at h; exact Except.noConfusion h
    | ok v₁ =>
      simp only [h₁, exceptBind_ok] at h
      cases h₂ : transformExprE reifyIrExpression value with
      | error msg => simp only [h₂, exceptBind_err] at h; exact Except.noConfusion h
      | ok v₂ =>
        simp only [h₂, exceptBind_ok] at h
        rw [show reifyIrExpression (.writeProp v₁ name v₂) =
          Except.ok (Expr.writeProp v₁ name v₂) from rfl] at h
        cases Except.ok.inj h
        rw [show anyExprNode isIrExpressionNode (Expr.writeProp v₁ name v₂) =
          (anyExprNode isIrExpressionNode v₁ || anyExprNode isIrExpressionNode v₂) from rfl,
          transformExprE_noIr receiver v₁ h₁, transformExprE_noIr value v₂ h₂]
        rfl
  | .readKey receiver index, r, h => by
    simp only [transformExprE] at h
    cases h₁ : transformExprE reifyIrExpression receiver with
    | error msg => simp only [h₁, exceptBind_err] at h; exact Except.noConfusion h
    | ok v₁ =>
      simp only [h₁, exceptBind_ok] at h
      cases h₂ : transformExprE reifyIrExpression index with
      | error msg => simp only [h₂, exceptBind_err] at h; exact Except.noConfusion h
      | ok v₂ =>
        simp only [h₂, exceptBind_ok] at h
        rw [show reifyIrExpression (.readKey v₁ v₂) =
          Except.ok (Expr.readKey v₁ v₂) from rfl] at h
        cases Except.ok.inj h
        rw [show anyExprNode isIrExpressionNode (Expr.readKey v₁ v₂) =
          (anyExprNode isIrExpressionNode v₁ || anyExprNode isIrExpressionNode v₂) from rfl,
          transformExprE_noIr receiver v₁ h₁, transformExprE_noIr index v₂ h₂]
        rfl
  | .writeKey receiver index value, r, h => by
    simp only [transformExprE] at h
    cases h₁ : transformExprE reifyIrExpression receiver with
    | error msg => simp only [h₁, exceptBind_err] at h; exact Except.noConfusion h
    | ok v₁ =>
      simp only [h₁, exceptBind_ok] at h
      cases h₂ : transformExprE reifyIrExpression index with
      | error msg => simp only [h₂, exceptBind_err] at h; exact Except.noConfusion h
      | ok v₂ =>
        simp only [h₂, exceptBind_ok] at h
        cases h₃ : transformExprE reifyIrExpression value with
        | error msg => simp only [h₃, exceptBind_err] at h; exact Except.noConfusion h
        | ok v₃ =>
          simp only [h₃, exceptBind_ok] at h
          rw [show reifyIrExpression (.writeKey v₁ v₂ v₃) =
            Except.ok (Expr.writeKey v₁ v₂ v₃) from rfl] at h
          cases Except.ok.inj h
          rw [show anyExprNode isIrExpressionNode (Expr.writeKey v₁ v₂ v₃) =
            (anyExprNode isIrExpressionNode v₁ || anyExprNode isIrExpressionNode v₂ ||
              anyExprNode isIrExpressionNode v₃) from rfl,
            transformExprE_noIr receiver v₁ h₁, transformExprE_noIr index v₂ h₂,
            transformExprE_noIr value v₃ h₃]
          rfl
  | .invokeFn fn args, r, h => by
    simp only [transformExprE] at h
    cases h₁ : transformExprE reifyIrExpression fn with
    | error msg => simp only [h₁, exceptBind_err] at h; exact Except.noConfusion h
    | ok v₁ =>
      simp only [h₁, exceptBind_ok] at h
      cases h₂ : transformExprEList reifyIrExpression args with
      | error msg => simp only [h₂, exceptBind_err] at h; exact Except.noConfusion h
      | ok vs =>
        simp only [h₂, exceptBind_ok] at h
        rw [show reifyIrExpression (.invokeFn v₁ vs) =
          Except.ok (Expr.invokeFn v₁ vs) from rfl] at h
        cases Except.ok.inj h
        rw [show anyExprNode isIrExpressionNode (Expr.invokeFn v₁ vs) =
          (anyExprNode isIrExpressionNode v₁ || anyExprNodeList isIrExpressionNode vs) from rfl,
          transformExprE_noIr fn v₁ h₁, transformExprEList_noIr args vs h₂]
        rfl
  | .literal value, r, h => by
    rw [show transformExprE reifyIrExpression (.literal value) =
      Except.ok (Expr.literal value) from rfl] at h
    cases Except.ok.inj h
    rfl
  | .literalArray entries, r, h => by
    simp only [transformExprE] at h
    cases h₁ : transformExprEList reifyIrExpression entries with
    | error msg => simp only [h₁, exceptBind_err] at h; exact Except.noConfusion h
    | ok vs =>
      simp only [h₁, exceptBind_ok] at h
      rw [show reifyIrExpression (.literalArray vs) =
        Except.ok (Expr.literalArray vs) from rfl] at h
      cases Except.ok.inj h
      exact transformExprEList_noIr entries vs h₁
  | .literalMap keys values, r, h => by
    simp only [transformExprE] at h
    cases h₁ : transformExprEList reifyIrExpression values with
    | error msg => simp only [h₁, exceptBind_err] at h; exact Except.noConfusion h
    | ok vs =>
      simp only [h₁, exceptBind_ok] at h
      rw [show reifyIrExpression (.literalMap keys vs) =
        Except.ok (Expr.literalMap keys vs) from rfl] at h
      cases Except.ok.inj h
      exact transformExprEList_noIr values vs h₁
  | .binary op lhs rhs, r, h => by
    simp only [transformExprE] at h
    cases h₁ : transformExprE reifyIrExpression lhs with
    | error msg => simp only [h₁, exceptBind_err] at h; exact Except.noConfusion h
    | ok v₁ =>
      simp only [h₁, exceptBind_ok] at h
      cases h₂ : transformExprE reifyIrExpression rhs with
      | error msg => simp only [h₂, exceptBind_err] at h; exact Except.noConfusion h
      | ok v₂ =>
        simp only [h₂, exceptBind_ok] at h
        rw [show reifyIrExpression (.binary op v₁ v₂) =
          Except.ok (Expr.binary op v₁ v₂) from rfl] at h
        cases Except.ok.inj h
        rw [show anyExprNode isIrExpressionNode (Expr.binary op v₁ v₂) =
          (anyExprNode isIrExpressionNode v₁ || anyExprNode isIrExpressionNode v₂) from rfl,
          transformExprE_noIr lhs v₁ h₁, transformExprE_noIr rhs v₂ h₂]
        rfl
  | .conditional cond t e, r, h => by
    simp only [transformExprE] at h
    cases h₁ : transformExprE reifyIrExpression cond with
    | error msg => simp only [h₁, exceptBind_err] at h; exact Except.noConfusion h
    | ok v₁ =>
      simp only [h₁, exceptBind_ok] at h
      cases h₂ : transformExprE reifyIrExpression t with
      | error msg => simp only [h₂, exceptBind_err] at h; exact Except.noConfusion h
      | ok v₂ =>
        simp only [h₂, exceptBind_ok] at h
        cases h₃ : transformExprE reifyIrExpression e with
        | error msg => simp only [h₃, exceptBind_err] at h; exact Except.noConfusion h
        | ok v₃ =>
          simp only [h₃, exceptBind_ok] at h
          rw [show reifyIrExpression (.conditional v₁ v₂ v₃) =
            Except.ok (Expr.conditional v₁ v₂ v₃) from rfl] at h
          cases Except.ok.inj h
          rw [show anyExprNode isIrExpressionNode (Expr.conditional v₁ v₂ v₃) =
            (anyExprNode isIrExpressionNode v₁ || anyExprNode isIrExpressionNode v₂ ||
              anyExprNode isIrExpressionNode v₃) from rfl,
            transformExprE_noIr cond v₁ h₁, transformExprE_noIr t v₂ h₂,
            transformExprE_noIr e v₃ h₃]
          rfl
  | .importedRef name, r, h => by
    rw [show transformExprE reifyIrExpression (.importedRef name) =
      Except.ok (Expr.importedRef name) from rfl] at h
    cases Except.ok.inj h
    rfl
  | .fnExpr params body name, r, h => by
    simp only [transformExprE] at h
    cases h₁ : transformStmtEList reifyIrExpression body with
    | error msg => simp only [h₁, exceptBind_err] at h; exact Except.noConfusion h
    | ok bs =>
      simp only [h₁, exceptBind_ok] at h
      rw [show reifyIrExpression (.fnExpr params bs name) =
        Except.ok (Expr.fnExpr params bs name) from rfl] at h
      cases Except.ok.inj h
      exact transformStmtEList_noIr body bs h₁
  | .lexicalRead name, r, h => by
    rw [show transformExprE reifyIrExpression (.lexicalRead name) =
      Except.error ("AssertionError: unresolved LexicalRead of " ++ name) from rfl] at h
    exact Except.noConfusion h
  | .contextExpr view, r, h => by
    rw [show transformExprE reifyIrExpression (.contextExpr view) =
      Except.error "AssertionError: Unsupported reification of ir.Expression kind" from rfl] at h
    exact Except.noConfusion h
  | .pipeBinding target slot off name args, r, h => by
    simp only [transformExprE] at h
    cases h₁ : transformExprEList reifyIrExpression args with
    | error msg => simp only [h₁, exceptBind_err] at h; exact Except.noConfusion h
    | ok vs =>
      simp only [h₁, exceptBind_ok] at h
      rw [show reifyIrExpression (.pipeBinding target slot off name vs) =
        Except.ok (ng.pipeBind slot.slot off vs) from rfl] at h
      cases Except.ok.inj h
      rw [show anyExprNode isIrExpressionNode (ng.pipeBind slot.slot off vs) =
        (anyExprNode isIrExpressionNode (ng.onum slot.slot) ||
          (anyExprNode isIrExpressionNode (ng.onum off) ||
            anyExprNodeList isIrExpressionNode vs)) from rfl,
        onum_noIr slot.slot, onum_noIr off, transformExprEList_noIr args vs h₁]
      rfl
  | .pipeBindingVariadic target slot off name args n, r, h => by
    simp only [transformExprE] at h
    cases h₁ : transformExprE reifyIrExpression args with
    | error msg => simp only [h₁, exceptBind_err] at h; exact Except.noConfusion h
    | ok v =>
      simp only [h₁, exceptBind_ok] at h
      rw [show reifyIrExpression (.pipeBindingVariadic target slot off name v n) =
        Except.ok (ng.pipeBindV slot.slot off v) from rfl] at h
      cases Except.ok.inj h
      rw [show anyExprNode isIrExpressionNode (ng.pipeBindV slot.slot off v) =
        (anyExprNode isIrExpressionNode (ng.onum slot.slot) ||
          (anyExprNode isIrExpressionNode (ng.onum off) ||
            (anyExprNode isIrExpressionNode v || false))) from rfl,
        onum_noIr slot.slot, onum_noIr off, transformExprE_noIr args v h₁]
      rfl
  | .safePropertyRead receiver name, r, h => by
    simp only [transformExprE] at h
    cases h₁ : transformExprE reifyIrExpression receiver with
    | error msg => simp only [h₁, exceptBind_err] at h; exact Except.noConfusion h
    | ok v =>
      simp only [h₁, exceptBind_ok] at h
      rw [show reifyIrExpression (.safePropertyRead v name) = Except.error
        "AssertionError: Unsupported reification of ir.Expression kind" from rfl] at h
      exact Except.noConfusion h
  | .safeKeyedRead receiver index, r, h => by
    simp only [transformExprE] at h
    cases h₁ : transformExprE reifyIrExpression receiver with
    | error msg => simp only [h₁, exceptBind_err] at h; exact Except.noConfusion h
    | ok v₁ =>
      simp only [h₁, exceptBind_ok] at h
      cases h₂ : transformExprE reifyIrExpression index with
      | error msg => simp only [h₂, exceptBind_err] at h; exact Except.noConfusion h
      | ok v₂ =>
        simp only [h₂, exceptBind_ok] at h
        rw [show reifyIrExpression (.safeKeyedRead v₁ v₂) = Except.error
          "AssertionError: Unsupported reification of ir.Expression kind" from rfl] at h
        exact Except.noConfusion h
  | .safeInvokeFn receiver args, r, h => by
    simp only [transformExprE] at h
    cases h₁ : transformExprE reifyIrExpression receiver with
    | error msg => simp only [h₁, exceptBind_err] at h; exact Except.noConfusion h
    | ok v₁ =>
      simp only [h₁, exceptBind_ok] at h
      cases h₂ : transformExprEList reifyIrExpression args with
      | error msg => simp only [h₂, exceptBind_err] at h; exact Except.noConfusion h
      | ok vs =>
        simp only [h₂, exceptBind_ok] at h
        rw [show reifyIrExpression (.safeInvokeFn v₁ vs) = Except.error
          "AssertionError: Unsupported reification of ir.Expression kind" from rfl] at h
        exact Except.noConfusion h
  | .emptyExpr, r, h => by
    rw [show transformExprE reifyIrExpression .emptyExpr =
      Except.error "AssertionError: Unsupported reification of ir.Expression kind" from rfl] at h
    exact Except.noConfusion h
  | .nextContext steps, r, h => by
    rw [show transformExprE reifyIrExpression (.nextContext steps) =
      Except.ok (ng.nextContext steps) from rfl] at h
    cases Except.ok.inj h
    rfl
  | .reference slot offset, r, h => by
    rw [show transformExprE reifyIrExpression (.reference slot offset) =
      Except.ok (ng.reference ((slot.slot.getD 0) + 1 + offset)) from rfl] at h
    cases Except.ok.inj h
    rfl
  | .restoreViewRaw view, r, h => by
    rw [show transformExprE reifyIrExpression (.restoreViewRaw view) =
      Except.error "AssertionError: unresolved RestoreView" from rfl] at h
    exact Except.noConfusion h
  | .restoreViewExpr view, r, h => by
    simp only [transformExprE] at h
    cases h₁ : transformExprE reifyIrExpression view with
    | error msg => simp only [h₁, exceptBind_err] at h; exact Except.noConfusion h
    | ok v =>
      simp only [h₁, exceptBind_ok] at h
      rw [show reifyIrExpression (.restoreViewExpr v) =
        Except.ok (ng.restoreView v) from rfl] at h
      cases Except.ok.inj h
      rw [show anyExprNode isIrExpressionNode (ng.restoreView v) =
        (anyExprNode isIrExpressionNode v || false) from rfl,
        transformExprE_noIr view v h₁]
      rfl
  | .resetView expr, r, h => by
    simp only [transformExprE] at h
    cases h₁ : transformExprE reifyIrExpression expr with
    | error msg => simp only [h₁, exceptBind_err] at h; exact Except.noConfusion h
    | ok v =>
      simp only [h₁, exceptBind_ok] at h
      rw [show reifyIrExpression (.resetView v) = Except.ok (ng.resetView v) from rfl] at h
      cases Except.ok.inj h
      rw [show anyExprNode isIrExpressionNode (ng.resetView v) =
        (anyExprNode isIrExpressionNode v || false) from rfl,
        transformExprE_noIr expr v h₁]
      rfl
  | .getCurrentView, r, h => by
    rw [show transformExprE reifyIrExpression .getCurrentView =
      Except.ok ng.getCurrentView from rfl] at h
    cases Except.ok.inj h
    rfl
  | .readVariable xref name, r, h => by
    cases name with
    | none =>
      rw [show transformExprE reifyIrExpression (.readVariable xref none) =
        Except.error ("Read of unnamed variable " ++ toString xref) from rfl] at h
      exact Except.noConfusion h
    | some n =>
      rw [show transformExprE reifyIrExpression (.readVariable xref (some n)) =
        Except.ok (Expr.readVar n) from rfl] at h
      cases Except.ok.inj h
      rfl
  | .readTemporary xref name, r, h => by
    cases name with
    | none =>
      rw [show transformExprE reifyIrExpression (.readTemporary xref none) =
        Except.error ("Read of unnamed temporary " ++ toString xref) from rfl] at h
      exact Except.noConfusion h
    | some n =>
      rw [show transformExprE reifyIrExpression (.readTemporary xref (some n)) =
        Except.ok (Expr.readVar n) from rfl] at h
      cases Except.ok.inj h
      rfl
  | .assignTemporary xref name expr, r, h => by
    simp only [transformExprE] at h
    cases h₁ : transformExprE reifyIrExpression expr with
    | error msg => simp only [h₁, exceptBind_err] at h; exact Except.noConfusion h
    | ok v =>
      simp only [h₁, exceptBind_ok] at h
      cases name with
      | none =>
        rw [show reifyIrExpression (.assignTemporary xref none v) =
          Except.error ("Assign of unnamed temporary " ++ toString xref) from rfl] at h
        exact Except.noConfusion h
      | some n =>
        rw [show reifyIrExpression (.assignTemporary xref (some n) v) =
          Except.ok (Expr.writeVar n v) from rfl] at h
        cases Except.ok.inj h
        exact transformExprE_noIr expr v h₁
  | .pureFunctionExpr off fn args, r, h => by
    simp only [transformExprE] at h
    cases h₁ : transformExprEOpt reifyIrExpression fn with
    | error msg => simp only [h₁, exceptBind_err] at h; exact Except.noConfusion h
    | ok fv =>
      simp only [h₁, exceptBind_ok] at h
      cases h₂ : transformExprEList reifyIrExpression args with
      | error msg => simp only [h₂, exceptBind_err] at h; exact Except.noConfusion h
      | ok vs =>
        simp only [h₂, exceptBind_ok] at h
        cases fv with
        | none =>
          rw [show reifyIrExpression (.pureFunctionExpr off none vs) = Except.error
            "AssertionError: expected PureFunctions to have been extracted" from rfl] at h
          exact Except.noConfusion h
        | some g =>
          rw [show reifyIrExpression (.pureFunctionExpr off (some g) vs) =
            Except.ok (ng.pureFunction off g vs) from rfl] at h
          cases Except.ok.inj h
          have hg : anyExprNode isIrExpressionNode g = false :=
            transformExprEOpt_noIr fn (some g) h₁
          rw [show anyExprNode isIrExpressionNode (ng.pureFunction off g vs) =
            (anyExprNode isIrExpressionNode (ng.onum off) ||
              (anyExprNode isIrExpressionNode g ||
                anyExprNodeList isIrExpressionNode vs)) from rfl,
            onum_noIr off, hg, transformExprEList_noIr args vs h₂]
          rfl
  | .pureFunctionParameter, r, h => by
    rw [show transformExprE reifyIrExpression .pureFunctionParameter = Except.error
      "AssertionError: expected PureFunctionParameterExpr to have been extracted" from rfl] at h
    exact Except.noConfusion h
  | .sanitizerExpr fn, r, h => by
    rw [show transformExprE reifyIrExpression (.sanitizerExpr fn) =
      Except.ok (Expr.importedRef (sanitizerIdentifier fn)) from rfl] at h
    cases Except.ok.inj h
    rfl
  | .slotLiteral slot, r, h => by
    rw [show transformExprE reifyIrExpression (.slotLiteral slot) =
      Except.ok (Expr.literal (.num (slot.slot.getD 0))) from rfl] at h
    cases Except.ok.inj h
    rfl

/-- Companion to `transformExprE_noIr` for optional expressions. -/
theorem transformExprEOpt_noIr : ∀ (o r : Option Expr),
    transformExprEOpt reifyIrExpression o = Except.ok r →
    anyExprNodeOpt isIrExpressionNode r = false
  | none, r, h => by
    rw [show transformExprEOpt reifyIrExpression none =
      Except.ok (none : Option Expr) from rfl] at h
    cases Except.ok.inj h
    rfl
  | some e, r, h => by
    simp only [transformExprEOpt] at h
    cases h₁ : transformExprE reifyIrExpression e with
    | error msg => simp only [h₁, exceptBind_err] at h; exact Except.noConfusion h
    | ok v =>
      simp only [h₁, exceptBind_ok] at h
      cases Except.ok.inj h
      exact transformExprE_noIr e v h₁

/-- Companion to `transformExprE_noIr` for expression lists. -/
theorem transformExprEList_noIr : ∀ (es rs : List Expr),
    transformExprEList reifyIrExpression es = Except.ok rs →
    anyExprNodeList isIrExpressionNode rs = false
  | [], rs, h => by
    rw [show transformExprEList reifyIrExpression [] =
      Except.ok ([] : List Expr) from rfl] at h
    cases Except.ok.inj h
    rfl
  | e :: es, rs, h => by
    simp only [transformExprEList] at h
    cases h₁ : transformExprE reifyIrExpression e with
    | error msg => simp only [h₁, exceptBind_err] at h; exact Except.noConfusion h
    | ok v =>
      simp only [h₁, exceptBind_ok] at h
      cases h₂ : transformExprEList reifyIrExpression es with
      | error msg => simp only [h₂, exceptBind_err] at h; exact Except.noConfusion h
      | ok vs =>
        simp only [h₂, exceptBind_ok] at h
        cases Except.ok.inj h
        rw [show anyExprNodeList isIrExpressionNode (v :: vs) =
          (anyExprNode isIrExpressionNode v || anyExprNodeList isIrExpressionNode vs) from rfl,
          transformExprE_noIr e v h₁, transformExprEList_noIr es vs h₂]
        rfl

/-- Companion to `transformExprE_noIr` for statements. -/
theorem transformStmtE_noIr : ∀ (s : Stmt) (r : Stmt),
    transformStmtE reifyIrExpression s = Except.ok r →
    anyExprNodeStmt isIrExpressionNode r = false
  | .exprStmt e, r, h => by
    simp only [transformStmtE] at h
    cases h₁ : transformExprE reifyIrExpression e with
    | error msg => simp only [h₁, exceptBind_err] at h; exact Except.noConfusion h
    | ok v =>
      simp only [h₁, exceptBind_ok] at h
      cases Except.ok.inj h
      exact transformExprE_noIr e v h₁
  | .returnStmt e, r, h => by
    simp only [transformStmtE] at h
    cases h₁ : transformExprE reifyIrExpression e with
    | error msg => simp only [h₁, exceptBind_err] at h; exact Except.noConfusion h
    | ok v =>
      simp only [h₁, exceptBind_ok] at h
      cases Except.ok.inj h
      exact transformExprE_noIr e v h₁
  | .declareVar name init, r, h => by
    simp only [transformStmtE] at h
    cases h₁ : transformExprE reifyIrExpression init with
    | error msg => simp only [h₁, exceptBind_err] at h; exact Except.noConfusion h
    | ok v =>
      simp only [h₁, exceptBind_ok] at h
      cases Except.ok.inj h
      exact transformExprE_noIr init v h₁

/-- Companion to `transformExprE_noIr` for statement lists. -/
theorem transformStmtEList_noIr : ∀ (ss rs : List Stmt),
    transformStmtEList reifyIrExpression ss = Except.ok rs →
    anyExprNodeStmtList isIrExpressionNode rs = false
  | [], rs, h => by
    rw [show transformStmtEList reifyIrExpression [] =
      Except.ok ([] : List Stmt) from rfl] at h
    cases Except.ok.inj h
    rfl
  | s :: ss, rs, h => by
    simp only [transformStmtEList] at h
    cases h₁ : transformStmtE reifyIrExpression s with
    | error msg => simp only [h₁, exceptBind_err] at h; exact Except.noConfusion h
    | ok v =>
      simp only [h₁, exceptBind_ok] at h
      cases h₂ : transformStmtEList reifyIrExpression ss with
      | error msg => simp only [h₂, exceptBind_err] at h; exact Except.noConfusion h
      | ok vs =>
        simp only [h₂, exceptBind_ok] at h
        cases Except.ok.inj h
        rw [show anyExprNodeStmtList isIrExpressionNode (v :: vs) =
          (anyExprNodeStmt isIrExpressionNode v ||
            anyExprNodeStmtList isIrExpressionNode vs) from rfl,
          transformStmtE_noIr s v h₁, transformStmtEList_noIr ss vs h₂]
        rfl

end

/-- A false disjunction of booleans has both disjuncts false. -/
theorem bor_eq_false {a b : Bool} (h : (a || b) = false) : a = false ∧ b = false := by
  cases a <;> cases b <;> simp_all

/-- The any-node scan distributes over list append. -/
theorem anyExprNodeList_append (p : Expr → Bool) :
    ∀ (xs ys : List Expr),
      anyExprNodeList p (xs ++ ys) = (anyExprNodeList p xs || anyExprNodeList p ys)
  | [], ys => by
    rw [List.nil_append, show anyExprNodeList p ([] : List Expr) = false from rfl,
      Bool.false_or]
  | x :: xs, ys => by
    rw [List.cons_append,
      show anyExprNodeList p (x :: (xs ++ ys)) =
        (anyExprNode p x || anyExprNodeList p (xs ++ ys)) from rfl,
      anyExprNodeList_append p xs ys,
      show anyExprNodeList p (x :: xs) = (anyExprNode p x || anyExprNodeList p xs) from rfl,
      Bool.or_assoc]

/-- The any-node scan of a singleton list. -/
theorem anyExprNodeList_single (p : Expr → Bool) (e : Expr) :
    anyExprNodeList p [e] = anyExprNode p e := Bool.or_false _

/-- String-literal arguments are never IR nodes. -/
theorem str_noIr (s : String) : anyExprNode isIrExpressionNode (ng.str s) = false := rfl

/-- Numeric-literal arguments are never IR nodes. -/
theorem num_noIr (n : Int) : anyExprNode isIrExpressionNode (ng.num n) = false := rfl

/-- Boolean-literal arguments are never IR nodes. -/
theorem boolArg_noIr (b : Bool) : anyExprNode isIrExpressionNode (ng.boolArg b) = false := rfl

/-- Function-name variable reads are never IR nodes. -/
theorem fnRef_noIr (n : Option String) :
    anyExprNode isIrExpressionNode (ng.fnRef n) = false := rfl

/-- Scanning an instruction-call statement scans exactly its argument
list. -/
theorem call_noIr (instr : String) (args : List Expr) :
    anyExprNodeStmt isIrExpressionNode (ng.call instr args) =
      anyExprNodeList isIrExpressionNode args := rfl

/-- From a pointwise relation, every right element has a related left
element. -/
theorem forall₂_exists_left {α β : Type} {r : α → β → Prop} :
    ∀ {l : List α} {l' : List β}, List.Forall₂ r l l' → ∀ b ∈ l', ∃ a ∈ l, r a b := by
  intro l l' h
  induction h with
  | nil => intro b hb; cases hb
  | cons hr _ ih =>
    intro b hb
    cases hb with
    | head => exact ⟨_, List.mem_cons_self _ _, hr⟩
    | tail _ hb' =>
      obtain ⟨a, ha, hab⟩ := ih b hb'
      exact ⟨a, List.mem_cons_of_mem _ ha, hab⟩

/-- A pointwise-false predicate makes `List.any` false. -/
theorem any_false {α : Type} (f : α → Bool) :
    ∀ (l : List α), (∀ x ∈ l, f x = false) → l.any f = false
  | [], _ => rfl
  | x :: l, h => by
    rw [List.any_cons, h x (List.mem_cons_self x l),
      any_false f l (fun y hy => h y (List.mem_cons_of_mem x hy))]
    rfl

/-- A pointwise IR-free statement list is IR-free. -/
theorem anyExprNodeStmtList_eq_false (p : Expr → Bool) :
    ∀ (l : List Stmt), (∀ s ∈ l, anyExprNodeStmt p s = false) →
      anyExprNodeStmtList p l = false
  | [], _ => rfl
  | s :: l, h => by
    rw [show anyExprNodeStmtList p (s :: l) =
      (anyExprNodeStmt p s || anyExprNodeStmtList p l) from rfl,
      h s (List.mem_cons_self s l),
      anyExprNodeStmtList_eq_false p l (fun x hx => h x (List.mem_cons_of_mem s hx))]
    rfl

/-- Statement extraction succeeds exactly on Statement ops, returning the
carried statement. -/
theorem reifyStmtOfOp_ok : ∀ (op : UpdateOp) (s : Stmt),
    reifyStmtOfOp op = Except.ok s → op = UpdateOp.statement s := by
  intro op s h
  cases op <;> first
    | exact Except.noConfusion h
    | (cases Except.ok.inj h; rfl)

/-- Reified interpolations carry no IR node in their expressions. -/
theorem transformInterpE_noIr (i i' : Interp)
    (h : transformInterpE reifyIrExpression i = Except.ok i') :
    anyExprInInterp isIrExpressionNode i' = false := by
  simp only [transformInterpE] at h
  cases h₁ : transformExprEList reifyIrExpression i.expressions with
  | error msg => simp only [h₁, exceptBind_err] at h; exact Except.noConfusion h
  | ok vs =>
    simp only [h₁, exceptBind_ok] at h
    cases Except.ok.inj h
    exact transformExprEList_noIr _ vs h₁

/-- Reified expression-or-interpolation fields carry no IR node. -/
theorem transformExprOrInterpE_noIr : ∀ (x r : ExprOrInterp),
    transformExprOrInterpE reifyIrExpression x = Except.ok r →
    anyExprInExprOrInterp isIrExpressionNode r = false
  | .expr e, r, h => by
    simp only [transformExprOrInterpE] at h
    cases h₁ : transformExprE reifyIrExpression e with
    | error msg => simp only [h₁, exceptBind_err] at h; exact Except.noConfusion h
    | ok v =>
      simp only [h₁, exceptBind_ok] at h
      cases Except.ok.inj h
      exact transformExprE_noIr e v h₁
  | .interp i, r, h => by
    simp only [transformExprOrInterpE] at h
    cases h₁ : transformInterpE reifyIrExpression i with
    | error msg => simp only [h₁, exceptBind_err] at h; exact Except.noConfusion h
    | ok i' =>
      simp only [h₁, exceptBind_ok] at h
      cases Except.ok.inj h
      exact transformInterpE_noIr i i' h₁

/-- After the reification expression pass, an update op carries no IR
node. -/
theorem transformExpressionsInUpdateOp_noIr : ∀ (op r : UpdateOp),
    transformExpressionsInUpdateOp reifyIrExpression op = Except.ok r →
    anyExprInUpdateOp isIrExpressionNode r = false
  | .advance delta, r, h => by
    rw [show transformExpressionsInUpdateOp reifyIrExpression (.advance delta) =
      Except.ok (UpdateOp.advance delta) from rfl] at h
    cases Except.ok.inj h
    rfl
  | .property name expression sanitizer, r, h => by
    simp only [transformExpressionsInUpdateOp] at h
    cases h₁ : transformExprOrInterpE reifyIrExpression expression with
    | error msg => simp only [h₁, exceptBind_err] at h; exact Except.noConfusion h
    | ok e' =>
      simp only [h₁, exceptBind_ok] at h
      cases h₂ : transformExprEOpt reifyIrExpression sanitizer with
      | error msg => simp only [h₂, exceptBind_err] at h; exact Except.noConfusion h
      | ok s' =>
        simp only [h₂, exceptBind_ok] at h
        cases Except.ok.inj h
        rw [show anyExprInUpdateOp isIrExpressionNode (UpdateOp.property name e' s') =
          (anyExprInExprOrInterp isIrExpressionNode e' ||
            anyExprNodeOpt isIrExpressionNode s') from rfl,
          transformExprOrInterpE_noIr expression e' h₁, transformExprEOpt_noIr sanitizer s' h₂]
        rfl
  | .styleProp name expression unit, r, h => by
    simp only [transformExpressionsInUpdateOp] at h
    cases h₁ : transformExprOrInterpE reifyIrExpression expression with
    | error msg => simp only [h₁, exceptBind_err] at h; exact Except.noConfusion h
    | ok e' =>
      simp only [h₁, exceptBind_ok] at h
      cases Except.ok.inj h
      exact transformExprOrInterpE_noIr expression e' h₁
  | .classProp name expression, r, h => by
    simp only [transformExpressionsInUpdateOp] at h
    cases h₁ : transformExprE reifyIrExpression expression with
    | error msg => simp only [h₁, exceptBind_err] at h; exact Except.noConfusion h
    | ok v =>
      simp only [h₁, exceptBind_ok] at h
      cases Except.ok.inj h
      exact transformExprE_noIr expression v h₁
  | .styleMap expression, r, h => by
    simp only [transformExpressionsInUpdateOp] at h
    cases h₁ : transformExprOrInterpE reifyIrExpression expression with
    | error msg => simp only [h₁, exceptBind_err] at h; exact Except.noConfusion h
    | ok e' =>
      simp only [h₁, exceptBind_ok] at h
      cases Except.ok.inj h
      exact transformExprOrInterpE_noIr expression e' h₁
  | .classMap expression, r, h => by
    simp only [transformExpressionsInUpdateOp] at h
    cases h₁ : transformExprOrInterpE reifyIrExpression expression with
    | error msg => simp only [h₁, exceptBind_err] at h; exact Except.noConfusion h
    | ok e' =>
      simp only [h₁, exceptBind_ok] at h
      cases Except.ok.inj h
      exact transformExprOrInterpE_noIr expression e' h₁
  | .i18nExpression expression, r, h => by
    simp only [transformExpressionsInUpdateOp] at h
    cases h₁ : transformExprE reifyIrExpression expression with
    | error msg => simp only [h₁, exceptBind_err] at h; exact Except.noConfusion h
    | ok v =>
      simp only [h₁, exceptBind_ok] at h
      cases Except.ok.inj h
      exact transformExprE_noIr expression v h₁
  | .i18nApply handle, r, h => by
    rw [show transformExpressionsInUpdateOp reifyIrExpression (.i18nApply handle) =
      Except.ok (UpdateOp.i18nApply handle) from rfl] at h
    cases Except.ok.inj h
    rfl
  | .interpolateText interpolation, r, h => by
    simp only [transformExpressionsInUpdateOp] at h
    cases h₁ : transformInterpE reifyIrExpression interpolation with
    | error msg => simp only [h₁, exceptBind_err] at h; exact Except.noConfusion h
    | ok i' =>
      simp only [h₁, exceptBind_ok] at h
      cases Except.ok.inj h
      exact transformInterpE_noIr interpolation i' h₁
  | .attribute name expression sanitizer, r, h => by
    simp only [transformExpressionsInUpdateOp] at h
    cases h₁ : transformExprOrInterpE reifyIrExpression expression with
    | error msg => simp only [h₁, exceptBind_err] at h; exact Except.noConfusion h
    | ok e' =>
      simp only [h₁, exceptBind_ok] at h
      cases h₂ : transformExprEOpt reifyIrExpression sanitizer with
      | error msg => simp only [h₂, exceptBind_err] at h; exact Except.noConfusion h
      | ok s' =>
        simp only [h₂, exceptBind_ok] at h
        cases Except.ok.inj h
        rw [show anyExprInUpdateOp isIrExpressionNode (UpdateOp.attribute name e' s') =
          (anyExprInExprOrInterp isIrExpressionNode e' ||
            anyExprNodeOpt isIrExpressionNode s') from rfl,
          transformExprOrInterpE_noIr expression e' h₁, transformExprEOpt_noIr sanitizer s' h₂]
        rfl
  | .hostProperty name expression isAnimationTrigger, r, h => by
    simp only [transformExpressionsInUpdateOp] at h
    cases h₁ : transformExprOrInterpE reifyIrExpression expression with
    | error msg => simp only [h₁, exceptBind_err] at h; exact Except.noConfusion h
    | ok e' =>
      simp only [h₁, exceptBind_ok] at h
      cases Except.ok.inj h
      exact transformExprOrInterpE_noIr expression e' h₁
  | .variableOp xref varName initializer, r, h => by
    simp only [transformExpressionsInUpdateOp] at h
    cases h₁ : transformExprE reifyIrExpression initializer with
    | error msg => simp only [h₁, exceptBind_err] at h; exact Except.noConfusion h
    | ok v =>
      simp only [h₁, exceptBind_ok] at h
      cases Except.ok.inj h
      exact transformExprE_noIr initializer v h₁
  | .conditional targetSlot processed contextValue, r, h => by
    simp only [transformExpressionsInUpdateOp] at h
    cases h₁ : transformExprEOpt reifyIrExpression processed with
    | error msg => simp only [h₁, exceptBind_err] at h; exact Except.noConfusion h
    | ok p' =>
      simp only [h₁, exceptBind_ok] at h
      cases h₂ : transformExprEOpt reifyIrExpression contextValue with
      | error msg => simp only [h₂, exceptBind_err] at h; exact Except.noConfusion h
      | ok c' =>
        simp only [h₂, exceptBind_ok] at h
        cases Except.ok.inj h
        rw [show anyExprInUpdateOp isIrExpressionNode (UpdateOp.conditional targetSlot p' c') =
          (anyExprNodeOpt isIrExpressionNode p' || anyExprNodeOpt isIrExpressionNode c') from rfl,
          transformExprEOpt_noIr processed p' h₁, transformExprEOpt_noIr contextValue c' h₂]
        rfl
  | .repeater collection, r, h => by
    simp only [transformExpressionsInUpdateOp] at h
    cases h₁ : transformExprE reifyIrExpression collection with
    | error msg => simp only [h₁, exceptBind_err] at h; exact Except.noConfusion h
    | ok v =>
      simp only [h₁, exceptBind_ok] at h
      cases Except.ok.inj h
      exact transformExprE_noIr collection v h₁
  | .deferWhen prefetch expr, r, h => by
    simp only [transformExpressionsInUpdateOp] at h
    cases h₁ : transformExprE reifyIrExpression expr with
    | error msg => simp only [h₁, exceptBind_err] at h; exact Except.noConfusion h
    | ok v =>
      simp only [h₁, exceptBind_ok] at h
      cases Except.ok.inj h
      exact transformExprE_noIr expr v h₁
  | .statement st, r, h => by
    simp only [transformExpressionsInUpdateOp] at h
    cases h₁ : transformStmtE reifyIrExpression st with
    | error msg => simp only [h₁, exceptBind_err] at h; exact Except.noConfusion h
    | ok v =>
      simp only [h₁, exceptBind_ok] at h
      cases Except.ok.inj h
      exact transformStmtE_noIr st v h₁
  | .binding, r, h => by
    rw [show transformExpressionsInUpdateOp reifyIrExpression .binding =
      Except.ok UpdateOp.binding from rfl] at h
    cases Except.ok.inj h
    rfl

/-- After the reification expression pass, a create op carries no IR node
(including inside a listener's handler ops). -/
theorem transformExpressionsInCreateOp_noIr : ∀ (op r : CreateOp),
    transformExpressionsInCreateOp reifyIrExpression op = Except.ok r →
    anyExprInCreateOp isIrExpressionNode r = false
  | .text handle value, r, h => by
    rw [show transformExpressionsInCreateOp reifyIrExpression (.text handle value) =
      Except.ok (CreateOp.text handle value) from rfl] at h
    cases Except.ok.inj h
    rfl
  | .elementStart handle tag attributes localRefs, r, h => by
    rw [show transformExpressionsInCreateOp reifyIrExpression
      (.elementStart handle tag attributes localRefs) =
      Except.ok (CreateOp.elementStart handle tag attributes localRefs) from rfl] at h
    cases Except.ok.inj h
    rfl
  | .element handle tag attributes localRefs, r, h => by
    rw [show transformExpressionsInCreateOp reifyIrExpression
      (.element handle tag attributes localRefs) =
      Except.ok (CreateOp.element handle tag attributes localRefs) from rfl] at h
    cases Except.ok.inj h
    rfl
  | .elementEnd, r, h => by
    rw [show transformExpressionsInCreateOp reifyIrExpression .elementEnd =
      Except.ok CreateOp.elementEnd from rfl] at h
    cases Except.ok.inj h
    rfl
  | .containerStart handle attributes localRefs, r, h => by
    rw [show transformExpressionsInCreateOp reifyIrExpression
      (.containerStart handle attributes localRefs) =
      Except.ok (CreateOp.containerStart handle attributes localRefs) from rfl] at h
    cases Except.ok.inj h
    rfl
  | .container handle attributes localRefs, r, h => by
    rw [show transformExpressionsInCreateOp reifyIrExpression
      (.container handle attributes localRefs) =
      Except.ok (CreateOp.container handle attributes localRefs) from rfl] at h
    cases Except.ok.inj h
    rfl
  | .containerEnd, r, h => by
    rw [show transformExpressionsInCreateOp reifyIrExpression .containerEnd =
      Except.ok CreateOp.containerEnd from rfl] at h
    cases Except.ok.inj h
    rfl
  | .i18nStart handle messageIndex subTemplateIndex, r, h => by
    rw [show transformExpressionsInCreateOp reifyIrExpression
      (.i18nStart handle messageIndex subTemplateIndex) =
      Except.ok (CreateOp.i18nStart handle messageIndex subTemplateIndex) from rfl] at h
    cases Except.ok.inj h
    rfl
  | .i18nEnd, r, h => by
    rw [show transformExpressionsInCreateOp reifyIrExpression .i18nEnd =
      Except.ok CreateOp.i18nEnd from rfl] at h
    cases Except.ok.inj h
    rfl
  | .i18n handle messageIndex subTemplateIndex, r, h => by
    rw [show transformExpressionsInCreateOp reifyIrExpression
      (.i18n handle messageIndex subTemplateIndex) =
      Except.ok (CreateOp.i18n handle messageIndex subTemplateIndex) from rfl] at h
    cases Except.ok.inj h
    rfl
  | .template xref handle tag attributes localRefs, r, h => by
    rw [show transformExpressionsInCreateOp reifyIrExpression
      (.template xref handle tag attributes localRefs) =
      Except.ok (CreateOp.template xref handle tag attributes localRefs) from rfl] at h
    cases Except.ok.inj h
    rfl
  | .disableBindings, r, h => by
    rw [show transformExpressionsInCreateOp reifyIrExpression .disableBindings =
      Except.ok CreateOp.disableBindings from rfl] at h
    cases Except.ok.inj h
    rfl
  | .enableBindings, r, h => by
    rw [show transformExpressionsInCreateOp reifyIrExpression .enableBindings =
      Except.ok CreateOp.enableBindings from rfl] at h
    cases Except.ok.inj h
    rfl
  | .pipe handle name, r, h => by
    rw [show transformExpressionsInCreateOp reifyIrExpression (.pipe handle name) =
      Except.ok (CreateOp.pipe handle name) from rfl] at h
    cases Except.ok.inj h
    rfl
  | .listener name handlerOps handlerFnName c hl an, r, h => by
    simp only [transformExpressionsInCreateOp] at h
    cases h₁ : handlerOps.mapM (transformExpressionsInUpdateOp reifyIrExpression) with
    | error msg => simp only [h₁, exceptBind_err] at h; exact Except.noConfusion h
    | ok ops' =>
      simp only [h₁, exceptBind_ok] at h
      cases Except.ok.inj h
      rw [show anyExprInCreateOp isIrExpressionNode
        (CreateOp.listener name ops' handlerFnName c hl an) =
        ops'.any (anyExprInUpdateOp isIrExpressionNode) from rfl]
      refine any_false _ ops' (fun op' hop' => ?_)
      obtain ⟨a, _, hab⟩ := forall₂_exists_left ((mapM_ok_iff_forall₂ _).mp h₁) op' hop'
      exact transformExpressionsInUpdateOp_noIr a op' hab
  | .variableOp xref varName initializer, r, h => by
    simp only [transformExpressionsInCreateOp] at h
    cases h₁ : transformExprE reifyIrExpression initializer with
    | error msg => simp only [h₁, exceptBind_err] at h; exact Except.noConfusion h
    | ok v =>
      simp only [h₁, exceptBind_ok] at h
      cases Except.ok.inj h
      exact transformExprE_noIr initializer v h₁
  | .namespaceOp active, r, h => by
    rw [show transformExpressionsInCreateOp reifyIrExpression (.namespaceOp active) =
      Except.ok (CreateOp.namespaceOp active) from rfl] at h
    cases Except.ok.inj h
    rfl
  | .defer handle mainSlot resolverFn loadingSlot placeholderSlot errorSlot loadingConfig
      placeholderConfig lMin lAfter pMin, r, h => by
    simp only [transformExpressionsInCreateOp] at h
    cases h₁ : transformExprEOpt reifyIrExpression resolverFn with
    | error msg => simp only [h₁, exceptBind_err] at h; exact Except.noConfusion h
    | ok rf' =>
      simp only [h₁, exceptBind_ok] at h
      cases h₂ : transformExprEOpt reifyIrExpression loadingConfig with
      | error msg => simp only [h₂, exceptBind_err] at h; exact Except.noConfusion h
      | ok lc' =>
        simp only [h₂, exceptBind_ok] at h
        cases h₃ : transformExprEOpt reifyIrExpression placeholderConfig with
        | error msg => simp only [h₃, exceptBind_err] at h; exact Except.noConfusion h
        | ok pc' =>
          simp only [h₃, exceptBind_ok] at h
          cases Except.ok.inj h
          rw [show anyExprInCreateOp isIrExpressionNode
            (CreateOp.defer handle mainSlot rf' loadingSlot placeholderSlot errorSlot lc' pc'
              lMin lAfter pMin) =
            (anyExprNodeOpt isIrExpressionNode rf' || anyExprNodeOpt isIrExpressionNode lc' ||
              anyExprNodeOpt isIrExpressionNode pc') from rfl,
            transformExprEOpt_noIr resolverFn rf' h₁, transformExprEOpt_noIr loadingConfig lc' h₂,
            transformExprEOpt_noIr placeholderConfig pc' h₃]
          rfl
  | .deferOn trigger prefetch, r, h => by
    rw [show transformExpressionsInCreateOp reifyIrExpression (.deferOn trigger prefetch) =
      Except.ok (CreateOp.deferOn trigger prefetch) from rfl] at h
    cases Except.ok.inj h
    rfl
  | .projectionDef defExpr, r, h => by
    simp only [transformExpressionsInCreateOp] at h
    cases h₁ : transformExprEOpt reifyIrExpression defExpr with
    | error msg => simp only [h₁, exceptBind_err] at h; exact Except.noConfusion h
    | ok d' =>
      simp only [h₁, exceptBind_ok] at h
      cases Except.ok.inj h
      exact transformExprEOpt_noIr defExpr d' h₁
  | .projection handle projectionSlotIndex attributes, r, h => by
    rw [show transformExpressionsInCreateOp reifyIrExpression
      (.projection handle projectionSlotIndex attributes) =
      Except.ok (CreateOp.projection handle projectionSlotIndex attributes) from rfl] at h
    cases Except.ok.inj h
    rfl
  | .repeaterCreate xref handle emptyView tag attributes trackByFn usesComponentInstance
      decls vars, r, h => by
    simp only [transformExpressionsInCreateOp] at h
    cases h₁ : transformExprEOpt reifyIrExpression trackByFn with
    | error msg => simp only [h₁, exceptBind_err] at h; exact Except.noConfusion h
    | ok t' =>
      simp only [h₁, exceptBind_ok] at h
      cases Except.ok.inj h
      exact transformExprEOpt_noIr trackByFn t' h₁
  | .statement st, r, h => by
    simp only [transformExpressionsInCreateOp] at h
    cases h₁ : transformStmtE reifyIrExpression st with
    | error msg => simp only [h₁, exceptBind_err] at h; exact Except.noConfusion h
    | ok v =>
      simp only [h₁, exceptBind_ok] at h
      cases Except.ok.inj h
      exact transformStmtE_noIr st v h₁
  | .extractedAttribute name, r, h => by
    rw [show transformExpressionsInCreateOp reifyIrExpression (.extractedAttribute name) =
      Except.ok (CreateOp.extractedAttribute name) from rfl] at h
    cases Except.ok.inj h
    rfl

/-- A successfully reified update op is a Statement op whose statement is
IR-free. -/
theorem reifyUpdateOp_ok : ∀ (op op' : UpdateOp), reifyUpdateOp op = Except.ok op' →
    ∃ s, op' = UpdateOp.statement s ∧ anyExprNodeStmt isIrExpressionNode s = false := by
  intro op op' h
  simp only [reifyUpdateOp] at h
  cases ht : transformExpressionsInUpdateOp reifyIrExpression op with
  | error msg => simp only [ht, exceptBind_err] at h; exact Except.noConfusion h
  | ok op₁ =>
    simp only [ht, exceptBind_ok] at h
    have hni := transformExpressionsInUpdateOp_noIr op op₁ ht
    cases op₁ with
    | advance delta =>
      have h' : Except.ok (ng.advance delta) = Except.ok op' := h
      cases Except.ok.inj h'
      exact ⟨_, rfl, rfl⟩
    | property name expression sanitizer =>
      obtain ⟨he, hs⟩ := bor_eq_false (show (anyExprInExprOrInterp isIrExpressionNode expression ||
        anyExprNodeOpt isIrExpressionNode sanitizer) = false from hni)
      cases expression with
      | interp i =>
        have h' : Except.ok (ng.propertyInterpolate name i.strings i.expressions sanitizer) =
          Except.ok op' := h
        cases Except.ok.inj h'
        refine ⟨_, rfl, ?_⟩
        rw [call_noIr]
        simp only [anyExprNodeList_append, anyExprNodeList_single, str_noIr, strs_noIr,
          Bool.or_false, Bool.false_or]
        rw [show anyExprNodeList isIrExpressionNode i.expressions = false from he,
          oexpr_noIr sanitizer hs]
        rfl
      | expr e =>
        have h' : Except.ok (ng.property name e sanitizer) = Except.ok op' := h
        cases Except.ok.inj h'
        refine ⟨_, rfl, ?_⟩
        rw [call_noIr, show anyExprNodeList isIrExpressionNode
          [ng.str name, e, ng.oexpr sanitizer] =
          (anyExprNode isIrExpressionNode (ng.str name) || (anyExprNode isIrExpressionNode e ||
            (anyExprNode isIrExpressionNode (ng.oexpr sanitizer) || false))) from rfl,
          str_noIr, (show anyExprNode isIrExpressionNode e = false from he),
          oexpr_noIr sanitizer hs]
        rfl
    | styleProp name expression unit =>
      cases expression with
      | interp i =>
        have h' : Except.ok (ng.stylePropInterpolate name i.strings i.expressions unit) =
          Except.ok op' := h
        cases Except.ok.inj h'
        refine ⟨_, rfl, ?_⟩
        rw [call_noIr]
        simp only [anyExprNodeList_append, anyExprNodeList_single, str_noIr, strs_noIr,
          ostr_noIr, Bool.or_false, Bool.false_or]
        exact (show anyExprNodeList isIrExpressionNode i.expressions = false from hni)
      | expr e =>
        have h' : Except.ok (ng.styleProp name e unit) = Except.ok op' := h
        cases Except.ok.inj h'
        refine ⟨_, rfl, ?_⟩
        rw [call_noIr, show anyExprNodeList isIrExpressionNode [ng.str name, e, ng.ostr unit] =
          (anyExprNode isIrExpressionNode (ng.str name) || (anyExprNode isIrExpressionNode e ||
            (anyExprNode isIrExpressionNode (ng.ostr unit) || false))) from rfl,
          str_noIr, (show anyExprNode isIrExpressionNode e = false from hni), ostr_noIr]
        rfl
    | classProp name expression =>
      have h' : Except.ok (ng.classProp name expression) = Except.ok op' := h
      cases Except.ok.inj h'
      refine ⟨_, rfl, ?_⟩
      rw [call_noIr, show anyExprNodeList isIrExpressionNode [ng.str name, expression] =
        (anyExprNode isIrExpressionNode (ng.str name) ||
          (anyExprNode isIrExpressionNode expression || false)) from rfl,
        str_noIr, (show anyExprNode isIrExpressionNode expression = false from hni)]
      rfl
    | styleMap expression =>
      cases expression with
      | interp i =>
        have h' : Except.ok (ng.styleMapInterpolate i.strings i.expressions) =
          Except.ok op' := h
        cases Except.ok.inj h'
        refine ⟨_, rfl, ?_⟩
        rw [call_noIr]
        simp only [anyExprNodeList_append, strs_noIr, Bool.or_false, Bool.false_or]
        exact (show anyExprNodeList isIrExpressionNode i.expressions = false from hni)
      | expr e =>
        have h' : Except.ok (ng.styleMap e) = Except.ok op' := h
        cases Except.ok.inj h'
        refine ⟨_, rfl, ?_⟩
        rw [call_noIr, anyExprNodeList_single]
        exact (show anyExprNode isIrExpressionNode e = false from hni)
    | classMap expression =>
      cases expression with
      | interp i =>
        have h' : Except.ok (ng.classMapInterpolate i.strings i.expressions) =
          Except.ok op' := h
        cases Except.ok.inj h'
        refine ⟨_, rfl, ?_⟩
        rw [call_noIr]
        simp only [anyExprNodeList_append, strs_noIr, Bool.or_false, Bool.false_or]
        exact (show anyExprNodeList isIrExpressionNode i.expressions = false from hni)
      | expr e =>
        have h' : Except.ok (ng.classMap e) = Except.ok op' := h
        cases Except.ok.inj h'
        refine ⟨_, rfl, ?_⟩
        rw [call_noIr, anyExprNodeList_single]
        exact (show anyExprNode isIrExpressionNode e = false from hni)
    | i18nExpression expression =>
      have h' : Except.ok (ng.i18nExp expression) = Except.ok op' := h
      cases Except.ok.inj h'
      refine ⟨_, rfl, ?_⟩
      rw [call_noIr, anyExprNodeList_single]
      exact (show anyExprNode isIrExpressionNode expression = false from hni)
    | i18nApply handle =>
      have h' : Except.ok (ng.i18nApply handle.slot) = Except.ok op' := h
      cases Except.ok.inj h'
      refine ⟨_, rfl, ?_⟩
      rw [call_noIr, anyExprNodeList_single, onum_noIr]
    | interpolateText interpolation =>
      have h' : Except.ok (ng.textInterpolate interpolation.strings interpolation.expressions) =
        Except.ok op' := h
      cases Except.ok.inj h'
      refine ⟨_, rfl, ?_⟩
      rw [call_noIr]
      simp only [anyExprNodeList_append, strs_noIr, Bool.or_false, Bool.false_or]
      exact (show anyExprNodeList isIrExpressionNode interpolation.expressions = false from hni)
    | «attribute» name expression sanitizer =>
      obtain ⟨he, hs⟩ := bor_eq_false (show (anyExprInExprOrInterp isIrExpressionNode expression ||
        anyExprNodeOpt isIrExpressionNode sanitizer) = false from hni)
      cases expression with
      | interp i =>
        have h' : Except.ok (ng.attributeInterpolate name i.strings i.expressions sanitizer) =
          Except.ok op' := h
        cases Except.ok.inj h'
        refine ⟨_, rfl, ?_⟩
        rw [call_noIr]
        simp only [anyExprNodeList_append, anyExprNodeList_single, str_noIr, strs_noIr,
          Bool.or_false, Bool.false_or]
        rw [show anyExprNodeList isIrExpressionNode i.expressions = false from he,
          oexpr_noIr sanitizer hs]
        rfl
      | expr e =>
        have h' : Except.ok (ng.«attribute» name e sanitizer) = Except.ok op' := h
        cases Except.ok.inj h'
        refine ⟨_, rfl, ?_⟩
        rw [call_noIr, show anyExprNodeList isIrExpressionNode
          [ng.str name, e, ng.oexpr sanitizer] =
          (anyExprNode isIrExpressionNode (ng.str name) || (anyExprNode isIrExpressionNode e ||
            (anyExprNode isIrExpressionNode (ng.oexpr sanitizer) || false))) from rfl,
          str_noIr, (show anyExprNode isIrExpressionNode e = false from he),
          oexpr_noIr sanitizer hs]
        rfl
    | hostProperty name expression isAnimationTrigger =>
      cases expression with
      | interp i =>
        have h' : Except.error "not yet handled" = Except.ok op' := h
        exact Except.noConfusion h'
      | expr e =>
        cases isAnimationTrigger with
        | true =>
          have h' : Except.ok (ng.syntheticHostProperty name e) = Except.ok op' := h
          cases Except.ok.inj h'
          refine ⟨_, rfl, ?_⟩
          rw [call_noIr, show anyExprNodeList isIrExpressionNode [ng.str name, e] =
            (anyExprNode isIrExpressionNode (ng.str name) ||
              (anyExprNode isIrExpressionNode e || false)) from rfl,
            str_noIr, (show anyExprNode isIrExpressionNode e = false from hni)]
          rfl
        | false =>
          have h' : Except.ok (ng.hostProperty name e) = Except.ok op' := h
          cases Except.ok.inj h'
          refine ⟨_, rfl, ?_⟩
          rw [call_noIr, show anyExprNodeList isIrExpressionNode [ng.str name, e] =
            (anyExprNode isIrExpressionNode (ng.str name) ||
              (anyExprNode isIrExpressionNode e || false)) from rfl,
            str_noIr, (show anyExprNode isIrExpressionNode e = false from hni)]
          rfl
    | variableOp xref varName initializer =>
      cases varName with
      | none =>
        have h' : Except.error ("AssertionError: unnamed variable " ++ toString xref) =
          Except.ok op' := h
        exact Except.noConfusion h'
      | some n =>
        have h' : Except.ok (UpdateOp.statement (.declareVar n initializer)) =
          Except.ok op' := h
        cases Except.ok.inj h'
        exact ⟨_, rfl, (show anyExprNode isIrExpressionNode initializer = false from hni)⟩
    | conditional targetSlot processed contextValue =>
      cases processed with
      | none =>
        have h' : Except.error "Conditional test was not set." = Except.ok op' := h
        exact Except.noConfusion h'
      | some proc =>
        obtain ⟨hp, hc⟩ := bor_eq_false (show (anyExprNode isIrExpressionNode proc ||
          anyExprNodeOpt isIrExpressionNode contextValue) = false from hni)
        cases hsl : targetSlot.slot with
        | none =>
          simp only [hsl] at h
          exact Except.noConfusion h
        | some slot =>
          simp only [hsl] at h
          cases Except.ok.inj h
          refine ⟨_, rfl, ?_⟩
          rw [call_noIr, show anyExprNodeList isIrExpressionNode
            [ng.num slot, proc, ng.oexpr contextValue] =
            (anyExprNode isIrExpressionNode (ng.num slot) ||
              (anyExprNode isIrExpressionNode proc ||
                (anyExprNode isIrExpressionNode (ng.oexpr contextValue) || false))) from rfl,
            num_noIr, hp, oexpr_noIr contextValue hc]
          rfl
    | repeater collection =>
      have h' : Except.ok (ng.repeater collection) = Except.ok op' := h
      cases Except.ok.inj h'
      refine ⟨_, rfl, ?_⟩
      rw [call_noIr, anyExprNodeList_single]
      exact (show anyExprNode isIrExpressionNode collection = false from hni)
    | deferWhen prefetch expr =>
      have h' : Except.ok (ng.deferWhen prefetch expr) = Except.ok op' := h
      cases Except.ok.inj h'
      refine ⟨_, rfl, ?_⟩
      rw [call_noIr, show anyExprNodeList isIrExpressionNode [ng.boolArg prefetch, expr] =
        (anyExprNode isIrExpressionNode (ng.boolArg prefetch) ||
          (anyExprNode isIrExpressionNode expr || false)) from rfl,
        boolArg_noIr, (show anyExprNode isIrExpressionNode expr = false from hni)]
      rfl
    | statement st =>
      have h' : Except.ok (UpdateOp.statement st) = Except.ok op' := h
      cases Except.ok.inj h'
      exact ⟨st, rfl, (show anyExprNodeStmt isIrExpressionNode st = false from hni)⟩
    | binding =>
      have h' : Except.error "AssertionError: Unsupported reification of update op Binding" =
        Except.ok op' := h
      exact Except.noConfusion h'

/-- The any-node scan over a cons cell. -/
theorem anyExprNodeList_cons (p : Expr → Bool) (e : Expr) (es : List Expr) :
    anyExprNodeList p (e :: es) = (anyExprNode p e || anyExprNodeList p es) := rfl

/-- The any-node scan over the empty list. -/
theorem anyExprNodeList_nil (p : Expr → Bool) : anyExprNodeList p ([] : List Expr) = false := rfl

/-- A successfully reified listener handler is a function expression with
an IR-free body whose parameter list is `$event` exactly when the listener
consumes `$event`. -/
theorem reifyListenerHandler_ok (name : Option String) (handlerOps : List UpdateOp) (c : Bool)
    (fe : Expr) (h : reifyListenerHandler name handlerOps c = Except.ok fe) :
    ∃ body, fe = Expr.fnExpr (if c then ["$event"] else []) body name ∧
      anyExprNodeStmtList isIrExpressionNode body = false := by
  simp only [reifyListenerHandler] at h
  cases h₁ : handlerOps.mapM reifyUpdateOp with
  | error msg => simp only [h₁, exceptBind_err] at h; exact Except.noConfusion h
  | ok reified =>
    simp only [h₁, exceptBind_ok] at h
    cases h₂ : reified.mapM reifyStmtOfOp with
    | error msg => simp only [h₂, exceptBind_err] at h; exact Except.noConfusion h
    | ok stmts =>
      simp only [h₂, exceptBind_ok] at h
      have h' : Except.ok (Expr.fnExpr (if c then ["$event"] else []) stmts name) =
        Except.ok fe := h
      cases Except.ok.inj h'
      refine ⟨stmts, rfl, ?_⟩
      refine anyExprNodeStmtList_eq_false _ stmts (fun s hs => ?_)
      obtain ⟨u, hu, hus⟩ := forall₂_exists_left ((mapM_ok_iff_forall₂ _).mp h₂) s hs
      obtain ⟨a, _, ha⟩ := forall₂_exists_left ((mapM_ok_iff_forall₂ _).mp h₁) u hu
      obtain ⟨s', hs', hnoir⟩ := reifyUpdateOp_ok a u ha
      rw [reifyStmtOfOp_ok u s hus] at hs'
      cases UpdateOp.statement.inj hs'
      exact hnoir

/-- A successfully reified create op is a Statement op whose statement is
IR-free. -/
theorem reifyCreateOp_ok : ∀ (views : XrefId → Option ViewInfo) (b : Bool) (op op' : CreateOp),
    reifyCreateOp views b op = Except.ok op' →
    ∃ s, op' = CreateOp.statement s ∧ anyExprNodeStmt isIrExpressionNode s = false := by
  intro views b op op' h
  simp only [reifyCreateOp] at h
  cases ht : transformExpressionsInCreateOp reifyIrExpression op with
  | error msg => simp only [ht, exceptBind_err] at h; exact Except.noConfusion h
  | ok op₁ =>
    simp only [ht, exceptBind_ok] at h
    have hni := transformExpressionsInCreateOp_noIr op op₁ ht
    cases op₁ with
    | text handle initialValue =>
      have h' : Except.ok (ng.text handle.slot initialValue) = Except.ok op' := h
      cases Except.ok.inj h'
      refine ⟨_, rfl, ?_⟩
      rw [call_noIr]
      simp only [anyExprNodeList_cons, anyExprNodeList_nil, onum_noIr, str_noIr,
        Bool.or_false, Bool.false_or]
    | elementStart handle tag attributes localRefs =>
      have h' : Except.ok (ng.elementStart handle.slot tag attributes localRefs) =
        Except.ok op' := h
      cases Except.ok.inj h'
      refine ⟨_, rfl, ?_⟩
      rw [call_noIr]
      simp only [anyExprNodeList_cons, anyExprNodeList_nil, onum_noIr, ostr_noIr,
        Bool.or_false, Bool.false_or]
    | element handle tag attributes localRefs =>
      have h' : Except.ok (ng.element handle.slot tag attributes localRefs) =
        Except.ok op' := h
      cases Except.ok.inj h'
      refine ⟨_, rfl, ?_⟩
      rw [call_noIr]
      simp only [anyExprNodeList_cons, anyExprNodeList_nil, onum_noIr, ostr_noIr,
        Bool.or_false, Bool.false_or]
    | elementEnd =>
      have h' : Except.ok ng.elementEnd = Except.ok op' := h
      cases Except.ok.inj h'
      exact ⟨_, rfl, rfl⟩
    | containerStart handle attributes localRefs =>
      have h' : Except.ok (ng.elementContainerStart handle.slot attributes localRefs) =
        Except.ok op' := h
      cases Except.ok.inj h'
      refine ⟨_, rfl, ?_⟩
      rw [call_noIr]
      simp only [anyExprNodeList_cons, anyExprNodeList_nil, onum_noIr,
        Bool.or_false, Bool.false_or]
    | container handle attributes localRefs =>
      have h' : Except.ok (ng.elementContainer handle.slot attributes localRefs) =
        Except.ok op' := h
      cases Except.ok.inj h'
      refine ⟨_, rfl, ?_⟩
      rw [call_noIr]
      simp only [anyExprNodeList_cons, anyExprNodeList_nil, onum_noIr,
        Bool.or_false, Bool.false_or]
    | containerEnd =>
      have h' : Except.ok ng.elementContainerEnd = Except.ok op' := h
      cases Except.ok.inj h'
      exact ⟨_, rfl, rfl⟩
    | i18nStart handle messageIndex subTemplateIndex =>
      have h' : Except.ok (ng.i18nStart handle.slot messageIndex subTemplateIndex) =
        Except.ok op' := h
      cases Except.ok.inj h'
      refine ⟨_, rfl, ?_⟩
      rw [call_noIr]
      simp only [anyExprNodeList_cons, anyExprNodeList_nil, onum_noIr,
        Bool.or_false, Bool.false_or]
    | i18nEnd =>
      have h' : Except.ok ng.i18nEnd = Except.ok op' := h
      cases Except.ok.inj h'
      exact ⟨_, rfl, rfl⟩
    | i18n handle messageIndex subTemplateIndex =>
      have h' : Except.ok (ng.i18n handle.slot messageIndex subTemplateIndex) =
        Except.ok op' := h
      cases Except.ok.inj h'
      refine ⟨_, rfl, ?_⟩
      rw [call_noIr]
      simp only [anyExprNodeList_cons, anyExprNodeList_nil, onum_noIr,
        Bool.or_false, Bool.false_or]
    | template xref handle tag attributes localRefs =>
      cases b with
      | false =>
        have h' : Except.error "AssertionError: must be compiling a component" =
          Except.ok op' := h
        exact Except.noConfusion h'
      | true =>
        cases localRefs with
        | refs l =>
          have h' : Except.error
            "AssertionError: local refs array should have been extracted into a constant" =
            Except.ok op' := h
          exact Except.noConfusion h'
        | index idx =>
          cases hv : views xref with
          | none =>
            simp only [hv] at h
            exact Except.noConfusion h
          | some childView =>
            simp only [hv] at h
            cases Except.ok.inj h
            refine ⟨_, rfl, ?_⟩
            rw [call_noIr]
            simp only [anyExprNodeList_cons, anyExprNodeList_nil, onum_noIr, ostr_noIr,
              fnRef_noIr, Bool.or_false, Bool.false_or]
    | disableBindings =>
      have h' : Except.ok ng.disableBindings = Except.ok op' := h
      cases Except.ok.inj h'
      exact ⟨_, rfl, rfl⟩
    | enableBindings =>
      have h' : Except.ok ng.enableBindings = Except.ok op' := h
      cases Except.ok.inj h'
      exact ⟨_, rfl, rfl⟩
    | pipe handle name =>
      have h' : Except.ok (ng.pipe handle.slot name) = Except.ok op' := h
      cases Except.ok.inj h'
      refine ⟨_, rfl, ?_⟩
      rw [call_noIr]
      simp only [anyExprNodeList_cons, anyExprNodeList_nil, onum_noIr, str_noIr,
        Bool.or_false, Bool.false_or]
    | listener name handlerOps handlerFnName c hl an =>
      cases hL : reifyListenerHandler handlerFnName handlerOps c with
      | error msg => simp only [hL, exceptBind_err] at h; exact Except.noConfusion h
      | ok fe =>
        simp only [hL, exceptBind_ok] at h
        obtain ⟨body, hfe, hbody⟩ := reifyListenerHandler_ok handlerFnName handlerOps c fe hL
        have hfe' : anyExprNode isIrExpressionNode fe = false := by
          rw [hfe]; exact hbody
        cases hl with
        | false =>
          have h' : Except.ok (ng.listener name fe) = Except.ok op' := h
          cases Except.ok.inj h'
          refine ⟨_, rfl, ?_⟩
          rw [call_noIr]
          simp only [anyExprNodeList_cons, anyExprNodeList_nil, str_noIr,
            Bool.or_false, Bool.false_or]
          exact hfe'
        | true =>
          cases an with
          | false =>
            have h' : Except.ok (ng.listener name fe) = Except.ok op' := h
            cases Except.ok.inj h'
            refine ⟨_, rfl, ?_⟩
            rw [call_noIr]
            simp only [anyExprNodeList_cons, anyExprNodeList_nil, str_noIr,
              Bool.or_false, Bool.false_or]
            exact hfe'
          | true =>
            have h' : Except.ok (ng.syntheticHostListener name fe) = Except.ok op' := h
            cases Except.ok.inj h'
            refine ⟨_, rfl, ?_⟩
            rw [call_noIr]
            simp only [anyExprNodeList_cons, anyExprNodeList_nil, str_noIr,
              Bool.or_false, Bool.false_or]
            exact hfe'
    | variableOp xref varName initializer =>
      cases varName with
      | none =>
        have h' : Except.error ("AssertionError: unnamed variable " ++ toString xref) =
          Except.ok op' := h
        exact Except.noConfusion h'
      | some n =>
        have h' : Except.ok (CreateOp.statement (.declareVar n initializer)) =
          Except.ok op' := h
        cases Except.ok.inj h'
        exact ⟨_, rfl, (show anyExprNode isIrExpressionNode initializer = false from hni)⟩
    | namespaceOp active =>
      cases active with
      | html =>
        have h' : Except.ok ng.namespaceHTML = Except.ok op' := h
        cases Except.ok.inj h'
        exact ⟨_, rfl, rfl⟩
      | svg =>
        have h' : Except.ok ng.namespaceSVG = Except.ok op' := h
        cases Except.ok.inj h'
        exact ⟨_, rfl, rfl⟩
      | math =>
        have h' : Except.ok ng.namespaceMath = Except.ok op' := h
        cases Except.ok.inj h'
        exact ⟨_, rfl, rfl⟩
    | defer handle mainSlot resolverFn loadingSlot placeholderSlot errorSlot loadingConfig
        placeholderConfig lMin lAfter pMin =>
      obtain ⟨hrl, hpc⟩ := bor_eq_false (show ((anyExprNodeOpt isIrExpressionNode resolverFn ||
        anyExprNodeOpt isIrExpressionNode loadingConfig) ||
        anyExprNodeOpt isIrExpressionNode placeholderConfig) = false from hni)
      obtain ⟨hrf, hlc⟩ := bor_eq_false hrl
      have h' : Except.ok (ng.defer handle.slot mainSlot.slot resolverFn
        (loadingSlot.bind (·.slot)) (placeholderSlot.bind (·.slot)) (errorSlot.bind (·.slot))
        loadingConfig placeholderConfig
        (truthyNum lMin || truthyNum lAfter || truthyNum pMin)) = Except.ok op' := h
      cases Except.ok.inj h'
      refine ⟨_, rfl, ?_⟩
      rw [call_noIr]
      simp only [anyExprNodeList_cons, anyExprNodeList_nil, onum_noIr, boolArg_noIr,
        Bool.or_false, Bool.false_or]
      rw [oexpr_noIr resolverFn hrf, oexpr_noIr loadingConfig hlc,
        oexpr_noIr placeholderConfig hpc]
      rfl
    | deferOn trigger prefetch =>
      cases trigger with
      | idle =>
        have h' : Except.ok (ng.deferOn "idle" [] prefetch) = Except.ok op' := h
        cases Except.ok.inj h'
        exact ⟨_, rfl, rfl⟩
      | immediate =>
        have h' : Except.ok (ng.deferOn "immediate" [] prefetch) = Except.ok op' := h
        cases Except.ok.inj h'
        exact ⟨_, rfl, rfl⟩
      | timer delay =>
        have h' : Except.ok (ng.deferOn "timer" [Int.ofNat delay] prefetch) =
          Except.ok op' := h
        cases Except.ok.inj h'
        exact ⟨_, rfl, rfl⟩
      | hover targetSlot steps =>
        cases hts : targetSlot.bind (·.slot) with
        | none =>
          simp only [hts] at h
          exact Except.noConfusion h
        | some slot =>
          simp only [hts] at h
          cases steps with
          | none => exact Except.noConfusion h
          | some s =>
            cases Except.ok.inj h
            refine ⟨_, rfl, ?_⟩
            rw [call_noIr]
            simp only [anyExprNodeList_append, anyExprNodeList_cons, anyExprNodeList_nil,
              str_noIr, nums_noIr, boolArg_noIr, Bool.or_false, Bool.false_or]
      | interaction targetSlot steps =>
        cases hts : targetSlot.bind (·.slot) with
        | none =>
          simp only [hts] at h
          exact Except.noConfusion h
        | some slot =>
          simp only [hts] at h
          cases steps with
          | none => exact Except.noConfusion h
          | some s =>
            cases Except.ok.inj h
            refine ⟨_, rfl, ?_⟩
            rw [call_noIr]
            simp only [anyExprNodeList_append, anyExprNodeList_cons, anyExprNodeList_nil,
              str_noIr, nums_noIr, boolArg_noIr, Bool.or_false, Bool.false_or]
      | viewport targetSlot steps =>
        cases hts : targetSlot.bind (·.slot) with
        | none =>
          simp only [hts] at h
          exact Except.noConfusion h
        | some slot =>
          simp only [hts] at h
          cases steps with
          | none => exact Except.noConfusion h
          | some s =>
            cases Except.ok.inj h
            refine ⟨_, rfl, ?_⟩
            rw [call_noIr]
            simp only [anyExprNodeList_append, anyExprNodeList_cons, anyExprNodeList_nil,
              str_noIr, nums_noIr, boolArg_noIr, Bool.or_false, Bool.false_or]
    | projectionDef defExpr =>
      have h' : Except.ok (ng.projectionDef defExpr) = Except.ok op' := h
      cases Except.ok.inj h'
      refine ⟨_, rfl, ?_⟩
      rw [call_noIr, anyExprNodeList_cons, anyExprNodeList_nil,
        oexpr_noIr defExpr (show anyExprNodeOpt isIrExpressionNode defExpr = false from hni)]
      rfl
    | projection handle projectionSlotIndex attributes =>
      cases hsl : handle.slot with
      | none =>
        simp only [hsl] at h
        exact Except.noConfusion h
      | some slot =>
        simp only [hsl] at h
        cases Except.ok.inj h
        refine ⟨_, rfl, ?_⟩
        rw [call_noIr]
        simp only [anyExprNodeList_cons, anyExprNodeList_nil, num_noIr, onum_noIr,
          Bool.or_false, Bool.false_or]
    | repeaterCreate xref handle emptyView tag attributes trackByFn usesComponentInstance
        decls vars =>
      have htr : anyExprNodeOpt isIrExpressionNode trackByFn = false := hni
      cases hsl : handle.slot with
      | none =>
        simp only [hsl] at h
        exact Except.noConfusion h
      | some slot =>
        simp only [hsl] at h
        cases b with
        | false => exact Except.noConfusion h
        | true =>
          cases hv : views xref with
          | none =>
            simp only [hv] at h
            exact Except.noConfusion h
          | some repeaterView =>
            simp only [hv] at h
            cases hf : repeaterView.fnName with
            | none =>
              simp only [hf] at h
              exact Except.noConfusion h
            | some fnName =>
              simp only [hf] at h
              cases emptyView with
              | none =>
                cases Except.ok.inj h
                refine ⟨_, rfl, ?_⟩
                rw [call_noIr]
                simp only [anyExprNodeList_cons, anyExprNodeList_nil, num_noIr, str_noIr,
                  onum_noIr, ostr_noIr, boolArg_noIr, Bool.or_false, Bool.false_or]
                exact oexpr_noIr trackByFn htr
              | some ev =>
                cases hev : views ev with
                | none =>
                  simp only [hev] at h
                  exact Except.noConfusion h
                | some emptyV =>
                  simp only [hev] at h
                  cases hef : emptyV.fnName with
                  | none =>
                    simp only [hef] at h
                    exact Except.noConfusion h
                  | some efn =>
                    simp only [hef] at h
                    cases hed : emptyV.decls with
                    | none =>
                      simp only [hed] at h
                      exact Except.noConfusion h
                    | some ed =>
                      simp only [hed] at h
                      cases hevr : emptyV.vars with
                      | none =>
                        simp only [hevr] at h
                        exact Except.noConfusion h
                      | some evr =>
                        simp only [hevr] at h
                        cases Except.ok.inj h
                        refine ⟨_, rfl, ?_⟩
                        rw [call_noIr]
                        simp only [anyExprNodeList_cons, anyExprNodeList_nil, num_noIr,
                          str_noIr, onum_noIr, ostr_noIr, boolArg_noIr,
                          Bool.or_false, Bool.false_or]
                        exact oexpr_noIr trackByFn htr
    | statement st =>
      have h' : Except.ok (CreateOp.statement st) = Except.ok op' := h
      cases Except.ok.inj h'
      exact ⟨st, rfl, (show anyExprNodeStmt isIrExpressionNode st = false from hni)⟩
    | extractedAttribute name =>
      have h' : Except.error
        "AssertionError: Unsupported reification of create op ExtractedAttribute" =
        Except.ok op' := h
      exact Except.noConfusion h'

/-- A successfully reified unit consists solely of Statement ops with
IR-free statements. -/
theorem reifyUnit_ok (views : XrefId → Option ViewInfo) (b : Bool) (u u' : RUnit)
    (h : reifyUnit views b u = Except.ok u') :
    (∀ op ∈ u'.create, ∃ s, op = CreateOp.statement s ∧
      anyExprNodeStmt isIrExpressionNode s = false) ∧
    (∀ op ∈ u'.update, ∃ s, op = UpdateOp.statement s ∧
      anyExprNodeStmt isIrExpressionNode s = false) := by
  simp only [reifyUnit] at h
  cases h₁ : u.create.mapM (reifyCreateOp views b) with
  | error msg => simp only [h₁, exceptBind_err] at h; exact Except.noConfusion h
  | ok cs =>
    simp only [h₁, exceptBind_ok] at h
    cases h₂ : u.update.mapM reifyUpdateOp with
    | error msg => simp only [h₂, exceptBind_err] at h; exact Except.noConfusion h
    | ok us =>
      simp only [h₂, exceptBind_ok] at h
      have h' : Except.ok (RUnit.mk cs us) = Except.ok u' := h
      cases Except.ok.inj h'
      constructor
      · intro op hop
        obtain ⟨a, _, ha⟩ := forall₂_exists_left ((mapM_ok_iff_forall₂ _).mp h₁) op hop
        exact reifyCreateOp_ok views b a op ha
      · intro op hop
        obtain ⟨a, _, ha⟩ := forall₂_exists_left ((mapM_ok_iff_forall₂ _).mp h₂) op hop
        exact reifyUpdateOp_ok a op ha

/-- C1: when `reify` succeeds on a job's units, every op remaining in
every unit's create and update op-lists is a Statement op and no
IR-specific expression node remains in any op; an op kind with no explicit
reification case (ExtractedAttribute among create ops, Binding among
update ops) and an IR expression kind with no explicit case (e.g.
EmptyExpr) are fatal assertion failures. -/
theorem reify_statements_only_noIr
    (views : XrefId → Option ViewInfo) (isViewUnit : Bool) (units units' : List RUnit)
    (h : reify views isViewUnit units = Except.ok units') :
    (∀ u' ∈ units',
      (∀ op ∈ u'.create, (∃ s, op = CreateOp.statement s) ∧
        anyExprInCreateOp isIrExpressionNode op = false) ∧
      (∀ op ∈ u'.update, (∃ s, op = UpdateOp.statement s) ∧
        anyExprInUpdateOp isIrExpressionNode op = false)) ∧
    (∀ name, reifyCreateOp views isViewUnit (CreateOp.extractedAttribute name) =
      Except.error "AssertionError: Unsupported reification of create op ExtractedAttribute") ∧
    (reifyUpdateOp UpdateOp.binding =
      Except.error "AssertionError: Unsupported reification of update op Binding") ∧
    (reifyIrExpression Expr.emptyExpr =
      Except.error "AssertionError: Unsupported reification of ir.Expression kind") := by
  refine ⟨?_, fun name => rfl, rfl, rfl⟩
  intro u' hu'
  obtain ⟨u, _, hu⟩ := forall₂_exists_left ((mapM_ok_iff_forall₂ _).mp h) u' hu'
  obtain ⟨hc, hup⟩ := reifyUnit_ok views isViewUnit u u' hu
  constructor
  · intro op hop
    obtain ⟨s, hs, hnoir⟩ := hc op hop
    refine ⟨⟨s, hs⟩, ?_⟩
    rw [hs]
    exact hnoir
  · intro op hop
    obtain ⟨s, hs, hnoir⟩ := hup op hop
    refine ⟨⟨s, hs⟩, ?_⟩
    rw [hs]
    exact hnoir

/-- Witness for the reification postcondition on a concrete one-unit job. -/
theorem reify_statements_only_noIr_witness :
    (∀ u' ∈ [RUnit.mk [ng.elementEnd] []],
      (∀ op ∈ u'.create, (∃ s, op = CreateOp.statement s) ∧
        anyExprInCreateOp isIrExpressionNode op = false) ∧
      (∀ op ∈ u'.update, (∃ s, op = UpdateOp.statement s) ∧
        anyExprInUpdateOp isIrExpressionNode op = false)) ∧
    (∀ name, reifyCreateOp (fun _ => none) true (CreateOp.extractedAttribute name) =
      Except.error "AssertionError: Unsupported reification of create op ExtractedAttribute") ∧
    (reifyUpdateOp UpdateOp.binding =
      Except.error "AssertionError: Unsupported reification of update op Binding") ∧
    (reifyIrExpression Expr.emptyExpr =
      Except.error "AssertionError: Unsupported reification of ir.Expression kind") :=
  reify_statements_only_noIr (fun _ => none) true [RUnit.mk [CreateOp.elementEnd] []]
    [RUnit.mk [ng.elementEnd] []] rfl

mutual

/-- After the `$event` rewrite, no `$event` lexical read remains anywhere
in the expression: every matching node is replaced by a variable read and
no other node can become a match. -/
theorem transformExpr_dollarFree : ∀ (e : Expr),
    anyExprNode isDollarEventRead (transformExpr rewriteDollarEvent e) = false
  | .readVar name => rfl
  | .writeVar name value => transformExpr_dollarFree value
  | .readProp receiver name => transformExpr_dollarFree receiver
  | .writeProp receiver name value => by
    rw [show anyExprNode isDollarEventRead
      (transformExpr rewriteDollarEvent (.writeProp receiver name value)) =
      (anyExprNode isDollarEventRead (transformExpr rewriteDollarEvent receiver) ||
        anyExprNode isDollarEventRead (transformExpr rewriteDollarEvent value)) from rfl,
      transformExpr_dollarFree receiver, transformExpr_dollarFree value]
    rfl
  | .readKey receiver index => by
    rw [show anyExprNode isDollarEventRead
      (transformExpr rewriteDollarEvent (.readKey receiver index)) =
      (anyExprNode isDollarEventRead (transformExpr rewriteDollarEvent receiver) ||
        anyExprNode isDollarEventRead (transformExpr rewriteDollarEvent index)) from rfl,
      transformExpr_dollarFree receiver, transformExpr_dollarFree index]
    rfl
  | .writeKey receiver index value => by
    rw [show anyExprNode isDollarEventRead
      (transformExpr rewriteDollarEvent (.writeKey receiver index value)) =
      (anyExprNode isDollarEventRead (transformExpr rewriteDollarEvent receiver) ||
        anyExprNode isDollarEventRead (transformExpr rewriteDollarEvent index) ||
        anyExprNode isDollarEventRead (transformExpr rewriteDollarEvent value)) from rfl,
      transformExpr_dollarFree receiver, transformExpr_dollarFree index,
      transformExpr_dollarFree value]
    rfl
  | .invokeFn fn args => by
    rw [show anyExprNode isDollarEventRead
      (transformExpr rewriteDollarEvent (.invokeFn fn args)) =
      (anyExprNode isDollarEventRead (transformExpr rewriteDollarEvent fn) ||
        anyExprNodeList isDollarEventRead (transformExprList rewriteDollarEvent args)) from rfl,
      transformExpr_dollarFree fn, transformExprList_dollarFree args]
    rfl
  | .literal value => rfl
  | .literalArray entries => transformExprList_dollarFree entries
  | .literalMap keys values => transformExprList_dollarFree values
  | .binary op lhs rhs => by
    rw [show anyExprNode isDollarEventRead
      (transformExpr rewriteDollarEvent (.binary op lhs rhs)) =
      (anyExprNode isDollarEventRead (transformExpr rewriteDollarEvent lhs) ||
        anyExprNode isDollarEventRead (transformExpr rewriteDollarEvent rhs)) from rfl,
      transformExpr_dollarFree lhs, transformExpr_dollarFree rhs]
    rfl
  | .conditional cond t e => by
    rw [show anyExprNode isDollarEventRead
      (transformExpr rewriteDollarEvent (.conditional cond t e)) =
      (anyExprNode isDollarEventRead (transformExpr rewriteDollarEvent cond) ||
        anyExprNode isDollarEventRead (transformExpr rewriteDollarEvent t) ||
        anyExprNode isDollarEventRead (transformExpr rewriteDollarEvent e)) from rfl,
      transformExpr_dollarFree cond, transformExpr_dollarFree t, transformExpr_dollarFree e]
    rfl
  | .importedRef name => rfl
  | .fnExpr params body name => transformStmtList_dollarFree body
  | .lexicalRead name => by
    cases hn : name == "$event" with
    | true =>
      simp only [transformExpr, rewriteDollarEvent, hn, reduceIte]
      rfl
    | false =>
      simp only [transformExpr, rewriteDollarEvent, hn, reduceIte]
      exact hn
  | .contextExpr view => rfl
  | .pipeBinding target slot off name args => transformExprList_dollarFree args
  | .pipeBindingVariadic target slot off name args n => transformExpr_dollarFree args
  | .safePropertyRead receiver name => transformExpr_dollarFree receiver
  | .safeKeyedRead receiver index => by
    rw [show anyExprNode isDollarEventRead
      (transformExpr rewriteDollarEvent (.safeKeyedRead receiver index)) =
      (anyExprNode isDollarEventRead (transformExpr rewriteDollarEvent receiver) ||
        anyExprNode isDollarEventRead (transformExpr rewriteDollarEvent index)) from rfl,
      transformExpr_dollarFree receiver, transformExpr_dollarFree index]
    rfl
  | .safeInvokeFn receiver args => by
    rw [show anyExprNode isDollarEventRead
      (transformExpr rewriteDollarEvent (.safeInvokeFn receiver args)) =
      (anyExprNode isDollarEventRead (transformExpr rewriteDollarEvent receiver) ||
        anyExprNodeList isDollarEventRead (transformExprList rewriteDollarEvent args)) from rfl,
      transformExpr_dollarFree receiver, transformExprList_dollarFree args]
    rfl
  | .emptyExpr => rfl
  | .nextContext steps => rfl
  | .reference slot offset => rfl
  | .restoreViewRaw view => rfl
  | .restoreViewExpr view => transformExpr_dollarFree view
  | .resetView expr => transformExpr_dollarFree expr
  | .getCurrentView => rfl
  | .readVariable xref name => rfl
  | .readTemporary xref name => rfl
  | .assignTemporary xref name expr => transformExpr_dollarFree expr
  | .pureFunctionExpr off fn args => by
    rw [show anyExprNode isDollarEventRead
      (transformExpr rewriteDollarEvent (.pureFunctionExpr off fn args)) =
      (anyExprNodeOpt isDollarEventRead (transformExprOpt rewriteDollarEvent fn) ||
        anyExprNodeList isDollarEventRead (transformExprList rewriteDollarEvent args)) from rfl,
      transformExprOpt_dollarFree fn, transformExprList_dollarFree args]
    rfl
  | .pureFunctionParameter => rfl
  | .sanitizerExpr fn => rfl
  | .slotLiteral slot => rfl

/-- Companion to `transformExpr_dollarFree` for optional expressions. -/
theorem transformExprOpt_dollarFree : ∀ (o : Option Expr),
    anyExprNodeOpt isDollarEventRead (transformExprOpt rewriteDollarEvent o) = false
  | none => rfl
  | some e => transformExpr_dollarFree e

/-- Companion to `transformExpr_dollarFree` for expression lists. -/
theorem transformExprList_dollarFree : ∀ (es : List Expr),
    anyExprNodeList isDollarEventRead (transformExprList rewriteDollarEvent es) = false
  | [] => rfl
  | e :: es => by
    rw [show anyExprNodeList isDollarEventRead
      (transformExprList rewriteDollarEvent (e :: es)) =
      (anyExprNode isDollarEventRead (transformExpr rewriteDollarEvent e) ||
        anyExprNodeList isDollarEventRead (transformExprList rewriteDollarEvent es)) from rfl,
      transformExpr_dollarFree e, transformExprList_dollarFree es]
    rfl

/-- Companion to `transformExpr_dollarFree` for statements. -/
theorem transformStmt_dollarFree : ∀ (s : Stmt),
    anyExprNodeStmt isDollarEventRead (transformStmt rewriteDollarEvent s) = false
  | .exprStmt e => transformExpr_dollarFree e
  | .returnStmt e => transformExpr_dollarFree e
  | .declareVar name init => transformExpr_dollarFree init

/-- Companion to `transformExpr_dollarFree` for statement lists. -/
theorem transformStmtList_dollarFree : ∀ (ss : List Stmt),
    anyExprNodeStmtList isDollarEventRead (transformStmtList rewriteDollarEvent ss) = false
  | [] => rfl
  | s :: ss => by
    rw [show anyExprNodeStmtList isDollarEventRead
      (transformStmtList rewriteDollarEvent (s :: ss)) =
      (anyExprNodeStmt isDollarEventRead (transformStmt rewriteDollarEvent s) ||
        anyExprNodeStmtList isDollarEventRead (transformStmtList rewriteDollarEvent ss)) from rfl,
      transformStmt_dollarFree s, transformStmtList_dollarFree ss]
    rfl

end

/-- The `$event` rewrite leaves no match in an interpolation. -/
theorem mapInterp_dollarFree (i : Interp) :
    anyExprInInterp isDollarEventRead (mapInterp rewriteDollarEvent i) = false :=
  transformExprList_dollarFree i.expressions

/-- The `$event` rewrite leaves no match in an expression-or-interpolation
field. -/
theorem mapExprOrInterp_dollarFree : ∀ (x : ExprOrInterp),
    anyExprInExprOrInterp isDollarEventRead (mapExprOrInterp rewriteDollarEvent x) = false
  | .expr e => transformExpr_dollarFree e
  | .interp i => mapInterp_dollarFree i

/-- The `$event` rewrite leaves no match in an update op. -/
theorem mapExpressionsInUpdateOp_dollarFree : ∀ (op : UpdateOp),
    anyExprInUpdateOp isDollarEventRead (mapExpressionsInUpdateOp rewriteDollarEvent op) = false
  | .advance delta => rfl
  | .property name expression sanitizer => by
    rw [show anyExprInUpdateOp isDollarEventRead
      (mapExpressionsInUpdateOp rewriteDollarEvent (.property name expression sanitizer)) =
      (anyExprInExprOrInterp isDollarEventRead (mapExprOrInterp rewriteDollarEvent expression) ||
        anyExprNodeOpt isDollarEventRead (transformExprOpt rewriteDollarEvent sanitizer)) from rfl,
      mapExprOrInterp_dollarFree expression, transformExprOpt_dollarFree sanitizer]
    rfl
  | .styleProp name expression unit => mapExprOrInterp_dollarFree expression
  | .classProp name expression => transformExpr_dollarFree expression
  | .styleMap expression => mapExprOrInterp_dollarFree expression
  | .classMap expression => mapExprOrInterp_dollarFree expression
  | .i18nExpression expression => transformExpr_dollarFree expression
  | .i18nApply handle => rfl
  | .interpolateText interpolation => mapInterp_dollarFree interpolation
  | .attribute name expression sanitizer => by
    rw [show anyExprInUpdateOp isDollarEventRead
      (mapExpressionsInUpdateOp rewriteDollarEvent (.attribute name expression sanitizer)) =
      (anyExprInExprOrInterp isDollarEventRead (mapExprOrInterp rewriteDollarEvent expression) ||
        anyExprNodeOpt isDollarEventRead (transformExprOpt rewriteDollarEvent sanitizer)) from rfl,
      mapExprOrInterp_dollarFree expression, transformExprOpt_dollarFree sanitizer]
    rfl
  | .hostProperty name expression isAnimationTrigger => mapExprOrInterp_dollarFree expression
  | .variableOp xref varName initializer => transformExpr_dollarFree initializer
  | .conditional targetSlot processed contextValue => by
    rw [show anyExprInUpdateOp isDollarEventRead
      (mapExpressionsInUpdateOp rewriteDollarEvent
        (.conditional targetSlot processed contextValue)) =
      (anyExprNodeOpt isDollarEventRead (transformExprOpt rewriteDollarEvent processed) ||
        anyExprNodeOpt isDollarEventRead (transformExprOpt rewriteDollarEvent contextValue))
      from rfl,
      transformExprOpt_dollarFree processed, transformExprOpt_dollarFree contextValue]
    rfl
  | .repeater collection => transformExpr_dollarFree collection
  | .deferWhen prefetch expr => transformExpr_dollarFree expr
  | .statement st => transformStmt_dollarFree st
  | .binding => rfl

/-- C6: for a listener op whose `consumesDollarEvent` flag starts false,
the `$event`-resolution phase marks it as consuming `$event` exactly when
one of its handler ops contains a lexical read of the literal name
`$event`; every such read is rewritten away; and the reified handler
function expression declares an `$event` parameter exactly in that case. -/
theorem listener_dollar_event_param
    (name : String) (handlerOps : List UpdateOp) (fnName : Option String) (hl an : Bool)
    (handlerOps' : List UpdateOp) (consumed' : Bool)
    (hphase : transformDollarEventOp (CreateOp.listener name handlerOps fnName false hl an) =
      CreateOp.listener name handlerOps' fnName consumed' hl an)
    (fe : Expr) (hreify : reifyListenerHandler fnName handlerOps' consumed' = Except.ok fe) :
    consumed' = handlerOps.any (anyExprInUpdateOp isDollarEventRead) ∧
    (∀ op ∈ handlerOps', anyExprInUpdateOp isDollarEventRead op = false) ∧
    (∃ body, fe = Expr.fnExpr
      (if handlerOps.any (anyExprInUpdateOp isDollarEventRead) then ["$event"] else [])
      body fnName) := by
  have hp : CreateOp.listener name
    (handlerOps.map (mapExpressionsInUpdateOp rewriteDollarEvent)) fnName
    (false || handlerOps.any (anyExprInUpdateOp isDollarEventRead)) hl an =
    CreateOp.listener name handlerOps' fnName consumed' hl an := hphase
  injection hp with h1 h2 h3 h4 h5 h6
  subst h2
  subst h4
  refine ⟨Bool.false_or _, ?_, ?_⟩
  · intro op hop
    obtain ⟨a, _, rfl⟩ := List.mem_map.mp hop
    exact mapExpressionsInUpdateOp_dollarFree a
  · obtain ⟨body, hfe, _⟩ := reifyListenerHandler_ok fnName _ _ fe hreify
    refine ⟨body, ?_⟩
    rw [hfe]
    rfl

/-- Witness for the `$event` parameter characterisation on a concrete
listener whose handler reads `$event`. -/
theorem listener_dollar_event_param_witness :
    true = [UpdateOp.statement (Stmt.exprStmt (Expr.lexicalRead "$event"))].any
      (anyExprInUpdateOp isDollarEventRead) ∧
    (∀ op ∈ [UpdateOp.statement (Stmt.exprStmt (Expr.readVar "$event"))],
      anyExprInUpdateOp isDollarEventRead op = false) ∧
    (∃ body, Expr.fnExpr ["$event"] [Stmt.exprStmt (Expr.readVar "$event")] none =
      Expr.fnExpr
        (if [UpdateOp.statement (Stmt.exprStmt (Expr.lexicalRead "$event"))].any
          (anyExprInUpdateOp isDollarEventRead) then ["$event"] else [])
        body none) :=
  listener_dollar_event_param "click"
    [UpdateOp.statement (Stmt.exprStmt (Expr.lexicalRead "$event"))] none false false
    [UpdateOp.statement (Stmt.exprStmt (Expr.readVar "$event"))] true rfl
    (Expr.fnExpr ["$event"] [Stmt.exprStmt (Expr.readVar "$event")] none) rfl

/-- C10: the `$event`-resolution phase is a frame transformation — every
create op that is not a Listener op is returned unchanged, every unit's
update op-list is returned unchanged (no update op has kind Listener), and
a surviving `$event` lexical read is rejected by reification as an
unresolved LexicalRead. -/
theorem dollar_event_frame :
    (∀ op : CreateOp,
      (∀ (name : String) (handlerOps : List UpdateOp) (fnName : Option String) (c hl an : Bool),
        op ≠ CreateOp.listener name handlerOps fnName c hl an) →
      transformDollarEventOp op = op) ∧
    (∀ u : RUnit, (resolveDollarEventUnit u).update = u.update) ∧
    (∀ name : String, reifyIrExpression (Expr.lexicalRead name) =
      Except.error ("AssertionError: unresolved LexicalRead of " ++ name)) := by
  refine ⟨?_, fun u => rfl, fun name => rfl⟩
  intro op hne
  cases op with
  | listener name handlerOps fnName c hl an => exact absurd rfl (hne name handlerOps fnName c hl an)
  | text handle value => rfl
  | elementStart handle tag attributes localRefs => rfl
  | element handle tag attributes localRefs => rfl
  | elementEnd => rfl
  | containerStart handle attributes localRefs => rfl
  | container handle attributes localRefs => rfl
  | containerEnd => rfl
  | i18nStart handle messageIndex subTemplateIndex => rfl
  | i18nEnd => rfl
  | i18n handle messageIndex subTemplateIndex => rfl
  | template xref handle tag attributes localRefs => rfl
  | disableBindings => rfl
  | enableBindings => rfl
  | pipe handle name => rfl
  | variableOp xref varName initializer => rfl
  | namespaceOp active => rfl
  | defer handle mainSlot resolverFn loadingSlot placeholderSlot errorSlot loadingConfig
      placeholderConfig lMin lAfter pMin => rfl
  | deferOn trigger prefetch => rfl
  | projectionDef defExpr => rfl
  | projection handle projectionSlotIndex attributes => rfl
  | repeaterCreate xref handle emptyView tag attributes trackByFn usesComponentInstance
      decls vars => rfl
  | statement st => rfl
  | extractedAttribute name => rfl

/-- Witness for the `$event` frame property on a concrete non-listener op
carrying a `$event` lexical read. -/
theorem dollar_event_frame_witness :
    transformDollarEventOp
      (CreateOp.variableOp 0 (some "v") (Expr.lexicalRead "$event")) =
    CreateOp.variableOp 0 (some "v") (Expr.lexicalRead "$event") :=
  dollar_event_frame.1 (CreateOp.variableOp 0 (some "v") (Expr.lexicalRead "$event"))
    (fun _ _ _ _ _ _ heq => CreateOp.noConfusion heq)

end Reify

end Pipeline
